import Mathlib

/-!
# odbcpp 1.6: record binding, fetch protocol and diagnostics

A shallow embedding of `src/record.cpp`, `src/statement.cpp`, `src/handle.cpp`
and `src/diagnostic.cpp`, followed by the properties established about them.

Conventions of the embedding.

* `std::string` and `std::wstring` are lists of code units (`List Nat`); a C string
  read from a buffer is the run of units in front of the first zero unit.
* A memory block is the list of its bytes.
* `SQLSMALLINT`, `SQLINTEGER`, `SQLLEN`, `SQLRETURN` values are `Int`; where the
  source converts or overflows, the conversion is written out (`to_SQLSMALLINT`,
  `to_SQLUSMALLINT`, `to_SQLULEN`).
* The ODBC driver manager is outside the library. Its answers are a value of
  `driver`; memory it never initialises is answered by `garbage`.
* A C++ member function that can throw returns an `outcome`: the value it returns
  or the exception it raises, each with the state it leaves behind.
* A pointer or reference to an object of the caller is the current value of that
  object; two descriptors never refer to the same object. A pointer into raw
  memory is the list of the bytes found from its address on.
-/

namespace odbcpp

/-! ## ODBC constants (`sql.h`, `sqlext.h`) -/

abbrev SQL_SUCCESS : Int := 0
abbrev SQL_SUCCESS_WITH_INFO : Int := 1
abbrev SQL_NO_DATA : Int := 100
abbrev SQL_ERROR : Int := -1
abbrev SQL_NULL_DATA : Int := -1
abbrev SQL_FETCH_NEXT : Int := 1

abbrev SQL_UNKNOWN_TYPE : Int := 0
abbrev SQL_CHAR : Int := 1
abbrev SQL_NUMERIC : Int := 2
abbrev SQL_DECIMAL : Int := 3
abbrev SQL_INTEGER : Int := 4
abbrev SQL_SMALLINT : Int := 5
abbrev SQL_FLOAT : Int := 6
abbrev SQL_REAL : Int := 7
abbrev SQL_DOUBLE : Int := 8
abbrev SQL_DATE : Int := 9
abbrev SQL_TIME : Int := 10
abbrev SQL_TIMESTAMP : Int := 11
abbrev SQL_VARCHAR : Int := 12
abbrev SQL_TYPE_DATE : Int := 91
abbrev SQL_TYPE_TIME : Int := 92
abbrev SQL_TYPE_TIMESTAMP : Int := 93
abbrev SQL_LONGVARCHAR : Int := -1
abbrev SQL_BINARY : Int := -2
abbrev SQL_VARBINARY : Int := -3
abbrev SQL_LONGVARBINARY : Int := -4
abbrev SQL_BIGINT : Int := -5
abbrev SQL_TINYINT : Int := -6
abbrev SQL_BIT : Int := -7
abbrev SQL_WCHAR : Int := -8
abbrev SQL_WVARCHAR : Int := -9
abbrev SQL_WLONGVARCHAR : Int := -10
abbrev SQL_GUID : Int := -11

abbrev SQL_C_CHAR : Int := 1
abbrev SQL_C_WCHAR : Int := -8
abbrev SQL_C_LONG : Int := 4
abbrev SQL_C_SHORT : Int := 5
abbrev SQL_C_FLOAT : Int := 7
abbrev SQL_C_DOUBLE : Int := 8
abbrev SQL_C_NUMERIC : Int := 2
abbrev SQL_C_DATE : Int := 9
abbrev SQL_C_TIME : Int := 10
abbrev SQL_C_TIMESTAMP : Int := 11
abbrev SQL_C_BINARY : Int := -2
abbrev SQL_C_BIT : Int := -7
abbrev SQL_C_TINYINT : Int := -6
abbrev SQL_C_GUID : Int := -11
abbrev SQL_C_SBIGINT : Int := -25
abbrev SQL_C_UBIGINT : Int := -27
abbrev SQL_C_ULONG : Int := -18
abbrev SQL_C_USHORT : Int := -17
abbrev SQL_C_UTINYINT : Int := -28

abbrev SQL_DIAG_ROW_COUNT : Int := 3
abbrev SQL_DIAG_SQLSTATE : Int := 4
abbrev SQL_DIAG_NATIVE : Int := 5
abbrev SQL_DIAG_MESSAGE_TEXT : Int := 6
abbrev SQL_DIAG_CONNECTION_NAME : Int := 10
abbrev SQL_DIAG_SERVER_NAME : Int := 11

/-- Size in bytes of one `SQLWCHAR` (an `unsigned short`). -/
abbrev sizeof_SQLWCHAR : Nat := 2

/-- Size in bytes of one `SQLCHAR`. -/
abbrev sizeof_SQLCHAR : Nat := 1

/-! ## Machine integers -/

/-- Conversion of an integer to `SQLSMALLINT` (16 bits, two's complement). -/
def to_SQLSMALLINT (n : Int) : Int := (n + 32768) % 65536 - 32768

/-- Conversion of an integer to `SQLUSMALLINT` (16 bits, unsigned). -/
def to_SQLUSMALLINT (n : Int) : Nat := (n % 65536).toNat

/-- Conversion of an integer to `SQLUINTEGER` (32 bits, unsigned). -/
def to_SQLUINTEGER (n : Int) : Nat := (n % 4294967296).toNat

/-- Reduction of a natural number to `SQLULEN` / `size_t` (64 bits, unsigned). -/
def to_SQLULEN (n : Nat) : Nat := n % 18446744073709551616

/-! ## Strings and memory -/

/-- A `std::string` or `std::wstring`: its code units. -/
abbrev std_string := List Nat

/-- A string literal of the source. -/
def lit (s : String) : std_string := s.toList.map Char.toNat

/-- The C string that starts a block: the units in front of the first zero. -/
def c_str (block : List Nat) : std_string := block.takeWhile (fun u => u ≠ 0)

/-- A block of `n` bytes that nobody has initialised yet; `garbage` tells what
    each byte happens to hold. -/
def uninitialised (garbage : Nat → Nat) (n : Nat) : List Nat := (List.range n).map garbage

/-- What a writer who stores `data` at the start of `block` leaves there; a writer
    never extends the block. -/
def overwrite (block data : List Nat) : List Nat :=
  data.take block.length ++ block.drop data.length

/-- Reading a block of bytes as an array of `SQLWCHAR` (little endian). -/
def wide_units : List Nat → List Nat
  | lo :: hi :: rest => (lo + 256 * hi) :: wide_units rest
  | _ => []

/-- A column key: every operation on a column has two overloads, one that takes
    the name of the column and one that takes its number. -/
inductive column_key where
  | name (n : std_string)
  | col (c : Int)
  deriving DecidableEq, Repr

/-! ## `std::map`: an association list kept in key order -/

/-- The member `std::map::find`. -/
def map_find {κ α : Type} [DecidableEq κ] (k : κ) : List (κ × α) → Option α
  | [] => none
  | (k', v) :: rest => if k = k' then some v else map_find k rest

/-- The member `std::map::insert`: the pair goes to its place in key order; when the key is
    already present the map is left as it is. -/
def map_insert {κ α : Type} [DecidableEq κ] [LT κ] [DecidableRel (fun (a b : κ) => a < b)]
    (k : κ) (v : α) : List (κ × α) → List (κ × α)
  | [] => [(k, v)]
  | (k', v') :: rest =>
    if k = k' then (k', v') :: rest
    else if k < k' then (k, v) :: (k', v') :: rest
    else (k', v') :: map_insert k v rest

/-- Applying `f` to the value stored under `k`: a write through the pointer that
    `find` returns. -/
def map_modify {κ α : Type} [DecidableEq κ] (k : κ) (f : α → α) : List (κ × α) → List (κ × α)
  | [] => []
  | (k', v) :: rest => if k = k' then (k', f v) :: rest else (k', v) :: map_modify k f rest

/-- Applying `f` to the element at offset `p` of a `std::vector`: a write through
    the pointer stored there. -/
def vector_modify {α : Type} (f : α → α) : Nat → List α → List α
  | _, [] => []
  | 0, x :: xs => f x :: xs
  | p + 1, x :: xs => x :: vector_modify f p xs

/-! ## Diagnostics (`diagnostic.h`, `exception.h`) -/

/-- One diagnostic record, `diag_t`. -/
structure diag_t where
  f_server : std_string := []
  f_connection : std_string := []
  f_message : std_string := []
  f_odbc_state : std_string := []
  f_native_errno : Int := 0
  deriving DecidableEq, Repr

/-- The class `diagnostic`. `f_affected_rows` is `none` as long as no constructor or
    `set` has assigned it. -/
structure diagnostic where
  f_affected_rows : Option Int := none
  f_diag : List diag_t := []
  deriving DecidableEq, Repr

/-- The member `diagnostic::size()`. -/
def diagnostic.size (d : diagnostic) : Int := to_SQLSMALLINT d.f_diag.length

abbrev ODBCPP_NONE : Int := 0
abbrev ODBCPP_INTERNAL : Int := 1
abbrev ODBCPP_NO_DATA : Int := 2
abbrev ODBCPP_INCORRECT_USE : Int := 3
abbrev ODBCPP_NOT_IMPLEMENTED : Int := 4
abbrev ODBCPP_TYPE_MISMATCH : Int := 5
abbrev ODBCPP_NOT_FOUND : Int := 6

/-- The constructor `diagnostic::diagnostic(SQLINTEGER odbcpp_errno, const std::string& message)`. -/
def diagnostic.of_message (odbcpp_errno : Int) (message : std_string) : diagnostic :=
  { f_affected_rows := none
    f_diag := [{ f_message := message, f_odbc_state := lit "HY000", f_native_errno := odbcpp_errno }] }

/-- The exception `odbcpp_error`: it carries a copy of a diagnostic. -/
structure odbcpp_error where
  f_diag : diagnostic
  deriving DecidableEq, Repr

/-- The odbcpp error number an exception carries: the native error number of its
    first diagnostic record. -/
def odbcpp_error.code (e : odbcpp_error) : Option Int :=
  e.f_diag.f_diag.head?.map (fun d => d.f_native_errno)

/-- How a call of a member function ends: it returns `a` and leaves the state `st`,
    or it raises `e` and leaves the state `st`, or it never comes back. -/
inductive outcome (σ α : Type) where
  | returns (a : α) (st : σ)
  | raises (e : odbcpp_error) (st : σ)
  | diverges
  deriving DecidableEq, Repr

/-! ## The driver manager -/

/-- What one call of `SQLGetDiagField` leaves behind: its return code, the
    buffer it was given (for a text field) and the number it stored (for an
    integer or a length field). -/
structure diag_field where
  return_code : Int
  buffer : List Nat := []
  number : Int := 0
  deriving DecidableEq, Repr

/-- What one call of `SQLDescribeCol` leaves behind. `column_name` is the content
    of the `ColumnName` buffer after the call. -/
structure describe_col where
  return_code : Int
  column_name : List Nat := []
  name_length : Int := 0
  data_type : Int := 0
  column_size : Nat := 0
  decimal_digits : Int := 0
  deriving DecidableEq, Repr

/-- What a fetch stores for one bound column: the bytes for the bound buffer and
    the value for the length/indicator cell. -/
structure cell where
  data : List Nat
  ind : Int
  deriving DecidableEq, Repr

/-- The answers of the ODBC driver manager to the calls the library makes, and
    the content of memory the library allocates without initialising it.

* `SQLGetDiagField handle_type handle record identifier`;
* `SQLNumResultCols`, `SQLRowCount`: return code and the count stored;
* `SQLDescribeCol column`;
* `SQLBindCol column target_type buffer_length`: return code;
* `SQLFetch`, `SQLFetchScroll orientation offset`: return code and, for each
  column number, what the driver stores for it. -/
structure driver where
  SQLGetDiagField : Int → Nat → Int → Int → diag_field
  SQLExecDirect : std_string → Int
  SQLCancel : Int
  SQLCloseCursor : Int
  SQLNumResultCols : Int × Int
  SQLRowCount : Int × Int
  SQLDescribeCol : Nat → describe_col
  SQLBindCol : Nat → Int → Nat → Int
  SQLFetch : Int × (Nat → Option cell)
  SQLFetchScroll : Int → Int → Int × (Nat → Option cell)
  garbage : Nat → Nat

/-- A registration the driver holds after a successful `SQLBindCol`: for column
    `column` of the statement at address `stmt`, the memory of the descriptor
    `target`, `buffer_length` bytes long. -/
structure bound_column (κ : Type) where
  stmt : Nat
  column : Nat
  target_type : Int
  target : κ
  buffer_length : Nat
  deriving DecidableEq, Repr

/-- The registrations without that of the column `column` of the statement at
    `stmt`: the effect of `SQLBindCol` with a null `TargetValuePtr`. -/
def unbind_column {κ : Type} (stmt column : Nat) (t : List (bound_column κ)) :
    List (bound_column κ) :=
  t.filter (fun x => ¬ (x.stmt = stmt ∧ x.column = column))

/-- The effect of `SQLBindCol` on the registrations: a column of a statement has
    one registration, the latest. -/
def register_column {κ : Type} (b : bound_column κ) (t : List (bound_column κ)) :
    List (bound_column κ) :=
  unbind_column b.stmt b.column t ++ [b]

/-! ## `diagnostic::set` and the constructors of `diagnostic` (`diagnostic.cpp`) -/

/-- The static member `diagnostic::get_string`: whether the field was retrieved,
    and the string it leaves in its output argument. -/
def diagnostic.get_string (drv : driver) (handle_type : Int) (handle : Nat) (record : Int)
    (identifier : Int) : Bool × std_string :=
  let r := drv.SQLGetDiagField handle_type handle record identifier
  if r.return_code = SQL_SUCCESS ∨ r.return_code = SQL_SUCCESS_WITH_INFO then
    (true, c_str (r.buffer.set 1023 0))
  else
    (false, [])

/-- The static member `diagnostic::get_integer`. -/
def diagnostic.get_integer (drv : driver) (handle_type : Int) (handle : Nat) (record : Int)
    (identifier : Int) : Bool × Int :=
  let r := drv.SQLGetDiagField handle_type handle record identifier
  if r.return_code = SQL_SUCCESS ∨ r.return_code = SQL_SUCCESS_WITH_INFO then
    (true, r.number)
  else
    (false, 0)

/-- The static member `diagnostic::get_length`. -/
def diagnostic.get_length (drv : driver) (handle_type : Int) (handle : Nat) (record : Int)
    (identifier : Int) : Bool × Int :=
  let r := drv.SQLGetDiagField handle_type handle record identifier
  if r.return_code = SQL_SUCCESS ∨ r.return_code = SQL_SUCCESS_WITH_INFO then
    (true, r.number)
  else
    (false, 0)

/-- The loop `for(record = 1;; ++record)` of `diagnostic::set`, started at `record`
    with the records collected so far; `none` when `fuel` iterations did not reach
    a field the driver refuses. -/
def diagnostic.set_loop (drv : driver) (handle_type : Int) (handle : Nat) :
    Nat → Int → List diag_t → Option (List diag_t)
  | 0, _, _ => none
  | fuel + 1, record, acc =>
    let server := diagnostic.get_string drv handle_type handle record SQL_DIAG_SERVER_NAME
    if server.1 = false then some acc else
    let connection := diagnostic.get_string drv handle_type handle record SQL_DIAG_CONNECTION_NAME
    if connection.1 = false then some acc else
    let message := diagnostic.get_string drv handle_type handle record SQL_DIAG_MESSAGE_TEXT
    if message.1 = false then some acc else
    let native := diagnostic.get_integer drv handle_type handle record SQL_DIAG_NATIVE
    if native.1 = false then some acc else
    let state := diagnostic.get_string drv handle_type handle record SQL_DIAG_SQLSTATE
    if state.1 = false then some acc else
    diagnostic.set_loop drv handle_type handle fuel (to_SQLSMALLINT (record + 1))
      (acc ++ [{ f_server := server.2, f_connection := connection.2, f_message := message.2,
                 f_odbc_state := state.2, f_native_errno := native.2 }])

/-- The member `diagnostic::set(handle_type, handle)`. The record counter is a
    `SQLSMALLINT`: once the driver has answered all 65536 record numbers the loop
    is back where it started, so a run of 65536 iterations that meets no refusal
    never ends (`none`). -/
def diagnostic.set (drv : driver) (handle_type : Int) (handle : Nat) (d : diagnostic) :
    Option diagnostic :=
  let rows := diagnostic.get_length drv handle_type handle 0 SQL_DIAG_ROW_COUNT
  match diagnostic.set_loop drv handle_type handle 65536 1 d.f_diag with
  | none => none
  | some l => some { f_affected_rows := some rows.2, f_diag := l }

/-! ## `diag_t::msg` and `diagnostic::msg` (`diagnostic.cpp`) -/

/-- The member `diag_t::msg()`: the five fields written to a string stream, the
    native error number in decimal. -/
def diag_t.msg (d : diag_t) : std_string :=
  lit "[server:" ++ d.f_server
    ++ lit "][connection:" ++ d.f_connection
    ++ lit "][state:" ++ d.f_odbc_state
    ++ lit "][native_errno:" ++ lit (toString d.f_native_errno)
    ++ lit "] " ++ d.f_message

/-- The loop `for(record = 0; record < size(); ++record)` of `diagnostic::msg`, at the
    counter `record` with the string `result` built so far; `none` when `fuel`
    iterations did not end it. -/
def diagnostic.msg_loop (d : diagnostic) : Nat → Int → std_string → Option std_string
  | 0, _, _ => none
  | fuel + 1, record, result =>
    if record < d.size then
      let result1 := if result ≠ [] then result ++ lit "\n" else result
      diagnostic.msg_loop d fuel (to_SQLSMALLINT (record + 1))
        (result1 ++ (d.f_diag.getD record.toNat {}).msg)
    else some result

/-- The member `diagnostic::msg()`. The counter starts at 0 and `size()` is at most
    32767, so 32768 iterations are enough fuel for every diagnostic. -/
def diagnostic.msg (d : diagnostic) : Option std_string :=
  diagnostic.msg_loop d 32768 0 []

/-- Strings joined by a single newline, with no newline in front of the first
    string or behind the last one; the empty string for no strings. -/
def newline_joined : List std_string → std_string
  | [] => []
  | [a] => a
  | a :: b :: rest => a ++ lit "\n" ++ newline_joined (b :: rest)

/-- The five fields of the diagnostic record `record` of a handle as `diagnostic::set`
    reads them from the driver. -/
def diagnostic.record_at (drv : driver) (handle_type : Int) (handle : Nat) (record : Int) :
    diag_t :=
  { f_server := (diagnostic.get_string drv handle_type handle record SQL_DIAG_SERVER_NAME).2
    f_connection :=
      (diagnostic.get_string drv handle_type handle record SQL_DIAG_CONNECTION_NAME).2
    f_message := (diagnostic.get_string drv handle_type handle record SQL_DIAG_MESSAGE_TEXT).2
    f_odbc_state := (diagnostic.get_string drv handle_type handle record SQL_DIAG_SQLSTATE).2
    f_native_errno := (diagnostic.get_integer drv handle_type handle record SQL_DIAG_NATIVE).2 }

/-- Whether the five field queries of `diagnostic::set` all succeed for the record
    `record` of a handle: server name, connection name, message text, native error
    and SQL state. -/
def diagnostic.fields_succeed (drv : driver) (handle_type : Int) (handle : Nat) (record : Int) :
    Bool :=
  (diagnostic.get_string drv handle_type handle record SQL_DIAG_SERVER_NAME).1
  && (diagnostic.get_string drv handle_type handle record SQL_DIAG_CONNECTION_NAME).1
  && (diagnostic.get_string drv handle_type handle record SQL_DIAG_MESSAGE_TEXT).1
  && (diagnostic.get_integer drv handle_type handle record SQL_DIAG_NATIVE).1
  && (diagnostic.get_string drv handle_type handle record SQL_DIAG_SQLSTATE).1

/-- The diagnostic records 1 to `n` of a handle, in the order of the driver. -/
def diagnostic.driver_records (drv : driver) (handle_type : Int) (handle : Nat) (n : Nat) :
    List diag_t :=
  (List.range n).map (fun (i : Nat) => diagnostic.record_at drv handle_type handle ((i : Int) + 1))

/-! ## `handle` (`handle.cpp`) -/

/-- The class `handle`. `f_handle` is the ODBC handle, 0 for `SQL_NULL_HANDLE`. -/
structure handle where
  f_handle : Nat
  f_handle_type : Int
  f_diag : diagnostic := {}
  deriving DecidableEq, Repr

/-- The constructor `diagnostic::diagnostic(handle_type, hdl, parent)`; `parent` is
    `none` for the null pointer. -/
def diagnostic.of_handle (drv : driver) (handle_type : Int) (hdl : Nat) (parent : Option handle) :
    Option diagnostic :=
  if hdl = 0 then
    match parent with
    | none =>
      some { f_affected_rows := none
             f_diag := [{ f_message := lit "no handle available to read an error",
                          f_odbc_state := lit "HY001", f_native_errno := ODBCPP_INTERNAL }] }
    | some p => diagnostic.set drv p.f_handle_type p.f_handle {}
  else
    diagnostic.set drv handle_type hdl {}

/-- The member `handle::check(return_code, parent)`. The state is the handle: `check`
    assigns its mutable member `f_diag`. -/
def handle.check (drv : driver) (h : handle) (return_code : Int) (parent : Option handle) :
    outcome handle Int :=
  if return_code = SQL_SUCCESS then
    .returns return_code { h with f_diag := {} }
  else
    match diagnostic.of_handle drv h.f_handle_type h.f_handle parent with
    | none => .diverges
    | some d =>
      if return_code = SQL_SUCCESS_WITH_INFO then
        .returns return_code { h with f_diag := d }
      else
        .raises ⟨d⟩ { h with f_diag := d }

/-! ## `statement` (`statement.cpp`) -/

/-- The class `statement`, a `handle`. `addr` is the address of the object: two
    statements are the same object when their addresses are equal. -/
structure statement extends handle where
  addr : Nat
  f_has_data : Bool := false
  f_no_direct_fetch : Bool := false
  deriving DecidableEq, Repr

namespace statement

/-- The members of a statement that `check` leaves alone, with its address. -/
def frame (s : statement) : Nat × Bool × Bool := (s.addr, s.f_has_data, s.f_no_direct_fetch)

/-- A call `check(return_code)` made by a member of `statement` on itself. -/
def check (drv : driver) (s : statement) (return_code : Int) : outcome statement Int :=
  match handle.check drv s.tohandle return_code none with
  | .returns a h => .returns a { s with tohandle := h }
  | .raises e h => .raises e { s with tohandle := h }
  | .diverges => .diverges

/-- The member `statement::set_no_direct_fetch`. -/
def set_no_direct_fetch (s : statement) (no_direct_fetch : Bool) : statement :=
  { s with f_no_direct_fetch := no_direct_fetch }

/-- The member `statement::execute(order)`. -/
def execute (drv : driver) (s : statement) (order : std_string) : outcome statement Unit :=
  let s0 := { s with f_has_data := false }
  match s0.check drv (drv.SQLExecDirect order) with
  | .returns _ s1 => .returns () { s1 with f_has_data := true }
  | .raises e s1 => .raises e s1
  | .diverges => .diverges

/-- The member `statement::has_data()`. -/
def has_data (s : statement) : outcome statement Unit :=
  if s.f_has_data = false then
    .raises ⟨diagnostic.of_message ODBCPP_NO_DATA
      (lit "no SQL command was executed, the statement has no data available")⟩ s
  else
    .returns () s

/-- The member `statement::cancel()`. -/
def cancel (drv : driver) (s : statement) : outcome statement Unit :=
  match s.has_data with
  | .raises e s1 => .raises e s1
  | .diverges => .diverges
  | .returns _ s1 =>
    match ({ s1 with f_has_data := false } : statement).check drv drv.SQLCancel with
    | .returns _ s2 => .returns () s2
    | .raises e s2 => .raises e s2
    | .diverges => .diverges

/-- The member `statement::close_cursor()`. -/
def close_cursor (drv : driver) (s : statement) : outcome statement Unit :=
  match s.has_data with
  | .raises e s1 => .raises e s1
  | .diverges => .diverges
  | .returns _ s1 =>
    match ({ s1 with f_has_data := false } : statement).check drv drv.SQLCloseCursor with
    | .returns _ s2 => .returns () s2
    | .raises e s2 => .raises e s2
    | .diverges => .diverges

/-- The member `statement::cols()`; the driver stores the count in a `SQLSMALLINT`. -/
def cols (drv : driver) (s : statement) : outcome statement Int :=
  match s.has_data with
  | .raises e s1 => .raises e s1
  | .diverges => .diverges
  | .returns _ s1 =>
    match s1.check drv drv.SQLNumResultCols.1 with
    | .returns _ s2 => .returns (to_SQLSMALLINT drv.SQLNumResultCols.2) s2
    | .raises e s2 => .raises e s2
    | .diverges => .diverges

/-- The member `statement::rows()`. -/
def rows (drv : driver) (s : statement) : outcome statement Int :=
  match s.has_data with
  | .raises e s1 => .raises e s1
  | .diverges => .diverges
  | .returns _ s1 =>
    match s1.check drv drv.SQLRowCount.1 with
    | .returns _ s2 => .returns drv.SQLRowCount.2 s2
    | .raises e s2 => .raises e s2
    | .diverges => .diverges

end statement

/-! ## `record_base` (`record.cpp`, `record.h`) -/

/-- What `record_base` and `statement::fetch` need of a record class `R`: the
    member `f_statement` (the address of the bound statement, `none` for null), the
    virtual members `bind_impl` and `finalize`, and `store`, the effect on the
    record's memory of a fetch that delivers the row `row` to the columns the
    statement at the given address has bound. -/
structure record_ops (R : Type) where
  f_statement : R → Option Nat
  set_statement : Option Nat → R → R
  bind_impl : driver → statement → R → outcome (statement × R) Unit
  finalize : R → R
  store : (Nat → Option cell) → Nat → R → R

namespace record_base

/-- The member `record_base::is_bound()`. -/
def is_bound {R : Type} (ops : record_ops R) (rec : R) : Bool := (ops.f_statement rec).isSome

/-- The member `record_base::unbind()`. -/
def unbind {R : Type} (ops : record_ops R) (rec : R) : R := ops.set_statement none rec

/-- The member `record_base::bind(stmt)`. -/
def bind {R : Type} (ops : record_ops R) (drv : driver) (stmt : statement) (rec : R) :
    outcome (statement × R) Unit :=
  if ops.f_statement rec = some stmt.addr then
    .returns () (stmt, rec)
  else if (ops.f_statement rec).isSome then
    .raises ⟨diagnostic.of_message ODBCPP_INCORRECT_USE
      (lit "records can be used with at most one statement")⟩ (stmt, rec)
  else
    ops.bind_impl drv stmt (ops.set_statement (some stmt.addr) rec)

end record_base

/-- Whether a fetch call delivered a row: `SQL_SUCCESS` or `SQL_SUCCESS_WITH_INFO`.
    A fetch call that delivers no row stores nothing in the bound buffers. -/
def row_delivered (return_code : Int) : Bool :=
  return_code = SQL_SUCCESS ∨ return_code = SQL_SUCCESS_WITH_INFO

/-- The member `statement::fetch(rec, orientation, offset)`. -/
def statement.fetch {R : Type} (ops : record_ops R) (drv : driver) (s : statement) (rec : R)
    (orientation : Int) (offset : Int) : outcome (statement × R) Bool :=
  match record_base.bind ops drv s rec with
  | .diverges => .diverges
  | .raises e st => .raises e st
  | .returns _ (s1, rec1) =>
    match s1.has_data with
    | .diverges => .diverges
    | .raises e s2 => .raises e (s2, rec1)
    | .returns _ s2 =>
      let answer :=
        if orientation = SQL_FETCH_NEXT ∧ s2.f_no_direct_fetch = false then drv.SQLFetch
        else drv.SQLFetchScroll orientation offset
      let return_code := answer.1
      let rec2 := if row_delivered return_code then ops.store answer.2 s2.addr rec1 else rec1
      if return_code = SQL_NO_DATA then
        .returns false (s2, rec2)
      else
        match s2.check drv return_code with
        | .diverges => .diverges
        | .raises e s3 => .raises e (s3, rec2)
        | .returns _ s3 => .returns true (s3, ops.finalize rec2)

/-! ## The loop over the columns shared by the two `bind_impl` (`record.cpp`) -/

/-- The loop `for(idx = 1; idx <= max; ++idx)` of `bind_impl`, started at `idx`, for
    a loop body `body`; `.diverges` when `fuel` iterations did not end it. -/
def bind_loop {R : Type} (body : Int → statement → R → outcome (statement × R) Unit)
    (max : Int) : Nat → Int → statement → R → outcome (statement × R) Unit
  | 0, idx, s, r => if idx ≤ max then .diverges else .returns () (s, r)
  | fuel + 1, idx, s, r =>
    if idx ≤ max then
      match body idx s r with
      | .diverges => .diverges
      | .raises e st => .raises e st
      | .returns _ (s1, r1) => bind_loop body max fuel (to_SQLSMALLINT (idx + 1)) s1 r1
    else .returns () (s, r)

/-! ## `record`: the static record (`record.cpp`) -/

/-- The types of caller variables that `record::bind` takes by reference, apart
    from the two string types and the binary buffer. -/
inductive fixed_type where
  | sqlchar | sqlschar
  | sqlsmallint | sqlusmallint
  | sqlinteger | sqluinteger
  | sqlbigint | sqlubigint
  | sqlreal | sqlfloat
  | date | time | timestamp | numeric | guid
  deriving DecidableEq, Repr

/-- The `f_target_type` each overload of `record::bind` stores. -/
def fixed_type.target_type : fixed_type → Int
  | .sqlchar => SQL_C_TINYINT
  | .sqlschar => SQL_C_TINYINT
  | .sqlsmallint => SQL_C_SHORT
  | .sqlusmallint => SQL_C_USHORT
  | .sqlinteger => SQL_C_LONG
  | .sqluinteger => SQL_C_ULONG
  | .sqlbigint => SQL_C_SBIGINT
  | .sqlubigint => SQL_C_UBIGINT
  | .sqlreal => SQL_C_FLOAT
  | .sqlfloat => SQL_C_DOUBLE
  | .date => SQL_C_DATE
  | .time => SQL_C_TIME
  | .timestamp => SQL_C_TIMESTAMP
  | .numeric => SQL_C_NUMERIC
  | .guid => SQL_C_GUID

/-- The `f_size` each overload of `record::bind` stores: the `sizeof` of the type. -/
def fixed_type.sizeof : fixed_type → Nat
  | .sqlchar => 1
  | .sqlschar => 1
  | .sqlsmallint => 2
  | .sqlusmallint => 2
  | .sqlinteger => 4
  | .sqluinteger => 4
  | .sqlbigint => 8
  | .sqlubigint => 8
  | .sqlreal => 4
  | .sqlfloat => 8
  | .date => 6
  | .time => 6
  | .timestamp => 16
  | .numeric => 19
  | .guid => 16

/-- The caller's variable handed to `record::bind`; a pointer or reference to an
    object is the current value of the object, and two descriptors never refer to
    the same object.

* `string s`, `wstring s`: a `std::string` / `std::wstring` holding `s`;
* `fixed t block`: a variable of type `t` whose bytes are `block`;
* `binary block length`: a `SQLCHAR *` (`none` for null) and the length given. -/
inductive host_variable where
  | string (s : std_string)
  | wstring (s : std_string)
  | fixed (t : fixed_type) (block : List Nat)
  | binary (block : Option (List Nat)) (length : Int)
  deriving DecidableEq, Repr

/-- The member `f_data` of `record::bind_info_t`, a `SQLPOINTER`: null, a pointer to
    the caller's variable (whose bytes are `block`), or the pointer that
    `f_data_buffer->get()` returned. -/
inductive data_pointer where
  | null
  | host (block : List Nat)
  | data_buffer
  deriving DecidableEq, Repr

/-- The descriptor `record::bind_info_t`.

* `f_is_null`: `none` for a null pointer, otherwise the value of the caller's `bool`;
* `f_data_buffer`: `none` for a null smart pointer, otherwise the block of the buffer;
* `f_string`: the union of `f_string` and `f_wstring`; `none` for a null pointer,
  otherwise the content of the caller's string. -/
structure record.bind_info_t where
  f_name : std_string := []
  f_col : Int := 0
  f_target_type : Int := SQL_UNKNOWN_TYPE
  f_data : data_pointer := .null
  f_size : Nat := 0
  f_fetch_size : Int := 0
  f_is_null : Option Bool := none
  f_data_buffer : Option (List Nat) := none
  f_string : Option std_string := none
  deriving DecidableEq, Repr

instance : Inhabited record.bind_info_t := ⟨{}⟩

/-- The class `record`. `driver_bindings` is what the driver holds of this record:
    the registrations made by the calls of `SQLBindCol` in `bind_impl`. -/
structure record where
  f_statement : Option Nat := none
  f_bind_by_name : List (std_string × record.bind_info_t) := []
  f_bind_by_col : List (Int × record.bind_info_t) := []
  driver_bindings : List (bound_column column_key) := []
  deriving DecidableEq, Repr

namespace record

/-- The block `f_data` points to, `none` for a null pointer. -/
def bind_info_t.block (info : bind_info_t) : Option (List Nat) :=
  match info.f_data with
  | .null => none
  | .host block => some block
  | .data_buffer => info.f_data_buffer

/-- A store of `block` through `f_data`. -/
def bind_info_t.set_block (info : bind_info_t) (block : List Nat) : bind_info_t :=
  match info.f_data with
  | .null => info
  | .host _ => { info with f_data := .host block }
  | .data_buffer => { info with f_data_buffer := some block }

/-- The descriptor each overload of `record::bind` builds for the variable `v`. -/
def new_bind_info (key : column_key) (v : host_variable) (is_null : Option Bool) : bind_info_t :=
  let bi : bind_info_t :=
    match key with
    | .name n => { f_name := n }
    | .col c => { f_col := c }
  match v with
  | .string str =>
    { bi with f_target_type := SQL_C_CHAR, f_is_null := is_null, f_string := some str }
  | .wstring str =>
    { bi with f_target_type := SQL_C_WCHAR, f_is_null := is_null, f_string := some str }
  | .fixed t block =>
    { bi with f_target_type := t.target_type, f_data := .host block, f_size := t.sizeof,
              f_is_null := is_null }
  | .binary block length =>
    { bi with f_target_type := SQL_C_BINARY,
              f_data := (match block with
                         | none => .null
                         | some b => .host b),
              f_size := (length % 18446744073709551616).toNat,
              f_is_null := is_null }

/-- The overloads `record::bind(name, variable, is_null)` and
    `record::bind(col, variable, is_null)`. -/
def bind (r : record) (key : column_key) (v : host_variable) (is_null : Option Bool) : record :=
  match key with
  | .name n =>
    { r with f_bind_by_name := map_insert n (new_bind_info key v is_null) r.f_bind_by_name }
  | .col c =>
    { r with f_bind_by_col := map_insert c (new_bind_info key v is_null) r.f_bind_by_col }

/-- The descriptor stored under a key, if any. -/
def find (r : record) : column_key → Option bind_info_t
  | .name n => map_find n r.f_bind_by_name
  | .col c => map_find c r.f_bind_by_col

/-- A write through the pointer to the descriptor stored under a key. -/
def modify (r : record) (key : column_key) (f : bind_info_t → bind_info_t) : record :=
  match key with
  | .name n => { r with f_bind_by_name := map_modify n f r.f_bind_by_name }
  | .col c => { r with f_bind_by_col := map_modify c f r.f_bind_by_col }

/-- The size computation of `record::bind_impl` for a string descriptor: the column
    size `size`, 8192 when it is 0, plus one character. -/
def string_size (target_type : Int) (size : Nat) : Nat :=
  let size1 := if size = 0 then 8 * 1024 else size
  if target_type = SQL_C_WCHAR then
    to_SQLULEN (to_SQLULEN (size1 + 1) * sizeof_SQLWCHAR)
  else
    to_SQLULEN (size1 + sizeof_SQLCHAR)

/-- The assignments of `record::bind_impl` to a string descriptor once its size
    `f_size` is computed: the size, a new buffer of `f_size + sizeof(SQLWCHAR)` bytes
    for `f_data_buffer`, and its pointer for `f_data`. -/
def with_buffer (drv : driver) (f_size : Nat) (i : bind_info_t) : bind_info_t :=
  { i with f_size := f_size
           f_data_buffer := some (uninitialised drv.garbage (to_SQLULEN (f_size + sizeof_SQLWCHAR)))
           f_data := .data_buffer }

/-- The column size a string descriptor gets in `record::bind_impl`: the local
    `size`, or, when it is 0, what a call of `SQLDescribeCol` stores. -/
def described_size (drv : driver) (idx : Int) (size : Nat) (s : statement) :
    outcome statement Nat :=
  if size = 0 then
    let dc := drv.SQLDescribeCol (to_SQLUSMALLINT idx)
    match s.check drv dc.return_code with
    | .diverges => .diverges
    | .raises e s1 => .raises e s1
    | .returns _ s1 => .returns (to_SQLULEN dc.column_size) s1
  else .returns size s

/-- The statement `if(info->f_target_type == SQL_C_CHAR || ... == SQL_C_WCHAR) { ... }` of
    `record::bind_impl`; `key` names the descriptor `info` points to. -/
def size_string_buffer (drv : driver) (idx : Int) (key : column_key) (size : Nat)
    (s : statement) (r : record) : outcome (statement × record) Unit :=
  let info := (r.find key).getD default
  if info.f_target_type = SQL_C_CHAR ∨ info.f_target_type = SQL_C_WCHAR then
    match described_size drv idx size s with
    | .diverges => .diverges
    | .raises e s1 => .raises e (s1, r)
    | .returns size1 s1 =>
      .returns () (s1, r.modify key (with_buffer drv (string_size info.f_target_type size1)))
  else .returns () (s, r)

/-- The registration that `SQLBindCol` makes for the column `idx` and the
    descriptor `info` stored under `key`. -/
def registration (stmt : Nat) (idx : Int) (key : column_key) (info : bind_info_t) :
    bound_column column_key :=
  { stmt := stmt, column := to_SQLUSMALLINT idx, target_type := info.f_target_type,
    target := key, buffer_length := info.f_size }

/-- The statement `f_statement->check(SQLBindCol(...))` of `record::bind_impl`. A null
    `TargetValuePtr` unbinds the column. -/
def bind_col (drv : driver) (idx : Int) (key : column_key) (s : statement) (r : record) :
    outcome (statement × record) Unit :=
  let info := (r.find key).getD default
  match s.check drv (drv.SQLBindCol (to_SQLUSMALLINT idx) info.f_target_type info.f_size) with
  | .diverges => .diverges
  | .raises e s1 => .raises e (s1, r)
  | .returns _ s1 =>
    let bindings :=
      if info.f_data = .null then unbind_column s1.addr (to_SQLUSMALLINT idx) r.driver_bindings
      else register_column (registration s1.addr idx key info) r.driver_bindings
    .returns () (s1, { r with driver_bindings := bindings })

/-- The last part of the body of the loop of `record::bind_impl`, from the comment
    `got some info, let's bind` on: `key` names the descriptor `info` points to and
    `size` is the local variable `size`. -/
def bind_info (drv : driver) (idx : Int) (key : column_key) (size : Nat) (s : statement)
    (r : record) : outcome (statement × record) Unit :=
  match size_string_buffer drv idx key size s r with
  | .diverges => .diverges
  | .raises e st => .raises e st
  | .returns _ (s1, r1) => bind_col drv idx key s1 r1

/-- The body of the loop of `record::bind_impl` for the column `idx`. -/
def bind_column (drv : driver) (idx : Int) (s : statement) (r : record) :
    outcome (statement × record) Unit :=
  match map_find idx r.f_bind_by_col with
  | none =>
    let dc := drv.SQLDescribeCol (to_SQLUSMALLINT idx)
    match s.check drv dc.return_code with
    | .diverges => .diverges
    | .raises e s1 => .raises e (s1, r)
    | .returns _ s1 =>
      let column_name := c_str (dc.column_name.set 255 0)
      match map_find column_name r.f_bind_by_name with
      | none => .returns () (s1, r)
      | some _ => bind_info drv idx (.name column_name) (to_SQLULEN dc.column_size) s1 r
  | some _ => bind_info drv idx (.col idx) 0 s r

/-- The test by which the body of the loop of `record::bind_impl` picks the
    descriptor for the column `idx`: the descriptor registered under the index
    `idx` when there is one, otherwise the descriptor registered under the name the
    driver reports for the column. -/
def selects (drv : driver) (r : record) (idx : Int) : column_key → Prop
  | .col k => idx = k ∧ (map_find idx r.f_bind_by_col).isSome = true
  | .name n =>
    map_find idx r.f_bind_by_col = none
    ∧ c_str ((drv.SQLDescribeCol (to_SQLUSMALLINT idx)).column_name.set 255 0) = n
    ∧ (map_find n r.f_bind_by_name).isSome = true

instance (drv : driver) (r : record) (idx : Int) (key : column_key) :
    Decidable (selects drv r idx key) := by
  cases key <;> (unfold selects; infer_instance)

/-- The invariant of the loop of `record::bind_impl` seen from the descriptor
    `info`, a narrow string registered under `key` in the record `r0` the loop
    started from, that only the column `c` selects (`size` is the buffer size
    computed for it): the loop stays on the statement at `addr`, it leaves the keys
    of the record alone; up to the column `c` the descriptor is as it was and the
    driver holds no registration for it; past the column `c` the descriptor has
    its buffer and the driver holds the one registration made at `c`. -/
def binding_invariant (drv : driver) (r0 : record) (key : column_key) (info : bind_info_t)
    (c : Int) (size addr : Nat) (idx : Int) (s : statement) (r : record) : Prop :=
  s.addr = addr
  ∧ (∀ k, (r.find k).isSome = (r0.find k).isSome)
  ∧ (idx ≤ c → r.find key = some info ∧ ∀ b ∈ r.driver_bindings, b.target ≠ key)
  ∧ (c < idx → r.find key = some (with_buffer drv size info)
      ∧ r.driver_bindings.filter (fun b => b.target = key)
          = [registration addr c key (with_buffer drv size info)])

/-- The state in which `bind_impl` leaves a narrow string descriptor registered
    under `key` that it has bound to the column `c` of the statement at `addr`, with
    the buffer size `size`: the descriptor points to its own buffer of `size + 2`
    bytes, and the driver holds one registration for it, of `size` bytes. -/
def string_bound (r : record) (key : column_key) (addr : Nat) (c : Int) (size : Nat) : Prop :=
  ∃ (d : bind_info_t) (blk : List Nat) (old : std_string),
    r.find key = some d ∧ d.f_target_type = SQL_C_CHAR ∧ d.f_string = some old
    ∧ d.f_data = .data_buffer ∧ d.f_data_buffer = some blk ∧ blk.length = size + 2
    ∧ d.f_size = size
    ∧ r.driver_bindings.filter (fun b => b.target = key)
        = [{ stmt := addr, column := to_SQLUSMALLINT c, target_type := SQL_C_CHAR,
             target := key, buffer_length := size }]

/-- A record bound to the statement `s` in which the narrow string registered
    under `key` is bound to the column `c`, of driver-declared width `w`. -/
def string_ready (r : record) (s : statement) (key : column_key) (c : Int) (w : Nat) : Prop :=
  r.f_statement = some s.addr
  ∧ string_bound r key s.addr c (string_size SQL_C_CHAR (to_SQLULEN w))

/-- The member `record::bind_impl()`; `s` is the statement `f_statement` points to.
    The counter `idx` is a `SQLSMALLINT` and the body answers a column number the
    same way each time, so a loop that has not ended after 65536 iterations never
    ends. -/
def bind_impl (drv : driver) (s : statement) (r : record) : outcome (statement × record) Unit :=
  match s.cols drv with
  | .diverges => .diverges
  | .raises e s1 => .raises e (s1, r)
  | .returns count s1 => bind_loop (bind_column drv) (to_SQLSMALLINT count) 65536 1 s1 r

/-- The first statement of `record::finalize_info`: the null flag. -/
def set_null_flag (info : bind_info_t) : bind_info_t :=
  match info.f_is_null with
  | none => info
  | some _ => { info with f_is_null := some (decide (info.f_fetch_size = SQL_NULL_DATA)) }

/-- The second statement of `record::finalize_info`: the caller's string is cleared. -/
def clear_string (info : bind_info_t) : bind_info_t :=
  match info.f_string with
  | none => info
  | some _ =>
    if info.f_target_type = SQL_C_CHAR then { info with f_string := some [] }
    else if info.f_target_type = SQL_C_WCHAR then { info with f_string := some [] }
    else info

/-- The third statement of `record::finalize_info`: the terminator is stored in the
    landing buffer and the C string is copied to the caller's string. -/
def copy_string (info : bind_info_t) : bind_info_t :=
  match info.block, info.f_string with
  | some block, some str =>
    if info.f_size > 0 ∧ info.f_fetch_size ≠ SQL_NULL_DATA then
      if info.f_target_type = SQL_C_CHAR then
        let s := block.set info.f_size 0
        { info.set_block s with f_string := some (c_str s) }
      else if info.f_target_type = SQL_C_WCHAR then
        let at_unit := info.f_size / sizeof_SQLWCHAR
        let s := (block.set (sizeof_SQLWCHAR * at_unit) 0).set (sizeof_SQLWCHAR * at_unit + 1) 0
        { info.set_block s with f_string := some (str ++ c_str (wide_units s)) }
      else info
    else info
  | _, _ => info

/-- The member `record::finalize_info(info)`. -/
def finalize_info (info : bind_info_t) : bind_info_t :=
  copy_string (clear_string (set_null_flag info))

/-- The member `record::finalize()`: every descriptor of `f_bind_by_col`, then every
    descriptor of `f_bind_by_name`. -/
def finalize (r : record) : record :=
  { r with
    f_bind_by_col := r.f_bind_by_col.map (fun e => (e.1, finalize_info e.2))
    f_bind_by_name := r.f_bind_by_name.map (fun e => (e.1, finalize_info e.2)) }

/-- What the driver stores through the two pointers of a registration when a
    fetch delivers `c` to its column: at most `buffer_length` bytes at `f_data`, and
    the length/indicator in `f_fetch_size`. -/
def written (buffer_length : Nat) (c : cell) (i : bind_info_t) : bind_info_t :=
  let i1 : bind_info_t :=
    match i.block with
    | none => i
    | some block => i.set_block (overwrite block (c.data.take buffer_length))
  { i1 with f_fetch_size := c.ind }

/-- The driver's stores for the registration of the descriptor under `key`. -/
def write (r : record) (key : column_key) (buffer_length : Nat) (c : cell) : record :=
  r.modify key (written buffer_length c)

/-- What the driver does for one registration when a fetch on the statement at
    address `stmt` delivers the row `row`. -/
def deliver (row : Nat → Option cell) (stmt : Nat) (r : record) (b : bound_column column_key) :
    record :=
  if b.stmt = stmt then
    match row b.column with
    | none => r
    | some c => r.write b.target b.buffer_length c
  else r

/-- The effect on the record of a fetch on the statement at address `stmt` that
    delivers the row `row`: every registration the driver holds is served. -/
def store (row : Nat → Option cell) (stmt : Nat) (r : record) : record :=
  r.driver_bindings.foldl (deliver row stmt) r

/-- The class `record` seen as a `record_base`. -/
def ops : record_ops record :=
  { f_statement := fun r => r.f_statement
    set_statement := fun p r => { r with f_statement := p }
    bind_impl := bind_impl
    finalize := finalize
    store := store }

end record

/-! ## `dynamic_record`: the column descriptors and their lookup (`record.cpp`) -/

/-- The descriptor `dynamic_record::bind_info_t`. `f_data` is the block of the
    `buffer_char_t` the descriptor owns. -/
structure dynamic_record.bind_info_t where
  f_name : std_string := []
  f_col : Int := 0
  f_target_type : Int := 0
  f_bind_type : Int := 0
  f_decimal_digits : Int := 0
  f_data : List Nat := []
  f_size : Nat := 0
  f_fetch_size : Int := 0
  deriving DecidableEq, Repr

instance : Inhabited dynamic_record.bind_info_t := ⟨{}⟩

/-- The class `dynamic_record`.

* `f_statement` is the pointer of `record_base`: the address of the statement the
  record is bound to, `none` for the null pointer.
* `f_bind_by_col` is the vector of descriptors; offset 0 is column 1.
* `f_bind_by_name` maps a column name to a smart pointer to a descriptor that
  `f_bind_by_col` holds as well; the shared descriptor is named by its offset in
  `f_bind_by_col`.
* `driver_bindings` is what the driver holds of this record: the registrations
  made by the calls of `SQLBindCol` in `bind_impl`. -/
structure dynamic_record where
  f_statement : Option Nat := none
  f_bind_by_name : List (std_string × Nat) := []
  f_bind_by_col : List dynamic_record.bind_info_t := []
  driver_bindings : List (bound_column Nat) := []
  deriving DecidableEq, Repr

namespace dynamic_record

/-- The descriptor a smart pointer of `f_bind_by_name` points to. Every offset that
    `bind_impl` stores is the offset of a descriptor it has just pushed. -/
def deref (r : dynamic_record) (p : Nat) : bind_info_t := (r.f_bind_by_col[p]?).getD default

/-- The member `dynamic_record::size()`. -/
def size (r : dynamic_record) : Nat := r.f_bind_by_col.length

/-- The member `dynamic_record::exists(name)`. -/
def «exists» (r : dynamic_record) (name : std_string) : Bool :=
  (map_find name r.f_bind_by_name).isSome

/-- The text of the type-mismatch message built by `verify_column`. -/
def mismatch_message (info : bind_info_t) (target_type : Int) : std_string :=
  lit "type mismatch for column \"" ++ info.f_name ++ lit "\""
    ++ lit " (expected " ++ lit (toString info.f_bind_type)
    ++ lit ", requested " ++ lit (toString target_type) ++ lit ")"

/-- The member `dynamic_record::verify_column(info, target_type, except_null)`. -/
def verify_column (info : bind_info_t) (target_type : Int) (except_null : Bool) :
    Except odbcpp_error bind_info_t :=
  let target_type1 : Int :=
    if target_type ≠ SQL_UNKNOWN_TYPE ∧ info.f_bind_type ≠ target_type then
      (if target_type = SQL_C_CHAR then SQL_VARCHAR
       else if target_type = SQL_C_DATE then SQL_TYPE_DATE
       else if target_type = SQL_C_TIME then SQL_TYPE_TIME
       else if target_type = SQL_C_TIMESTAMP then SQL_TYPE_TIMESTAMP
       else target_type)
    else target_type
  if target_type ≠ SQL_UNKNOWN_TYPE ∧ info.f_bind_type ≠ target_type
      ∧ info.f_bind_type ≠ target_type1 then
    .error ⟨diagnostic.of_message ODBCPP_TYPE_MISMATCH (mismatch_message info target_type1)⟩
  else if except_null = true ∧ info.f_fetch_size = SQL_NULL_DATA then
    .error ⟨diagnostic.of_message ODBCPP_NO_DATA (lit "this column is NULL and cannot be retrieved")⟩
  else
    .ok info

/-- The member `dynamic_record::find_column(const std::string& name, target_type, except_null)`. -/
def find_column_by_name (r : dynamic_record) (name : std_string) (target_type : Int)
    (except_null : Bool) : Except odbcpp_error bind_info_t :=
  match map_find name r.f_bind_by_name with
  | none =>
    .error ⟨diagnostic.of_message ODBCPP_NOT_FOUND
      (lit "the column \"" ++ name ++ lit "\" was not found in this record")⟩
  | some p => verify_column (r.deref p) target_type except_null

/-- The member `dynamic_record::find_column(SQLSMALLINT col, target_type, except_null)`:
    `--col`, then the comparison of `static_cast<SQLUSMALLINT>(col)` with the size. -/
def find_column_by_col (r : dynamic_record) (col : Int) (target_type : Int)
    (except_null : Bool) : Except odbcpp_error bind_info_t :=
  let col1 := to_SQLSMALLINT (col - 1)
  if to_SQLUSMALLINT col1 ≥ r.f_bind_by_col.length then
    .error ⟨diagnostic.of_message ODBCPP_NOT_FOUND
      (lit "there is not that many columns in this record")⟩
  else
    -- `f_bind_by_col[col]`: the subscript is converted to `size_t`
    verify_column (r.deref (col1 % 18446744073709551616).toNat) target_type except_null

/-- The two overloads of `find_column`. -/
def find_column (r : dynamic_record) : column_key → Int → Bool → Except odbcpp_error bind_info_t
  | .name n, target_type, except_null => r.find_column_by_name n target_type except_null
  | .col c, target_type, except_null => r.find_column_by_col c target_type except_null

/-- The member `dynamic_record::column_name(col)`. -/
def column_name (r : dynamic_record) (col : Int) : Except odbcpp_error std_string :=
  (r.find_column_by_col col SQL_UNKNOWN_TYPE false).map (fun info => info.f_name)

/-- The member `dynamic_record::column_number(name)`. -/
def column_number (r : dynamic_record) (name : std_string) : Except odbcpp_error Int :=
  (r.find_column_by_name name SQL_UNKNOWN_TYPE false).map (fun info => info.f_col)

/-- The members `dynamic_record::get_type(name)` and `get_type(col)`. -/
def get_type (r : dynamic_record) (key : column_key) : Except odbcpp_error Int :=
  (r.find_column key SQL_UNKNOWN_TYPE false).map (fun info => info.f_target_type)

/-- The members `dynamic_record::get_decimal_digits(name)` and `get_decimal_digits(col)`. -/
def get_decimal_digits (r : dynamic_record) (key : column_key) : Except odbcpp_error Int :=
  (r.find_column key SQL_UNKNOWN_TYPE false).map (fun info => info.f_decimal_digits)

/-- The members `dynamic_record::get_is_null(name)` and `get_is_null(col)`; the
    `bool` is returned as a `SQLSMALLINT`. -/
def get_is_null (r : dynamic_record) (key : column_key) : Except odbcpp_error Int :=
  (r.find_column key SQL_UNKNOWN_TYPE false).map
    (fun info => if info.f_fetch_size = SQL_NULL_DATA then 1 else 0)

/-- The members `dynamic_record::get_size(name)` and `get_size(col)`. -/
def get_size (r : dynamic_record) (key : column_key) : Except odbcpp_error Int :=
  (r.find_column key SQL_UNKNOWN_TYPE false).map (fun info => info.f_fetch_size)

/-- The typed accessors `get(key, out)`, one per type of the output variable. -/
inductive accessor where
  | string | wstring
  | sqlchar | sqlschar
  | sqlsmallint | sqlusmallint
  | sqlinteger | sqluinteger
  | sqlbigint | sqlubigint
  | sqlreal | sqlfloat
  | date | time | timestamp | numeric | guid
  deriving DecidableEq, Repr

/-- The C type each typed accessor passes to `find_column`. -/
def accessor.target_type : accessor → Int
  | .string => SQL_C_CHAR
  | .wstring => SQL_C_WCHAR
  | .sqlchar => SQL_C_UTINYINT
  | .sqlschar => SQL_C_TINYINT
  | .sqlsmallint => SQL_C_SHORT
  | .sqlusmallint => SQL_C_USHORT
  | .sqlinteger => SQL_C_LONG
  | .sqluinteger => SQL_C_ULONG
  | .sqlbigint => SQL_C_SBIGINT
  | .sqlubigint => SQL_C_UBIGINT
  | .sqlreal => SQL_C_FLOAT
  | .sqlfloat => SQL_C_DOUBLE
  | .date => SQL_C_DATE
  | .time => SQL_C_TIME
  | .timestamp => SQL_C_TIMESTAMP
  | .numeric => SQL_C_NUMERIC
  | .guid => SQL_C_GUID

/-- The value a typed accessor reads from the descriptor's block: the C string
    for `std::string`, the `SQLWCHAR` units up to the first zero for `std::wstring`,
    the object representation (the first `sizeof` bytes) for every other type. -/
def accessor.read : accessor → List Nat → List Nat
  | .string, block => c_str block
  | .wstring, block => c_str (wide_units block)
  | .sqlchar, block => block.take 1
  | .sqlschar, block => block.take 1
  | .sqlsmallint, block => block.take 2
  | .sqlusmallint, block => block.take 2
  | .sqlinteger, block => block.take 4
  | .sqluinteger, block => block.take 4
  | .sqlbigint, block => block.take 8
  | .sqlubigint, block => block.take 8
  | .sqlreal, block => block.take 4
  | .sqlfloat, block => block.take 8
  | .date, block => block.take 6
  | .time, block => block.take 6
  | .timestamp, block => block.take 16
  | .numeric, block => block.take 19
  | .guid, block => block.take 16

/-- The typed accessors `dynamic_record::get(key, out)`. The state of the outcome
    is the caller's output variable: `find_column` is evaluated first, and the
    variable is assigned only when it has returned. -/
def get (r : dynamic_record) (a : accessor) (key : column_key) (out : List Nat) :
    outcome (List Nat) Unit :=
  match r.find_column key a.target_type true with
  | .error e => .raises e out
  | .ok info => .returns () (a.read info.f_data)

/-- The library function `memcpy(dest, src, n)` seen from `dest`: the first `n` bytes
    of `src` are stored from the address `dest` on. `dest` lists the memory from that
    address on, and `src` the memory from the source address on, as far as the
    model follows them. -/
def memcpy (dest src : List Nat) (n : Nat) : List Nat := overwrite dest (src.take n)

/-- The raw-binary accessors `dynamic_record::get(name, binary, length)` and
    `get(col, binary, length)`. `binary` is `none` for a null pointer, otherwise the
    memory from the address `binary` on: the caller's buffer, which the caller
    says is `length` bytes long, and what lies behind it. The value returned is
    the `SQLULEN` the accessor returns, the number of bytes it hands to `memcpy`.
    In the comparison the `SQLUINTEGER` (32 bits) is converted to the type of
    `f_fetch_size`, the signed 64-bit `SQLLEN`. -/
def get_binary (r : dynamic_record) (key : column_key) (binary : Option (List Nat))
    (length : Int) : outcome (Option (List Nat)) Nat :=
  if length < 0 then
    .raises ⟨diagnostic.of_message ODBCPP_INCORRECT_USE
      (lit "a binary buffer cannot have a negative size")⟩ binary
  else
    match binary with
    | none =>
      .raises ⟨diagnostic.of_message ODBCPP_INCORRECT_USE
        (lit "a binary buffer cannot be a NULL pointer")⟩ binary
    | some memory =>
      match r.find_column key SQL_UNKNOWN_TYPE true with
      | .error e => .raises e binary
      | .ok info =>
        -- `static_cast<SQLUINTEGER>(length) < info->f_fetch_size ? length : info->f_size`
        let size : Nat :=
          if (to_SQLUINTEGER length : Int) < info.f_fetch_size then length.toNat
          else info.f_size
        .returns size (some (memcpy memory info.f_data size))

end dynamic_record

/-! ## `dynamic_record::bind_impl` (`record.cpp`) -/

namespace dynamic_record

/-- The `switch` of `dynamic_record::bind_impl`: the bind type and the buffer size
    for a column of SQL type `target_type` and size `size`. -/
def bind_type_and_size (target_type : Int) (size : Nat) : Int × Nat :=
  if target_type = SQL_VARCHAR ∨ target_type = SQL_LONGVARCHAR ∨ target_type = SQL_BINARY
      ∨ target_type = SQL_VARBINARY ∨ target_type = SQL_LONGVARBINARY
      ∨ target_type = SQL_GUID ∨ target_type = SQL_DECIMAL then
    (SQL_C_CHAR, to_SQLULEN (size + sizeof_SQLCHAR))
  else if target_type = SQL_WLONGVARCHAR ∨ target_type = SQL_WVARCHAR then
    (SQL_C_WCHAR, to_SQLULEN (to_SQLULEN (size + 1) * sizeof_SQLWCHAR))
  else if target_type = SQL_CHAR then
    (target_type, to_SQLULEN (size + sizeof_SQLCHAR))
  else if target_type = SQL_WCHAR then
    (target_type, to_SQLULEN (to_SQLULEN (size + 1) * sizeof_SQLWCHAR))
  else if target_type = SQL_BIGINT then
    (SQL_C_SBIGINT, size)
  else if target_type = SQL_FLOAT then
    (SQL_C_DOUBLE, size)
  else
    (target_type, size)

/-- The conversion table in the words of the specification: the bind type for a
    column of SQL type `t`, for the SQL types the table lists. -/
def listed_bind_type (t : Int) : Option Int :=
  if t = SQL_VARCHAR ∨ t = SQL_LONGVARCHAR ∨ t = SQL_VARBINARY ∨ t = SQL_LONGVARBINARY
      ∨ t = SQL_DECIMAL ∨ t = SQL_GUID then some SQL_C_CHAR
  else if t = SQL_WVARCHAR ∨ t = SQL_WLONGVARCHAR then some SQL_C_WCHAR
  else if t = SQL_BIGINT then some SQL_C_SBIGINT
  else if t = SQL_FLOAT then some SQL_C_DOUBLE
  else if t = SQL_CHAR ∨ t = SQL_WCHAR ∨ t = SQL_NUMERIC ∨ t = SQL_INTEGER ∨ t = SQL_SMALLINT
      ∨ t = SQL_REAL ∨ t = SQL_DOUBLE ∨ t = SQL_TINYINT ∨ t = SQL_BIT
      ∨ t = SQL_DATE ∨ t = SQL_TIME ∨ t = SQL_TIMESTAMP
      ∨ t = SQL_TYPE_DATE ∨ t = SQL_TYPE_TIME ∨ t = SQL_TYPE_TIMESTAMP then some t
  else none

/-- What the loop of `bind_impl` establishes of every descriptor it pushes, that
    is of every descriptor at an offset from `first` on: its `f_target_type` is the SQL
    type the driver reports for the column `f_col`, and its `f_bind_type` is what the
    `switch` makes of that SQL type. -/
def typed (drv : driver) (first : Nat) (r : dynamic_record) : Prop :=
  ∀ (p : Nat) (info : bind_info_t), first ≤ p → r.f_bind_by_col[p]? = some info →
    info.f_target_type = to_SQLSMALLINT (drv.SQLDescribeCol (to_SQLUSMALLINT info.f_col)).data_type
    ∧ ∃ n, info.f_bind_type = (bind_type_and_size info.f_target_type n).1

/-- The body of the loop of `dynamic_record::bind_impl` for the column `idx`. -/
def bind_column (drv : driver) (idx : Int) (s : statement) (r : dynamic_record) :
    outcome (statement × dynamic_record) Unit :=
  let dc := drv.SQLDescribeCol (to_SQLUSMALLINT idx)
  match s.check drv dc.return_code with
  | .diverges => .diverges
  | .raises e s1 => .raises e (s1, r)
  | .returns _ s1 =>
    let target_type := to_SQLSMALLINT dc.data_type
    let ts := bind_type_and_size target_type (to_SQLULEN dc.column_size)
    -- `if(name_length >= sizeof(column_name))`: the comparison is unsigned
    let name_length : Int :=
      if dc.name_length < 0 ∨ dc.name_length ≥ 256 then 255 else dc.name_length
    let info : bind_info_t :=
      { f_name := c_str (dc.column_name.set name_length.toNat 0)
        f_col := idx
        f_target_type := target_type
        f_bind_type := ts.1
        f_decimal_digits := to_SQLSMALLINT dc.decimal_digits
        f_data := uninitialised drv.garbage ts.2
        f_size := ts.2
        f_fetch_size := 0 }
    match s1.check drv (drv.SQLBindCol (to_SQLUSMALLINT idx) info.f_bind_type info.f_size) with
    | .diverges => .diverges
    | .raises e s2 => .raises e (s2, r)
    | .returns _ s2 =>
      let p := r.f_bind_by_col.length
      .returns () (s2,
        { r with
          f_bind_by_name :=
            if info.f_name ≠ [] then map_insert info.f_name p r.f_bind_by_name
            else r.f_bind_by_name
          f_bind_by_col := r.f_bind_by_col ++ [info]
          driver_bindings := register_column
            { stmt := s2.addr, column := to_SQLUSMALLINT idx, target_type := info.f_bind_type,
              target := p, buffer_length := info.f_size } r.driver_bindings })

/-- The member `dynamic_record::bind_impl()`; `s` is the statement `f_statement`
    points to. As for `record::bind_impl`, a loop that has not ended after 65536
    iterations never ends. -/
def bind_impl (drv : driver) (s : statement) (r : dynamic_record) :
    outcome (statement × dynamic_record) Unit :=
  match s.cols drv with
  | .diverges => .diverges
  | .raises e s1 => .raises e (s1, r)
  | .returns count s1 => bind_loop (bind_column drv) (to_SQLSMALLINT count) 65536 1 s1 r

/-- The invariant of the loop of `bind_impl` on a record that starts empty: the
    descriptor at offset `p` has `f_col = p + 1`, and every offset stored in
    `f_bind_by_name` is the offset of a descriptor. -/
def consistent (r : dynamic_record) : Prop :=
  (∀ (p : Nat) (info : bind_info_t), r.f_bind_by_col[p]? = some info → info.f_col = (p : Int) + 1)
  ∧ (∀ (n : std_string) (p : Nat), map_find n r.f_bind_by_name = some p →
      p < r.f_bind_by_col.length)

/-- What the driver stores through the pointers of one registration when a fetch
    delivers `c` to its column. -/
def write (r : dynamic_record) (p : Nat) (buffer_length : Nat) (c : cell) : dynamic_record :=
  let stored : bind_info_t → bind_info_t := fun i =>
    { i with f_data := overwrite i.f_data (c.data.take buffer_length), f_fetch_size := c.ind }
  { r with f_bind_by_col := vector_modify stored p r.f_bind_by_col }

/-- What the driver does for one registration when a fetch on the statement at
    address `stmt` delivers the row `row`. -/
def deliver (row : Nat → Option cell) (stmt : Nat) (r : dynamic_record) (b : bound_column Nat) :
    dynamic_record :=
  if b.stmt = stmt then
    match row b.column with
    | none => r
    | some c => r.write b.target b.buffer_length c
  else r

/-- The effect on the record of a fetch on the statement at address `stmt` that
    delivers the row `row`: every registration the driver holds is served. -/
def store (row : Nat → Option cell) (stmt : Nat) (r : dynamic_record) : dynamic_record :=
  r.driver_bindings.foldl (deliver row stmt) r

/-- The class `dynamic_record` seen as a `record_base`; it inherits the empty
    `record_base::finalize()`. -/
def ops : record_ops dynamic_record :=
  { f_statement := fun r => r.f_statement
    set_statement := fun p r => { r with f_statement := p }
    bind_impl := bind_impl
    finalize := fun r => r
    store := store }

end dynamic_record

/-- The exception `statement::has_data()` raises. -/
def statement.no_data_error : odbcpp_error :=
  ⟨diagnostic.of_message ODBCPP_NO_DATA
    (lit "no SQL command was executed, the statement has no data available")⟩

/-- The exception `record_base::bind` raises. -/
def record_base.incorrect_use_error : odbcpp_error :=
  ⟨diagnostic.of_message ODBCPP_INCORRECT_USE
    (lit "records can be used with at most one statement")⟩

/-! ## `diagnostic::get` and `diagnostic::operator[]` (`diagnostic.h`) -/

/-- The member `diagnostic::get(record)`, `return f_diag[static_cast<int>(record) - 1]`. The
    subscript of a `std::vector` converts its argument to `size_t` and makes no check:
    `none` stands for a subscript outside the vector, where the behaviour is undefined
    and no exception is constructed. -/
def diagnostic.get (d : diagnostic) (record : Int) : Option diag_t :=
  d.f_diag[((record - 1) % 18446744073709551616).toNat]?

/-- The member `diagnostic::operator[](record)`, `return f_diag[record - 1]`, read as
    `diagnostic.get` is. -/
def diagnostic.subscript (d : diagnostic) (record : Int) : Option diag_t :=
  d.f_diag[((record - 1) % 18446744073709551616).toNat]?

/-! ## The test of `verify_column` and the dispatch of `tests/connect.cpp` -/

/-- The bind types `verify_column` accepts for the requested type `t`: `t` itself and
    the one alias it tries. -/
def dynamic_record.compatible (bind_type t : Int) : Prop :=
  bind_type = t
  ∨ (t = SQL_C_CHAR ∧ bind_type = SQL_VARCHAR)
  ∨ (t = SQL_C_DATE ∧ bind_type = SQL_TYPE_DATE)
  ∨ (t = SQL_C_TIME ∧ bind_type = SQL_TYPE_TIME)
  ∨ (t = SQL_C_TIMESTAMP ∧ bind_type = SQL_TYPE_TIMESTAMP)

instance (bind_type t : Int) : Decidable (dynamic_record.compatible bind_type t) := by
  unfold dynamic_record.compatible; infer_instance

/-- The `switch(rec.get_type(col))` of the fetch loop of `tests/connect.cpp`: the typed
    accessor the test calls for a column of type `t`, `none` for the `default` label. -/
def connect_accessor (t : Int) : Option dynamic_record.accessor :=
  if t = SQL_C_SHORT then some .sqlsmallint
  else if t = SQL_C_LONG then some .sqlinteger
  else if t = SQL_C_SBIGINT ∨ t = SQL_BIGINT then some .sqlbigint
  else if t = SQL_C_CHAR ∨ t = SQL_VARCHAR ∨ t = SQL_LONGVARCHAR then some .string
  else if t = SQL_C_WCHAR ∨ t = SQL_WVARCHAR ∨ t = SQL_WLONGVARCHAR then some .wstring
  else if t = SQL_C_DATE ∨ t = SQL_TYPE_DATE then some .date
  else if t = SQL_C_TIME ∨ t = SQL_TYPE_TIME then some .time
  else if t = SQL_C_TIMESTAMP ∨ t = SQL_TYPE_TIMESTAMP then some .timestamp
  else none

/-- The record `r1` holds the columns of the record `r`: the same names with the
    same offsets, and at each offset a descriptor with the same column number, SQL
    type and bind type. A fetch changes the data and the fetched size of a
    descriptor and nothing else. -/
def dynamic_record.same_columns (r r1 : dynamic_record) : Prop :=
  r1.f_bind_by_name = r.f_bind_by_name
  ∧ r1.f_bind_by_col.length = r.f_bind_by_col.length
  ∧ ∀ (q : Nat) (info : dynamic_record.bind_info_t), r1.f_bind_by_col[q]? = some info →
      ∃ i, r.f_bind_by_col[q]? = some i ∧ info.f_col = i.f_col
        ∧ info.f_target_type = i.f_target_type ∧ info.f_bind_type = i.f_bind_type

/-- The record after the driver has served the fetches `rows` one after the other;
    each is the row delivered and the address of the statement it was fetched on. -/
def dynamic_record.after_fetches (r : dynamic_record) (rows : List ((Nat → Option cell) × Nat)) :
    dynamic_record :=
  rows.foldl (fun r1 d => r1.store d.1 d.2) r

/-- The buffer length the specification states for a string descriptor bound to a
    column of driver-reported width `w`: with `w' = 8192` when `w = 0` and `w' = w`
    otherwise, `w' + 1` bytes for a narrow string and `(w' + 1) * sizeof(SQLWCHAR)`
    bytes for a wide string. -/
def stated_buffer_length (target_type : Int) (w : Nat) : Nat :=
  if target_type = SQL_C_WCHAR then ((if w = 0 then 8192 else w) + 1) * sizeof_SQLWCHAR
  else (if w = 0 then 8192 else w) + 1

/-- The store of the terminator by `record::finalize_info` for the descriptor `info`
    is inside the block `f_data` points to: the byte of index `f_size` for a narrow
    string, the two bytes of the `SQLWCHAR` of index `f_size / sizeof(SQLWCHAR)` for a
    wide string. -/
def record.terminator_inside (info : record.bind_info_t) : Prop :=
  ∃ blk, info.block = some blk
    ∧ (info.f_target_type = SQL_C_CHAR → info.f_size < blk.length)
    ∧ (info.f_target_type = SQL_C_WCHAR →
        sizeof_SQLWCHAR * (info.f_size / sizeof_SQLWCHAR) + 1 < blk.length)

/-- The contract of `SQLBindCol` on its argument `BufferLength`, a `SQLLEN`: the
    call does not succeed with a negative length (SQLSTATE HY090), that is with an
    unsigned value of 2^63 or more. -/
def driver.refuses_negative_length (drv : driver) : Prop :=
  ∀ (column : Nat) (target_type : Int) (buffer_length : Nat),
    drv.SQLBindCol column target_type buffer_length = SQL_SUCCESS
      ∨ drv.SQLBindCol column target_type buffer_length = SQL_SUCCESS_WITH_INFO →
    buffer_length < 9223372036854775808

/-- Every string descriptor of the record for which the driver holds a
    registration has the terminator store of `record::finalize_info` inside its
    block. -/
def record.terminators_inside (r : record) : Prop :=
  ∀ (key : column_key) (d : record.bind_info_t), r.find key = some d →
    d.f_target_type = SQL_C_CHAR ∨ d.f_target_type = SQL_C_WCHAR →
    (∃ b ∈ r.driver_bindings, b.target = key) → record.terminator_inside d

/-- The invariant of the loop of `record::bind_impl` for the registrations the
    driver holds, on a record `r0` the driver held none of when the loop started: the
    loop stays on the statement at `addr` and leaves the keys of the record alone; a
    descriptor with a null data pointer is a string; every registration is for a
    column before `idx` and for the descriptor that column selects; and every column
    before `idx` that selects a descriptor has a registration. -/
def record.selection_invariant (drv : driver) (r0 : record) (addr : Nat) (idx : Int)
    (s : statement) (r : record) : Prop :=
  s.addr = addr
  ∧ (∀ k, (r.find k).isSome = (r0.find k).isSome)
  ∧ (∀ k d, r.find k = some d → d.f_data = .null →
      d.f_target_type = SQL_C_CHAR ∨ d.f_target_type = SQL_C_WCHAR)
  ∧ (∀ b ∈ r.driver_bindings, b.stmt = addr
      ∧ ∃ i : Int, 1 ≤ i ∧ i < idx ∧ b.column = to_SQLUSMALLINT i
          ∧ record.selects drv r0 i b.target)
  ∧ (∀ i : Int, 1 ≤ i → i < idx → (∃ key, record.selects drv r0 i key) →
      ∃ b ∈ r.driver_bindings, b.column = to_SQLUSMALLINT i)

/-! ## Sample values -/

/-- A dynamic record over the columns `(id INTEGER, name VARCHAR(10))` after a row
    `(42, NULL)` was fetched. -/
def sample_dynamic_record : dynamic_record :=
  { f_statement := some 1
    f_bind_by_name := [(lit "id", 0), (lit "name", 1)]
    f_bind_by_col :=
      [ { f_name := lit "id", f_col := 1, f_target_type := SQL_INTEGER, f_bind_type := SQL_C_LONG,
          f_data := [42, 0, 0, 0, 0, 0, 0, 0, 0, 0], f_size := 10, f_fetch_size := 4 },
        { f_name := lit "name", f_col := 2, f_target_type := SQL_VARCHAR, f_bind_type := SQL_C_CHAR,
          f_data := [0, 0, 0, 0, 0, 0, 0, 0, 0, 0, 0], f_size := 11,
          f_fetch_size := SQL_NULL_DATA } ] }

/-- A driver for a result set with the columns `(id INTEGER, name VARCHAR(10))`:
    `SQLFetch` delivers the row `(42, "hello")`, `SQLFetchScroll` reports the end
    of the result set, and the diagnostic area holds one record. -/
def sample_driver : driver :=
  { SQLGetDiagField := fun _ _ record identifier =>
      if record = 0 ∧ identifier = SQL_DIAG_ROW_COUNT then
        { return_code := SQL_SUCCESS, number := 1 }
      else if record = 1 then
        (if identifier = SQL_DIAG_NATIVE then { return_code := SQL_SUCCESS, number := 7 }
         else if identifier = SQL_DIAG_SQLSTATE then
           { return_code := SQL_SUCCESS, buffer := lit "01004" ++ [0] }
         else if identifier = SQL_DIAG_MESSAGE_TEXT then
           { return_code := SQL_SUCCESS, buffer := lit "truncated" ++ [0] }
         else { return_code := SQL_SUCCESS, buffer := lit "db" ++ [0] })
      else { return_code := SQL_NO_DATA }
    SQLExecDirect := fun _ => SQL_SUCCESS
    SQLCancel := SQL_SUCCESS
    SQLCloseCursor := SQL_SUCCESS
    SQLNumResultCols := (SQL_SUCCESS, 2)
    SQLRowCount := (SQL_SUCCESS, 1)
    SQLDescribeCol := fun c =>
      if c = 1 then
        { return_code := SQL_SUCCESS, column_name := lit "id" ++ [0], name_length := 2,
          data_type := SQL_INTEGER, column_size := 10 }
      else if c = 2 then
        { return_code := SQL_SUCCESS, column_name := lit "name" ++ [0], name_length := 4,
          data_type := SQL_VARCHAR, column_size := 10 }
      else { return_code := SQL_ERROR }
    SQLBindCol := fun _ _ _ => SQL_SUCCESS
    SQLFetch := (SQL_SUCCESS, fun c =>
      if c = 1 then some ⟨[42, 0, 0, 0], 4⟩
      else if c = 2 then some ⟨lit "hello" ++ [0], 5⟩
      else none)
    SQLFetchScroll := fun _ _ => (SQL_NO_DATA, fun _ => none)
    garbage := fun i => 65 + i % 7 }

/-- A statement at address 1 that has executed a command. -/
def sample_statement : statement :=
  { f_handle := 100, f_handle_type := 3, addr := 1, f_has_data := true }

/-- Another statement, at address 2. -/
def other_statement : statement :=
  { f_handle := 200, f_handle_type := 3, addr := 2, f_has_data := true }

/-- The diagnostic that `sample_driver` lets `diagnostic::set` collect. -/
def sample_diagnostic : diagnostic :=
  { f_affected_rows := some 1
    f_diag := [{ f_server := lit "db", f_connection := lit "db", f_message := lit "truncated",
                 f_odbc_state := lit "01004", f_native_errno := 7 }] }

/-- A static record with `int32 id` and `string name` bound by name, each with a
    null flag, as its constructor leaves it. -/
def sample_record : record :=
  (({} : record).bind (.name (lit "id")) (.fixed .sqlinteger [1, 1, 1, 1]) (some true)).bind
    (.name (lit "name")) (.string (lit "old")) (some true)

/-- The sample record once a fetch on `sample_statement` has bound it and delivered
    the row `(42, "hello")`. -/
def sample_bound_record : record :=
  match statement.fetch record.ops sample_driver sample_statement sample_record SQL_FETCH_NEXT 0 with
  | .returns _ st => st.2
  | _ => sample_record

/-- The bound sample record once the driver has delivered a row whose `name` is
    NULL, before `finalize` runs. -/
def sample_null_delivered : record :=
  record.store (fun c => if c = 2 then some ⟨[], SQL_NULL_DATA⟩ else none) 1 sample_bound_record

/-- A driver for a result set of three columns, two of which are named `a`:
    `(a INTEGER, b VARCHAR(10), a BIGINT)`. -/
def duplicate_names_driver : driver :=
  { sample_driver with
    SQLNumResultCols := (SQL_SUCCESS, 3)
    SQLDescribeCol := fun c =>
      if c = 1 then
        { return_code := SQL_SUCCESS, column_name := lit "a" ++ [0], name_length := 1,
          data_type := SQL_INTEGER, column_size := 10 }
      else if c = 2 then
        { return_code := SQL_SUCCESS, column_name := lit "b" ++ [0], name_length := 1,
          data_type := SQL_VARCHAR, column_size := 10 }
      else if c = 3 then
        { return_code := SQL_SUCCESS, column_name := lit "a" ++ [0], name_length := 1,
          data_type := SQL_BIGINT, column_size := 19 }
      else { return_code := SQL_ERROR } }

/-- The dynamic record that `bind_impl` builds from `duplicate_names_driver`. -/
def duplicate_names_record : dynamic_record :=
  match dynamic_record.bind_impl duplicate_names_driver sample_statement { f_statement := some 1 } with
  | .returns _ st => st.2
  | _ => {}

/-- A static record with a `string` bound to the column 2 by index, without a
    null flag. -/
def sample_index_record : record :=
  ({} : record).bind (.col 2) (.string (lit "old")) none

/-- The record `sample_index_record` once a fetch on `sample_statement` has bound it
    and delivered the row `(42, "hello")`. -/
def sample_bound_index_record : record :=
  match statement.fetch record.ops sample_driver sample_statement sample_index_record
      SQL_FETCH_NEXT 0 with
  | .returns _ st => st.2
  | _ => sample_index_record

/-- The dynamic record that a first fetch on `sample_statement` builds and fills
    with the row `(42, "hello")` of `sample_driver`. -/
def fetched_dynamic_record : dynamic_record :=
  match statement.fetch dynamic_record.ops sample_driver sample_statement {} SQL_FETCH_NEXT 0 with
  | .returns _ st => st.2
  | _ => {}

/-- A static record on which `bind` was called twice with the name `name`: first
    with a string holding "first" and a null flag, then with a string holding
    "second" and no null flag. -/
def twice_bound_record : record :=
  (({} : record).bind (.name (lit "name")) (.string (lit "first")) (some true)).bind
    (.name (lit "name")) (.string (lit "second")) none

/-- A static record on which `bind` was called twice with the column index 2: first
    with a string holding "first" and a null flag, then with a string holding
    "second" and no null flag. -/
def twice_bound_index_record : record :=
  (({} : record).bind (.col 2) (.string (lit "first")) (some true)).bind
    (.col 2) (.string (lit "second")) none

/-- A driver for a result set with the one column `(blob BINARY(16))`. -/
def binary_column_driver : driver :=
  { sample_driver with
    SQLNumResultCols := (SQL_SUCCESS, 1)
    SQLDescribeCol := fun c =>
      if c = 1 then
        { return_code := SQL_SUCCESS, column_name := lit "blob" ++ [0], name_length := 4,
          data_type := SQL_BINARY, column_size := 16 }
      else { return_code := SQL_ERROR } }

/-- The dynamic record that `bind_impl` builds from `binary_column_driver`. -/
def binary_column_record : dynamic_record :=
  match dynamic_record.bind_impl binary_column_driver sample_statement { f_statement := some 1 } with
  | .returns _ st => st.2
  | _ => {}

/-- A statement at address 3 as its constructor leaves it: no command executed. -/
def idle_statement : statement :=
  { f_handle := 300, f_handle_type := 3, addr := 3 }

/-- A diagnostic of 32768 records. -/
def oversized_diagnostic : diagnostic :=
  { f_diag := List.replicate 32768 {} }

/-- A driver for a result set with the one column `(born DATE)`, reported with the
    ODBC 3 code `SQL_TYPE_DATE`; `SQLFetch` delivers the date 2011-03-27 as a
    `DATE_STRUCT`. -/
def dated_driver : driver :=
  { sample_driver with
    SQLNumResultCols := (SQL_SUCCESS, 1)
    SQLDescribeCol := fun c =>
      if c = 1 then
        { return_code := SQL_SUCCESS, column_name := lit "born" ++ [0], name_length := 4,
          data_type := SQL_TYPE_DATE, column_size := 10 }
      else { return_code := SQL_ERROR }
    SQLFetch := (SQL_SUCCESS, fun c => if c = 1 then some ⟨[219, 7, 3, 0, 27, 0], 6⟩ else none) }

/-- The dynamic record that a first fetch on `sample_statement` builds and fills
    with the row of `dated_driver`. -/
def dated_record : dynamic_record :=
  match statement.fetch dynamic_record.ops dated_driver sample_statement {} SQL_FETCH_NEXT 0 with
  | .returns _ st => st.2
  | _ => {}

/-- A driver whose diagnostic area holds one full record and a second record
    of which only the server name and connection name can be read. -/
def partial_record_driver : driver :=
  { sample_driver with
    SQLGetDiagField := fun handle_type handle record identifier =>
      if record = 2 ∧ (identifier = SQL_DIAG_SERVER_NAME ∨ identifier = SQL_DIAG_CONNECTION_NAME) then
        { return_code := SQL_SUCCESS, buffer := lit "db" ++ [0] }
      else sample_driver.SQLGetDiagField handle_type handle record identifier }

/-- A diagnostic of two records, the second with a negative native error number. -/
def two_record_diagnostic : diagnostic :=
  { f_affected_rows := some 0
    f_diag := [{ f_server := lit "db", f_connection := lit "main", f_message := lit "truncated",
                 f_odbc_state := lit "01004", f_native_errno := 7 },
               { f_message := lit "no row", f_odbc_state := lit "02000", f_native_errno := -2 }] }

/-- A driver for a result set with the one column `(name BIGINT)`. -/
def renamed_driver : driver :=
  { sample_driver with
    SQLNumResultCols := (SQL_SUCCESS, 1)
    SQLDescribeCol := fun c =>
      if c = 1 then
        { return_code := SQL_SUCCESS, column_name := lit "name" ++ [0], name_length := 4,
          data_type := SQL_BIGINT, column_size := 19 }
      else { return_code := SQL_ERROR }
    SQLFetch := (SQL_SUCCESS, fun c =>
      if c = 1 then some ⟨[7, 0, 0, 0, 0, 0, 0, 0], 8⟩ else none) }

/-- The record `fetched_dynamic_record`, bound to the two columns `(id, name)` of
    `sample_statement`, after `unbind()` and a fetch on `other_statement`, whose result
    set is the one column `(name BIGINT)` of `renamed_driver`. -/
def rebound_dynamic_record : dynamic_record :=
  match statement.fetch dynamic_record.ops renamed_driver other_statement
      (record_base.unbind dynamic_record.ops fetched_dynamic_record) SQL_FETCH_NEXT 0 with
  | .returns _ st => st.2
  | _ => {}

/-- A dynamic record of 32768 descriptors. -/
def oversized_dynamic_record : dynamic_record :=
  { f_bind_by_col := List.replicate 32768 {} }

/-- The dynamic record that `bind_impl` builds from `sample_driver`, before any row is
    delivered. -/
def bound_dynamic_record : dynamic_record :=
  match dynamic_record.bind_impl sample_driver sample_statement { f_statement := some 1 } with
  | .returns _ st => st.2
  | _ => {}

/-- The bound sample record, which holds the row `(42, "hello")`, once the driver
    has delivered a next row whose `name` is the two bytes `hi`, stored without a
    terminator, before `finalize` runs. -/
def short_row_delivered : record :=
  record.store (fun c => if c = 2 then some ⟨lit "hi", 2⟩ else none) 1 sample_bound_record

/-- The bound sample record once the driver has delivered a next row whose `name` has
    20 characters: the driver stores the 10 characters its 11 bytes have room for,
    and a terminator, and reports the length 20; before `finalize` runs. -/
def long_row_delivered : record :=
  record.store (fun c => if c = 2 then some ⟨lit "0123456789" ++ [0], 20⟩ else none) 1
    sample_bound_record

/-- The driver `sample_driver` for a result set whose column `name` is reported
    with the width 18446744073709551615, the largest `SQLULEN`. -/
def widest_column_driver : driver :=
  { sample_driver with
    SQLDescribeCol := fun c =>
      if c = 2 then
        { sample_driver.SQLDescribeCol 2 with column_size := 18446744073709551615 }
      else sample_driver.SQLDescribeCol c }

/-- The sample record once the iteration of the loop of `record::bind_impl` for
    the column 2 has bound its string `name` on `sample_statement`. -/
def name_bound_record : record :=
  match record.bind_column sample_driver 2 sample_statement sample_record with
  | .returns _ st => st.2
  | _ => sample_record

/-- The record `name_bound_record` once it was unbound and the column 2 was bound
    again, on `other_statement`. -/
def name_rebound_record : record :=
  match record.bind_column sample_driver 2 other_statement
      (record_base.unbind record.ops name_bound_record) with
  | .returns _ st => st.2
  | _ => sample_record

/-- The driver `sample_driver` with a `SQLBindCol` that refuses a negative
    `BufferLength`. -/
def strict_driver : driver :=
  { sample_driver with
    SQLBindCol := fun _ _ n => if n < 9223372036854775808 then SQL_SUCCESS else SQL_ERROR }

/-- The sample record once `record::bind_impl` has bound it on `sample_statement`
    with `strict_driver`. -/
def strict_bound_record : record :=
  match record.bind_impl strict_driver sample_statement
      { sample_record with f_statement := some 1 } with
  | .returns _ st => st.2
  | _ => sample_record

/-- The sample record with one more descriptor, a string registered under the
    column number 2: the column `name` of the sample result set matches two
    descriptors, one by its name and one by its number. -/
def both_keys_record : record :=
  { sample_record.bind (.col 2) (.string (lit "other")) none with f_statement := some 1 }

/-- The record `both_keys_record` once `record::bind_impl` has bound it on
    `sample_statement`. -/
def both_keys_bound_record : record :=
  match record.bind_impl sample_driver sample_statement both_keys_record with
  | .returns _ st => st.2
  | _ => both_keys_record

/-! # Properties -/

/-- The code of an exception built from an odbcpp error number and a message. -/
theorem code_of_message (n : Int) (m : std_string) :
    odbcpp_error.code ⟨diagnostic.of_message n m⟩ = some n := rfl

/-! ## Lookups and typed accessors of `dynamic_record` -/

namespace dynamic_record

theorem verify_column_unknown (info : bind_info_t) :
    verify_column info SQL_UNKNOWN_TYPE false = .ok info := by
  simp [verify_column]

/-- When the lookup without a type check returns `info`, every lookup of the same
    key is `verify_column` applied to `info`. -/
theorem find_column_eq_verify (r : dynamic_record) (key : column_key) (info : bind_info_t)
    (hkey : r.find_column key SQL_UNKNOWN_TYPE false = .ok info) (t : Int) (en : Bool) :
    r.find_column key t en = verify_column info t en := by
  cases key with
  | name n =>
    simp only [find_column, find_column_by_name] at hkey ⊢
    cases hf : map_find n r.f_bind_by_name with
    | none => simp [hf] at hkey
    | some p =>
      simp only [hf, verify_column_unknown] at hkey ⊢
      cases hkey; rfl
  | col c =>
    simp only [find_column, find_column_by_col] at hkey ⊢
    by_cases hc : to_SQLUSMALLINT (to_SQLSMALLINT (c - 1)) ≥ r.f_bind_by_col.length
    · simp [hc] at hkey
    · simp only [hc, if_false, verify_column_unknown] at hkey ⊢
      cases hkey; rfl

/-- C1: a typed accessor of a dynamic record that asks for C type `t` (not
    `SQL_UNKNOWN_TYPE`) on a column whose bind type is neither `t` nor the alias of
    `t` (`SQL_C_CHAR` to `SQL_VARCHAR`, `SQL_C_DATE` to `SQL_TYPE_DATE`, `SQL_C_TIME` to
    `SQL_TYPE_TIME`, `SQL_C_TIMESTAMP` to `SQL_TYPE_TIMESTAMP`) raises an `odbcpp_error`
    with code `ODBCPP_TYPE_MISMATCH` and leaves the output variable as it was. -/
theorem get_type_mismatch (r : dynamic_record) (key : column_key) (info : bind_info_t)
    (t : Int) (ht : t ≠ SQL_UNKNOWN_TYPE)
    (hkey : r.find_column key SQL_UNKNOWN_TYPE false = .ok info)
    (hne : info.f_bind_type ≠ t)
    (hchar : t = SQL_C_CHAR → info.f_bind_type ≠ SQL_VARCHAR)
    (hdate : t = SQL_C_DATE → info.f_bind_type ≠ SQL_TYPE_DATE)
    (htime : t = SQL_C_TIME → info.f_bind_type ≠ SQL_TYPE_TIME)
    (hstamp : t = SQL_C_TIMESTAMP → info.f_bind_type ≠ SQL_TYPE_TIMESTAMP) :
    (∀ except_null : Bool, ∃ e, r.find_column key t except_null = .error e
        ∧ e.code = some ODBCPP_TYPE_MISMATCH)
    ∧ (∀ (a : accessor) (out : List Nat), a.target_type = t →
        ∃ e, r.get a key out = .raises e out ∧ e.code = some ODBCPP_TYPE_MISMATCH) := by
  have hv : ∀ en : Bool, ∃ e, verify_column info t en = .error e
      ∧ e.code = some ODBCPP_TYPE_MISMATCH := by
    intro en
    have hne1 : info.f_bind_type ≠
        (if t = SQL_C_CHAR then SQL_VARCHAR
         else if t = SQL_C_DATE then SQL_TYPE_DATE
         else if t = SQL_C_TIME then SQL_TYPE_TIME
         else if t = SQL_C_TIMESTAMP then SQL_TYPE_TIMESTAMP
         else t) := by
      split_ifs with h1 h2 h3 h4
      · exact hchar h1
      · exact hdate h2
      · exact htime h3
      · exact hstamp h4
      · exact hne
    have hv1 : verify_column info t en = .error ⟨diagnostic.of_message ODBCPP_TYPE_MISMATCH
        (mismatch_message info
          (if t = SQL_C_CHAR then SQL_VARCHAR
           else if t = SQL_C_DATE then SQL_TYPE_DATE
           else if t = SQL_C_TIME then SQL_TYPE_TIME
           else if t = SQL_C_TIMESTAMP then SQL_TYPE_TIMESTAMP
           else t))⟩ := by
      simp only [verify_column,
        if_pos (show t ≠ SQL_UNKNOWN_TYPE ∧ info.f_bind_type ≠ t from ⟨ht, hne⟩)]
      rw [if_pos ⟨ht, hne, hne1⟩]
    exact ⟨_, hv1, code_of_message _ _⟩
  refine ⟨fun en => ?_, fun a out ha => ?_⟩
  · rw [find_column_eq_verify r key info hkey]; exact hv en
  · obtain ⟨e, he, hcode⟩ := hv true
    refine ⟨e, ?_, hcode⟩
    simp only [get, ha, find_column_eq_verify r key info hkey, he]

/-- C1, at a concrete input: the string accessor on the integer column `id`. -/
theorem get_type_mismatch_witness :
    (∃ e, sample_dynamic_record.get .string (.name (lit "id")) [7] = .raises e [7]
      ∧ e.code = some ODBCPP_TYPE_MISMATCH)
    ∧ (∃ e, sample_dynamic_record.get .date (.col 1) [7] = .raises e [7]
      ∧ e.code = some ODBCPP_TYPE_MISMATCH) :=
  ⟨(get_type_mismatch sample_dynamic_record (.name (lit "id"))
      (sample_dynamic_record.deref 0) SQL_C_CHAR (by decide) rfl (by decide)
      (by decide) (by decide) (by decide) (by decide)).2 .string [7] rfl,
   (get_type_mismatch sample_dynamic_record (.col 1)
      (sample_dynamic_record.deref 0) SQL_C_DATE (by decide) rfl (by decide)
      (by decide) (by decide) (by decide) (by decide)).2 .date [7] rfl⟩

/-- The requested type `t` is compatible with the bind type `b` of a column: they
    are equal, or `b` is the alias `verify_column` tries for `t`. -/
theorem verify_column_compatible (info : bind_info_t) (t : Int)
    (hc : info.f_bind_type = t
      ∨ (t = SQL_C_CHAR ∧ info.f_bind_type = SQL_VARCHAR)
      ∨ (t = SQL_C_DATE ∧ info.f_bind_type = SQL_TYPE_DATE)
      ∨ (t = SQL_C_TIME ∧ info.f_bind_type = SQL_TYPE_TIME)
      ∨ (t = SQL_C_TIMESTAMP ∧ info.f_bind_type = SQL_TYPE_TIMESTAMP)) (en : Bool) :
    verify_column info t en =
      if en = true ∧ info.f_fetch_size = SQL_NULL_DATA then
        .error ⟨diagnostic.of_message ODBCPP_NO_DATA
          (lit "this column is NULL and cannot be retrieved")⟩
      else .ok info := by
  simp only [verify_column]
  rw [if_neg]
  rintro ⟨h0, h1, h2⟩
  rw [if_pos ⟨h0, h1⟩] at h2
  rcases hc with h | ⟨ht, hb⟩ | ⟨ht, hb⟩ | ⟨ht, hb⟩ | ⟨ht, hb⟩
  · exact h1 h
  · rw [if_pos ht] at h2; exact h2 hb
  · subst ht; exact h2 hb
  · subst ht; exact h2 hb
  · subst ht; exact h2 hb

/-- C2: a typed accessor of a dynamic record whose requested type is compatible
    with the bind type of the column, on a column whose `f_fetch_size` is
    `SQL_NULL_DATA`, raises an `odbcpp_error` with code `ODBCPP_NO_DATA` and leaves
    the output variable as it was. -/
theorem get_null_no_data (r : dynamic_record) (key : column_key) (info : bind_info_t)
    (a : accessor) (out : List Nat)
    (hkey : r.find_column key SQL_UNKNOWN_TYPE false = .ok info)
    (hc : info.f_bind_type = a.target_type
      ∨ (a.target_type = SQL_C_CHAR ∧ info.f_bind_type = SQL_VARCHAR)
      ∨ (a.target_type = SQL_C_DATE ∧ info.f_bind_type = SQL_TYPE_DATE)
      ∨ (a.target_type = SQL_C_TIME ∧ info.f_bind_type = SQL_TYPE_TIME)
      ∨ (a.target_type = SQL_C_TIMESTAMP ∧ info.f_bind_type = SQL_TYPE_TIMESTAMP))
    (hnull : info.f_fetch_size = SQL_NULL_DATA) :
    ∃ e, r.get a key out = .raises e out ∧ e.code = some ODBCPP_NO_DATA := by
  refine ⟨⟨diagnostic.of_message ODBCPP_NO_DATA
    (lit "this column is NULL and cannot be retrieved")⟩, ?_, rfl⟩
  simp only [get, find_column_eq_verify r key info hkey,
    verify_column_compatible info a.target_type hc true]
  rw [if_pos ⟨trivial, hnull⟩]

/-- C2, at a concrete input: the string accessor on the NULL column `name`. -/
theorem get_null_no_data_witness :
    ∃ e, sample_dynamic_record.get .string (.name (lit "name")) [7] = .raises e [7]
      ∧ e.code = some ODBCPP_NO_DATA :=
  get_null_no_data sample_dynamic_record (.name (lit "name"))
    (sample_dynamic_record.deref 1) .string [7] rfl (by decide) (by decide)

theorem find_column_by_name_absent (r : dynamic_record) (name : std_string)
    (h : map_find name r.f_bind_by_name = none) (t : Int) (en : Bool) :
    r.find_column_by_name name t en = .error ⟨diagnostic.of_message ODBCPP_NOT_FOUND
      (lit "the column \"" ++ name ++ lit "\" was not found in this record")⟩ := by
  simp only [find_column_by_name, h]

theorem find_column_by_name_present (r : dynamic_record) (name : std_string) (p : Nat)
    (h : map_find name r.f_bind_by_name = some p) (t : Int) (en : Bool) :
    r.find_column_by_name name t en = verify_column (r.deref p) t en := by
  simp only [find_column_by_name, h]

/-- C10: `exists(name)` is false exactly when every name-keyed operation (each
    typed `get`, `column_number`, `get_type`, `get_decimal_digits`, `get_is_null`,
    `get_size`) raises an `odbcpp_error` with code `ODBCPP_NOT_FOUND`; `exists` itself
    is a plain boolean function, it has no way to raise. -/
theorem exists_false_iff_not_found (r : dynamic_record) (name : std_string) :
    r.«exists» name = false ↔
      ((∀ (a : accessor) (out : List Nat),
          ∃ e, r.get a (.name name) out = .raises e out ∧ e.code = some ODBCPP_NOT_FOUND)
      ∧ (∃ e, r.column_number name = .error e ∧ e.code = some ODBCPP_NOT_FOUND)
      ∧ (∃ e, r.get_type (.name name) = .error e ∧ e.code = some ODBCPP_NOT_FOUND)
      ∧ (∃ e, r.get_decimal_digits (.name name) = .error e ∧ e.code = some ODBCPP_NOT_FOUND)
      ∧ (∃ e, r.get_is_null (.name name) = .error e ∧ e.code = some ODBCPP_NOT_FOUND)
      ∧ (∃ e, r.get_size (.name name) = .error e ∧ e.code = some ODBCPP_NOT_FOUND)) := by
  constructor
  · intro h
    have hf : map_find name r.f_bind_by_name = none := by
      cases hm : map_find name r.f_bind_by_name with
      | none => rfl
      | some p => simp [«exists», hm] at h
    have hall := find_column_by_name_absent r name hf
    let e0 : odbcpp_error := ⟨diagnostic.of_message ODBCPP_NOT_FOUND
      (lit "the column \"" ++ name ++ lit "\" was not found in this record")⟩
    refine ⟨fun a out => ⟨e0, ?_, rfl⟩, ⟨e0, ?_, rfl⟩, ⟨e0, ?_, rfl⟩, ⟨e0, ?_, rfl⟩,
      ⟨e0, ?_, rfl⟩, ⟨e0, ?_, rfl⟩⟩
    · simp only [get, find_column, hall]
    · simp only [column_number, hall]; rfl
    · simp only [get_type, find_column, hall]; rfl
    · simp only [get_decimal_digits, find_column, hall]; rfl
    · simp only [get_is_null, find_column, hall]; rfl
    · simp only [get_size, find_column, hall]; rfl
  · rintro ⟨-, -, ⟨e, he, -⟩, -⟩
    cases hm : map_find name r.f_bind_by_name with
    | none => simp [«exists», hm]
    | some p =>
      exfalso
      simp only [get_type, find_column, find_column_by_name_present r name p hm,
        verify_column_unknown] at he
      cases he

end dynamic_record

/-! ## `handle::check` -/

/-- C5: `handle::check(code)` raises exactly when `code` is neither `SQL_SUCCESS` nor
    `SQL_SUCCESS_WITH_INFO`. For `SQL_SUCCESS` it stores an empty diagnostic (`size()`
    is 0) and returns `code`; for `SQL_SUCCESS_WITH_INFO` it stores the diagnostic `d`
    collected from the handle and returns `code`; for any other code it stores `d`
    and raises an `odbcpp_error` that carries `d`. -/
theorem handle.check_spec (drv : driver) (h : handle) (parent : Option handle) (code : Int) :
    (code = SQL_SUCCESS →
        handle.check drv h code parent = .returns code { h with f_diag := {} }
        ∧ ({} : diagnostic).size = 0)
    ∧ (∀ d, diagnostic.of_handle drv h.f_handle_type h.f_handle parent = some d →
        (code = SQL_SUCCESS_WITH_INFO →
          handle.check drv h code parent = .returns code { h with f_diag := d })
        ∧ (code ≠ SQL_SUCCESS → code ≠ SQL_SUCCESS_WITH_INFO →
          handle.check drv h code parent = .raises ⟨d⟩ { h with f_diag := d }))
    ∧ ((∃ e st, handle.check drv h code parent = .raises e st) →
        code ≠ SQL_SUCCESS ∧ code ≠ SQL_SUCCESS_WITH_INFO) := by
  refine ⟨fun h0 => ⟨by simp [handle.check, h0], rfl⟩, fun d hd => ⟨fun h1 => ?_, fun h0 h1 => ?_⟩, ?_⟩
  · simp [handle.check, h1, hd]
  · simp [handle.check, h0, h1, hd]
  · rintro ⟨e, st, he⟩
    unfold handle.check at he
    by_cases h0 : code = SQL_SUCCESS
    · simp [h0] at he
    · refine ⟨h0, fun h1 => ?_⟩
      simp only [h0, if_false, h1, if_true] at he
      cases hd : diagnostic.of_handle drv h.f_handle_type h.f_handle parent with
      | none => simp [hd] at he
      | some d => simp [hd] at he

/-- C5, at a concrete input: with the one-record diagnostic area of `sample_driver`,
    `SQL_SUCCESS_WITH_INFO` is returned and `SQL_ERROR` is raised, both with that
    record stored. -/
theorem handle.check_spec_witness :
    handle.check sample_driver sample_statement.tohandle SQL_SUCCESS_WITH_INFO none
        = .returns SQL_SUCCESS_WITH_INFO { sample_statement.tohandle with f_diag := sample_diagnostic }
    ∧ handle.check sample_driver sample_statement.tohandle SQL_ERROR none
        = .raises ⟨sample_diagnostic⟩ { sample_statement.tohandle with f_diag := sample_diagnostic } :=
  ⟨((handle.check_spec sample_driver sample_statement.tohandle none SQL_SUCCESS_WITH_INFO).2.1
      sample_diagnostic (by decide)).1 rfl,
   ((handle.check_spec sample_driver sample_statement.tohandle none SQL_ERROR).2.1
      sample_diagnostic (by decide)).2 (by decide) (by decide)⟩

/-! ## `record_base::bind` and `statement::fetch` -/

/-- The exception `record_base::bind` raises for a record bound to another statement. -/
theorem record_base.bind_incorrect_use {R : Type} (ops : record_ops R) (drv : driver)
    (s2 : statement) (rec : R) (a1 : Nat)
    (hbound : ops.f_statement rec = some a1) (hne : s2.addr ≠ a1) :
    record_base.bind ops drv s2 rec
      = .raises ⟨diagnostic.of_message ODBCPP_INCORRECT_USE
          (lit "records can be used with at most one statement")⟩ (s2, rec) := by
  have h1 : ¬ (some a1 = some s2.addr) := fun h => hne (Option.some.inj h).symm
  simp [record_base.bind, hbound, h1]

/-- C3: for a record bound to the statement at address `a1` and a statement `s2` at
    another address, `record_base::bind(s2)`, and so `s2.fetch(record)`, raises an
    `odbcpp_error` with code `ODBCPP_INCORRECT_USE`; the outcome is the same whatever
    `bind_impl` is (it is not invoked), and the record is left as it was, bound to
    the first statement. -/
theorem record_base.bind_other_statement {R : Type} (ops : record_ops R) (drv : driver)
    (s2 : statement) (rec : R) (a1 : Nat)
    (hbound : ops.f_statement rec = some a1) (hne : s2.addr ≠ a1) :
    ∃ e, e.code = some ODBCPP_INCORRECT_USE
      ∧ record_base.bind ops drv s2 rec = .raises e (s2, rec)
      ∧ (∀ orientation offset, statement.fetch ops drv s2 rec orientation offset = .raises e (s2, rec))
      ∧ (∀ bind_impl, record_base.bind { ops with bind_impl := bind_impl } drv s2 rec
            = .raises e (s2, rec))
      ∧ ops.f_statement rec = some a1 := by
  refine ⟨_, code_of_message ODBCPP_INCORRECT_USE _,
    record_base.bind_incorrect_use ops drv s2 rec a1 hbound hne, fun o f => ?_, fun bi => ?_, hbound⟩
  · simp only [statement.fetch, record_base.bind_incorrect_use ops drv s2 rec a1 hbound hne]
  · exact record_base.bind_incorrect_use { ops with bind_impl := bi } drv s2 rec a1 hbound hne

/-- C3, at a concrete input: the sample record, bound to `sample_statement`, is
    handed to `other_statement`. -/
theorem record_base.bind_other_statement_witness :
    ∃ e, e.code = some ODBCPP_INCORRECT_USE
      ∧ record_base.bind record.ops sample_driver other_statement sample_bound_record
          = .raises e (other_statement, sample_bound_record)
      ∧ (∀ orientation offset,
          statement.fetch record.ops sample_driver other_statement sample_bound_record
            orientation offset = .raises e (other_statement, sample_bound_record))
      ∧ (∀ bind_impl,
          record_base.bind { record.ops with bind_impl := bind_impl } sample_driver
            other_statement sample_bound_record
            = .raises e (other_statement, sample_bound_record))
      ∧ record.ops.f_statement sample_bound_record = some 1 :=
  record_base.bind_other_statement record.ops sample_driver other_statement
    sample_bound_record 1 (by decide) (by decide)

/-- C4: for a statement that has data and a record already bound to it, when the
    driver's fetch call (`SQLFetch`, or `SQLFetchScroll` when the orientation is not
    `SQL_FETCH_NEXT` or direct fetch is disabled) returns `SQL_NO_DATA`,
    `statement::fetch` returns false without raising; the outcome is the same whatever
    `finalize` is (it is not called), and the record, with every host variable, host
    string and null flag, is left as it was. -/
theorem statement.fetch_no_data {R : Type} (ops : record_ops R) (drv : driver)
    (s : statement) (rec : R) (orientation offset : Int)
    (hdata : s.f_has_data = true)
    (hbound : ops.f_statement rec = some s.addr)
    (hcode : (if orientation = SQL_FETCH_NEXT ∧ s.f_no_direct_fetch = false then drv.SQLFetch
              else drv.SQLFetchScroll orientation offset).1 = SQL_NO_DATA) :
    statement.fetch ops drv s rec orientation offset = .returns false (s, rec)
    ∧ (∀ finalize, statement.fetch { ops with finalize := finalize } drv s rec orientation offset
          = .returns false (s, rec)) := by
  have key : ∀ ops1 : record_ops R, ops1.f_statement rec = some s.addr →
      statement.fetch ops1 drv s rec orientation offset = .returns false (s, rec) := by
    intro ops1 hb
    have hbind : record_base.bind ops1 drv s rec = .returns () (s, rec) := by
      simp [record_base.bind, hb]
    have hhas : s.has_data = .returns () s := by simp [statement.has_data, hdata]
    simp only [statement.fetch, hbind, hhas, hcode]
    simp [row_delivered]
  exact ⟨key ops hbound, fun f => key { ops with finalize := f } hbound⟩

/-- C4, at a concrete input: a scrolling fetch at the end of the result set leaves
    the sample record with the values of the previous fetch. -/
theorem statement.fetch_no_data_witness :
    statement.fetch record.ops sample_driver sample_statement sample_bound_record 2 0
        = .returns false (sample_statement, sample_bound_record)
    ∧ (∀ finalize, statement.fetch { record.ops with finalize := finalize } sample_driver
          sample_statement sample_bound_record 2 0
          = .returns false (sample_statement, sample_bound_record)) :=
  statement.fetch_no_data record.ops sample_driver sample_statement sample_bound_record 2 0
    (by decide) (by decide) (by decide)

/-! ## `record::finalize` -/

theorem map_find_map {κ α : Type} [DecidableEq κ] (f : α → α) (k : κ) (m : List (κ × α)) :
    map_find k (m.map (fun e => (e.1, f e.2))) = (map_find k m).map f := by
  induction m with
  | nil => rfl
  | cons e rest ih =>
    obtain ⟨k', v⟩ := e
    by_cases h : k = k'
    · simp [map_find, h]
    · simp [map_find, h, ih]

namespace record

/-- The descriptor stored under a key after `finalize` is `finalize_info` of the
    descriptor stored under it before. -/
theorem find_finalize (r : record) (key : column_key) :
    r.finalize.find key = (r.find key).map finalize_info := by
  cases key with
  | name n => simp only [find, finalize, map_find_map]
  | col c => simp only [find, finalize, map_find_map]

@[simp] theorem set_block_fetch_size (info : bind_info_t) (b : List Nat) :
    (info.set_block b).f_fetch_size = info.f_fetch_size := by
  unfold bind_info_t.set_block; split <;> rfl

@[simp] theorem set_block_is_null (info : bind_info_t) (b : List Nat) :
    (info.set_block b).f_is_null = info.f_is_null := by
  unfold bind_info_t.set_block; split <;> rfl

@[simp] theorem set_block_string (info : bind_info_t) (b : List Nat) :
    (info.set_block b).f_string = info.f_string := by
  unfold bind_info_t.set_block; split <;> rfl

@[simp] theorem set_block_target_type (info : bind_info_t) (b : List Nat) :
    (info.set_block b).f_target_type = info.f_target_type := by
  unfold bind_info_t.set_block; split <;> rfl

@[simp] theorem set_block_size (info : bind_info_t) (b : List Nat) :
    (info.set_block b).f_size = info.f_size := by
  unfold bind_info_t.set_block; split <;> rfl

@[simp] theorem set_null_flag_fetch_size (info : bind_info_t) :
    (set_null_flag info).f_fetch_size = info.f_fetch_size := by
  unfold set_null_flag; split <;> rfl

@[simp] theorem set_null_flag_string (info : bind_info_t) :
    (set_null_flag info).f_string = info.f_string := by
  unfold set_null_flag; split <;> rfl

@[simp] theorem set_null_flag_target_type (info : bind_info_t) :
    (set_null_flag info).f_target_type = info.f_target_type := by
  unfold set_null_flag; split <;> rfl

theorem set_null_flag_is_null (info : bind_info_t) :
    (set_null_flag info).f_is_null
      = info.f_is_null.map (fun _ => decide (info.f_fetch_size = SQL_NULL_DATA)) := by
  unfold set_null_flag; split <;> simp_all

@[simp] theorem clear_string_fetch_size (info : bind_info_t) :
    (clear_string info).f_fetch_size = info.f_fetch_size := by
  unfold clear_string; split
  · rfl
  · split_ifs <;> rfl

@[simp] theorem clear_string_is_null (info : bind_info_t) :
    (clear_string info).f_is_null = info.f_is_null := by
  unfold clear_string; split
  · rfl
  · split_ifs <;> rfl

@[simp] theorem clear_string_target_type (info : bind_info_t) :
    (clear_string info).f_target_type = info.f_target_type := by
  unfold clear_string; split
  · rfl
  · split_ifs <;> rfl

@[simp] theorem copy_string_fetch_size (info : bind_info_t) :
    (copy_string info).f_fetch_size = info.f_fetch_size := by
  unfold copy_string; split
  · split_ifs <;> simp
  · rfl

@[simp] theorem copy_string_is_null (info : bind_info_t) :
    (copy_string info).f_is_null = info.f_is_null := by
  unfold copy_string; split
  · split_ifs <;> simp
  · rfl

theorem finalize_info_fetch_size (info : bind_info_t) :
    (finalize_info info).f_fetch_size = info.f_fetch_size := by
  simp [finalize_info]

theorem finalize_info_is_null (info : bind_info_t) :
    (finalize_info info).f_is_null
      = info.f_is_null.map (fun _ => decide (info.f_fetch_size = SQL_NULL_DATA)) := by
  simp [finalize_info, set_null_flag_is_null]

/-- C7: after `record::finalize()`, for every registered descriptor with a null-flag
    pointer, keyed by name or by index, the flag pointed to is true exactly when
    the `f_fetch_size` of that descriptor is `SQL_NULL_DATA`. -/
theorem finalize_null_flag (r : record) (key : column_key) (info : bind_info_t) (flag : Bool)
    (hfind : r.find key = some info) (hflag : info.f_is_null = some flag) :
    ∃ info1 flag1, r.finalize.find key = some info1
      ∧ info1.f_is_null = some flag1
      ∧ info1.f_fetch_size = info.f_fetch_size
      ∧ (flag1 = true ↔ info1.f_fetch_size = SQL_NULL_DATA) := by
  refine ⟨finalize_info info, decide (info.f_fetch_size = SQL_NULL_DATA), ?_, ?_,
    finalize_info_fetch_size info, ?_⟩
  · rw [find_finalize, hfind]; rfl
  · rw [finalize_info_is_null, hflag]; rfl
  · rw [finalize_info_fetch_size]; simp

/-- C7, at a concrete input: the null flag of `name` after a row with a NULL name. -/
theorem finalize_null_flag_witness :
    ∃ info1 flag1, sample_null_delivered.finalize.find (.name (lit "name")) = some info1
      ∧ info1.f_is_null = some flag1
      ∧ info1.f_fetch_size
          = ((sample_null_delivered.find (.name (lit "name"))).getD default).f_fetch_size
      ∧ (flag1 = true ↔ info1.f_fetch_size = SQL_NULL_DATA) :=
  finalize_null_flag sample_null_delivered (.name (lit "name"))
    ((sample_null_delivered.find (.name (lit "name"))).getD default) false
    (by decide) (by decide)

theorem copy_string_of_null (info : bind_info_t) (h : info.f_fetch_size = SQL_NULL_DATA) :
    copy_string info = info := by
  unfold copy_string
  split
  · rw [if_neg]; exact fun hc => hc.2 h
  · rfl

theorem clear_string_string (info : bind_info_t) (str : std_string)
    (hstr : info.f_string = some str)
    (htype : info.f_target_type = SQL_C_CHAR ∨ info.f_target_type = SQL_C_WCHAR) :
    (clear_string info).f_string = some [] := by
  unfold clear_string
  rw [hstr]
  rcases htype with h | h
  · simp [h]
  · simp [h]

/-- C8: for a narrow or wide string descriptor of a static record whose
    `f_fetch_size` is `SQL_NULL_DATA`, after `finalize()` the bound host string is
    empty, whatever it held before and whatever the landing buffer holds. -/
theorem finalize_null_string (r : record) (key : column_key) (info : bind_info_t)
    (str : std_string)
    (hfind : r.find key = some info)
    (hstr : info.f_string = some str)
    (htype : info.f_target_type = SQL_C_CHAR ∨ info.f_target_type = SQL_C_WCHAR)
    (hnull : info.f_fetch_size = SQL_NULL_DATA) :
    ∃ info1, r.finalize.find key = some info1 ∧ info1.f_string = some [] := by
  refine ⟨finalize_info info, by rw [find_finalize, hfind]; rfl, ?_⟩
  have h1 : (clear_string (set_null_flag info)).f_fetch_size = SQL_NULL_DATA := by simpa using hnull
  rw [finalize_info, copy_string_of_null _ h1]
  exact clear_string_string _ str (by simpa using hstr) (by simpa using htype)

/-- C8, at a concrete input: the string `name`, which held "hello", after a row
    with a NULL name. -/
theorem finalize_null_string_witness :
    ∃ info1, sample_null_delivered.finalize.find (.name (lit "name")) = some info1
      ∧ info1.f_string = some [] :=
  finalize_null_string sample_null_delivered (.name (lit "name"))
    ((sample_null_delivered.find (.name (lit "name"))).getD default) (lit "hello")
    (by decide) (by decide) (by decide) (by decide)

end record

/-! ## The loop of `bind_impl` -/

theorem to_SQLSMALLINT_le (n : Int) : to_SQLSMALLINT n ≤ 32767 := by
  unfold to_SQLSMALLINT; omega

theorem to_SQLSMALLINT_of_range (n : Int) (h0 : -32768 ≤ n) (h1 : n ≤ 32767) :
    to_SQLSMALLINT n = n := by
  unfold to_SQLSMALLINT; omega

/-- With `max` equal to 32767 the test `idx <= max` never fails: the loop does not
    return. -/
theorem bind_loop_never_returns {R : Type}
    (body : Int → statement → R → outcome (statement × R) Unit) :
    ∀ (fuel : Nat) (idx : Int) (s : statement) (r : R), idx ≤ 32767 →
      ∀ a st, bind_loop body 32767 fuel idx s r ≠ .returns a st := by
  intro fuel
  induction fuel with
  | zero =>
    intro idx s r hidx a st h
    simp [bind_loop, hidx] at h
  | succ fuel ih =>
    intro idx s r hidx a st h
    simp only [bind_loop, hidx, if_true] at h
    cases hb : body idx s r with
    | diverges => simp [hb] at h
    | raises e st1 => simp [hb] at h
    | returns u st1 =>
      obtain ⟨s1, r1⟩ := st1
      simp only [hb] at h
      exact ih _ s1 r1 (to_SQLSMALLINT_le _) a st h

/-- Invariant rule for the loop of `bind_impl` when it returns: a property that
    holds at the start and that every iteration of the body carries from `idx` to
    `idx + 1` holds at the end, where the counter is past `max`. -/
theorem bind_loop_returns {R : Type}
    (body : Int → statement → R → outcome (statement × R) Unit) (max : Int)
    (hmax : max ≤ 32767) (P : Int → statement → R → Prop)
    (hstep : ∀ idx s r s1 r1, 1 ≤ idx → idx ≤ max → P idx s r →
      body idx s r = .returns () (s1, r1) → P (idx + 1) s1 r1) :
    ∀ (fuel : Nat) (idx : Int) (s : statement) (r : R) (s' : statement) (r' : R),
      1 ≤ idx → P idx s r → bind_loop body max fuel idx s r = .returns () (s', r') →
      ∃ idx', max < idx' ∧ (idx' = idx ∨ idx' = max + 1) ∧ P idx' s' r' := by
  intro fuel
  induction fuel with
  | zero =>
    intro idx s r s' r' h1 hP h
    by_cases hi : idx ≤ max
    · simp [bind_loop, hi] at h
    · simp only [bind_loop, hi, if_false, outcome.returns.injEq, Prod.mk.injEq, true_and] at h
      obtain ⟨rfl, rfl⟩ := h
      exact ⟨idx, by omega, Or.inl rfl, hP⟩
  | succ fuel ih =>
    intro idx s r s' r' h1 hP h
    by_cases hi : idx ≤ max
    · by_cases hw : idx = 32767
      · have hm : max = 32767 := by omega
        subst hm
        exact absurd h (bind_loop_never_returns body _ idx s r hi () (s', r'))
      · simp only [bind_loop, hi, if_true] at h
        cases hb : body idx s r with
        | diverges => simp [hb] at h
        | raises e st1 => simp [hb] at h
        | returns u st1 =>
          obtain ⟨s1, r1⟩ := st1
          simp only [hb] at h
          rw [to_SQLSMALLINT_of_range (idx + 1) (by omega) (by omega)] at h
          obtain ⟨idx', hlt, hor, hP'⟩ :=
            ih (idx + 1) s1 r1 s' r' (by omega) (hstep idx s r s1 r1 h1 hi hP hb) h
          exact ⟨idx', hlt, Or.inr (by omega), hP'⟩
    · simp only [bind_loop, hi, if_false, outcome.returns.injEq, Prod.mk.injEq, true_and] at h
      obtain ⟨rfl, rfl⟩ := h
      exact ⟨idx, by omega, Or.inl rfl, hP⟩

/-! ## `dynamic_record::bind_impl` -/

/-- A name found after `std::map::insert` was either found before or is mapped to
    the inserted value. -/
theorem map_find_insert {κ α : Type} [DecidableEq κ] [LT κ]
    [DecidableRel (fun (a b : κ) => a < b)] (k n : κ) (v p : α) (m : List (κ × α))
    (h : map_find n (map_insert k v m) = some p) : p = v ∨ map_find n m = some p := by
  induction m with
  | nil =>
    simp only [map_insert, map_find] at h
    by_cases h3 : n = k
    · left; simp only [h3, if_true, Option.some.injEq] at h; exact h.symm
    · simp [h3] at h
  | cons e rest ih =>
    obtain ⟨k', v'⟩ := e
    by_cases h1 : k = k'
    · right; simpa [map_insert, h1] using h
    · by_cases h2 : k < k'
      · simp only [map_insert, if_neg h1, if_pos h2] at h
        by_cases h3 : n = k
        · left; simp only [map_find, h3, if_true, Option.some.injEq] at h; exact h.symm
        · right
          rw [map_find, if_neg h3] at h
          exact h
      · simp only [map_insert, if_neg h1, if_neg h2] at h
        by_cases h3 : n = k'
        · right
          simp only [map_find, h3, if_true] at h ⊢
          exact h
        · simp only [map_find, if_neg h3] at h ⊢
          exact ih h

namespace dynamic_record

/-- What an iteration of the loop of `bind_impl` that returns has done to the two
    containers: one descriptor, with `f_col` the counter, is pushed at the end of
    `f_bind_by_col`, and `f_bind_by_name` is as before or has received `insert` of a
    name with the offset of that descriptor. -/
theorem bind_column_pushes (drv : driver) (idx : Int) (s s1 : statement)
    (r r1 : dynamic_record) (h : bind_column drv idx s r = .returns () (s1, r1)) :
    ∃ info : bind_info_t, info.f_col = idx
      ∧ r1.f_bind_by_col = r.f_bind_by_col ++ [info]
      ∧ (r1.f_bind_by_name = r.f_bind_by_name
          ∨ ∃ name, r1.f_bind_by_name = map_insert name r.f_bind_by_col.length r.f_bind_by_name) := by
  unfold bind_column at h
  simp only at h
  cases hc : s.check drv (drv.SQLDescribeCol (to_SQLUSMALLINT idx)).return_code with
  | diverges => simp [hc] at h
  | raises e s2 => simp [hc] at h
  | returns a s2 =>
    simp only [hc] at h
    split at h
    · cases h
    · cases h
    · rename_i a2 s3 hc2
      simp only [outcome.returns.injEq, Prod.mk.injEq, true_and] at h
      obtain ⟨-, rfl⟩ := h
      refine ⟨_, rfl, rfl, ?_⟩
      simp only
      split_ifs <;> first | (left; rfl) | (right; exact ⟨_, rfl⟩)

theorem bind_column_consistent (drv : driver) (idx : Int) (s s1 : statement)
    (r r1 : dynamic_record) (hlen : (r.f_bind_by_col.length : Int) + 1 = idx)
    (hcons : consistent r) (h : bind_column drv idx s r = .returns () (s1, r1)) :
    (r1.f_bind_by_col.length : Int) + 1 = idx + 1 ∧ consistent r1 := by
  obtain ⟨info, hcol, hvec, hname⟩ := bind_column_pushes drv idx s s1 r r1 h
  refine ⟨by rw [hvec]; simp; omega, ?_, ?_⟩
  · intro p i hp
    rw [hvec] at hp
    by_cases hlt : p < r.f_bind_by_col.length
    · rw [List.getElem?_append_left hlt] at hp
      exact hcons.1 p i hp
    · have hge : r.f_bind_by_col.length ≤ p := by omega
      rw [List.getElem?_append_right hge] at hp
      have hp0 : p - r.f_bind_by_col.length = 0 := by
        by_contra hne
        obtain ⟨k, hk⟩ := Nat.exists_eq_succ_of_ne_zero hne
        rw [hk] at hp
        simp at hp
      rw [hp0] at hp
      simp only [List.getElem?_cons_zero, Option.some.injEq] at hp
      subst hp
      rw [hcol]; omega
  · intro n p hp
    rw [hvec]
    simp only [List.length_append, List.length_singleton]
    rcases hname with hn | ⟨name, hn⟩
    · rw [hn] at hp
      have := hcons.2 n p hp
      omega
    · rw [hn] at hp
      rcases map_find_insert name n _ p _ hp with h1 | h1
      · omega
      · have := hcons.2 n p h1
        omega

/-- After a `bind_impl` that returns on a record whose containers were empty, the
    record is consistent and holds at most 32767 descriptors. -/
theorem bind_impl_consistent (drv : driver) (s s' : statement) (r r' : dynamic_record)
    (hcol : r.f_bind_by_col = []) (hname : r.f_bind_by_name = [])
    (h : r.bind_impl drv s = .returns () (s', r')) :
    consistent r' ∧ r'.f_bind_by_col.length ≤ 32767 := by
  unfold bind_impl at h
  cases hc : s.cols drv with
  | diverges => simp [hc] at h
  | raises e s1 => simp [hc] at h
  | returns count s1 =>
    simp only [hc] at h
    have h0 : consistent r := by
      refine ⟨fun p i hp => ?_, fun n p hp => ?_⟩
      · rw [hcol] at hp; simp at hp
      · rw [hname] at hp; simp [map_find] at hp
    obtain ⟨idx', hlt, hor, hlen, hcons⟩ :=
      bind_loop_returns (bind_column drv) (to_SQLSMALLINT count) (to_SQLSMALLINT_le _)
        (fun idx _ r => (r.f_bind_by_col.length : Int) + 1 = idx ∧ consistent r)
        (fun idx s r s1 r1 _ _ hP hb => bind_column_consistent drv idx s s1 r r1 hP.1 hP.2 hb)
        65536 1 s1 r s' r' (le_refl _) ⟨by rw [hcol]; rfl, h0⟩ h
    refine ⟨hcons, ?_⟩
    have := to_SQLSMALLINT_le count
    omega

theorem deref_of_lt (r : dynamic_record) (p : Nat) (h : p < r.f_bind_by_col.length) :
    r.f_bind_by_col[p]? = some (r.deref p) := by
  simp [deref, List.getElem?_eq_getElem h]

/-- C9: after a `dynamic_record::bind_impl` that returns, on a record that was never
    bound before (its two containers are empty), for every name with `exists(name)`
    true, `get_type(name)` equals `get_type(column_number(name))`; nothing is assumed of
    the column names, several columns may share one. -/
theorem get_type_name_eq_number (drv : driver) (s s' : statement) (r r' : dynamic_record)
    (hcol : r.f_bind_by_col = []) (hname : r.f_bind_by_name = [])
    (h : r.bind_impl drv s = .returns () (s', r'))
    (name : std_string) (hex : r'.«exists» name = true) :
    ∃ c t, r'.column_number name = .ok c
      ∧ r'.get_type (.name name) = .ok t
      ∧ r'.get_type (.col c) = .ok t := by
  obtain ⟨hcons, hlen⟩ := bind_impl_consistent drv s s' r r' hcol hname h
  cases hm : map_find name r'.f_bind_by_name with
  | none => simp [«exists», hm] at hex
  | some p =>
    have hp : p < r'.f_bind_by_col.length := hcons.2 name p hm
    have hfc : (r'.deref p).f_col = (p : Int) + 1 := hcons.1 p _ (deref_of_lt r' p hp)
    refine ⟨(p : Int) + 1, (r'.deref p).f_target_type, ?_, ?_, ?_⟩
    · simp only [column_number, find_column_by_name_present r' name p hm, verify_column_unknown]
      exact congrArg Except.ok hfc
    · simp only [get_type, find_column, find_column_by_name_present r' name p hm,
        verify_column_unknown]
      rfl
    · have h1 : to_SQLSMALLINT ((p : Int) + 1 - 1) = (p : Int) := by
        unfold to_SQLSMALLINT; omega
      have h2 : to_SQLUSMALLINT (p : Int) = p := by
        unfold to_SQLUSMALLINT; omega
      have h3 : ((p : Int) % 18446744073709551616).toNat = p := by omega
      have h4 : ¬ (p ≥ r'.f_bind_by_col.length) := by omega
      simp only [get_type, find_column, find_column_by_col, h1, h2, h3, h4, if_false,
        verify_column_unknown]
      rfl

/-- C9, at a concrete input: a result set with two columns named `a`. -/
theorem get_type_name_eq_number_witness :
    ∃ c t, duplicate_names_record.column_number (lit "a") = .ok c
      ∧ duplicate_names_record.get_type (.name (lit "a")) = .ok t
      ∧ duplicate_names_record.get_type (.col c) = .ok t :=
  get_type_name_eq_number duplicate_names_driver sample_statement sample_statement
    { f_statement := some 1 } duplicate_names_record rfl rfl (by decide) (lit "a") (by decide)

end dynamic_record

/-! ## `record::bind_impl`, the driver's fetch, and `record::finalize` on a string -/

theorem map_find_modify {κ α : Type} [DecidableEq κ] (k k' : κ) (f : α → α) (m : List (κ × α)) :
    map_find k (map_modify k' f m) = if k = k' then (map_find k m).map f else map_find k m := by
  induction m with
  | nil => simp [map_modify, map_find]
  | cons e rest ih =>
    obtain ⟨k0, v⟩ := e
    by_cases h1 : k' = k0
    · subst h1
      by_cases h2 : k = k'
      · simp [map_modify, map_find, h2]
      · simp [map_modify, map_find, h2]
    · by_cases h2 : k = k0
      · subst h2
        have h3 : ¬ k = k' := fun h => h1 h.symm
        simp [map_modify, map_find, h1, h3]
      · simp only [map_modify, if_neg h1, map_find, if_neg h2, ih]

theorem map_modify_id {κ α : Type} [DecidableEq κ] (k : κ) (m : List (κ × α)) :
    map_modify k (fun v => v) m = m := by
  induction m with
  | nil => rfl
  | cons e rest ih =>
    obtain ⟨k0, v⟩ := e
    by_cases h1 : k = k0
    · simp [map_modify, h1]
    · simp [map_modify, h1, ih]

theorem statement.check_frame (drv : driver) (s s1 : statement) (code a : Int)
    (h : s.check drv code = .returns a s1) : s1.frame = s.frame := by
  unfold statement.check at h
  split at h
  · cases h; rfl
  · cases h
  · cases h

theorem statement.frame_addr (s s1 : statement) (h : s1.frame = s.frame) : s1.addr = s.addr :=
  congrArg Prod.fst h

theorem statement.check_addr (drv : driver) (s s1 : statement) (code a : Int)
    (h : s.check drv code = .returns a s1) : s1.addr = s.addr :=
  statement.frame_addr s s1 (statement.check_frame drv s s1 code a h)

theorem statement.check_returns_code (drv : driver) (s s1 : statement) (code a : Int)
    (h : s.check drv code = .returns a s1) :
    code = SQL_SUCCESS ∨ code = SQL_SUCCESS_WITH_INFO := by
  unfold statement.check handle.check at h
  by_cases h0 : code = SQL_SUCCESS
  · exact Or.inl h0
  · by_cases h1 : code = SQL_SUCCESS_WITH_INFO
    · exact Or.inr h1
    · exfalso
      simp only [h0, h1, if_false] at h
      cases hd : diagnostic.of_handle drv s.f_handle_type s.f_handle none with
      | none => simp [hd] at h
      | some d => simp [hd] at h

theorem statement.cols_returns (drv : driver) (s s1 : statement) (count : Int)
    (h : s.cols drv = .returns count s1) :
    s1.frame = s.frame ∧ count = to_SQLSMALLINT drv.SQLNumResultCols.2 := by
  unfold statement.cols statement.has_data at h
  cases hd : s.f_has_data with
  | false => simp [hd] at h
  | true =>
    simp only [hd, Bool.true_eq_false, if_false] at h
    cases hc : s.check drv drv.SQLNumResultCols.1 with
    | diverges => simp [hc] at h
    | raises e s2 => simp [hc] at h
    | returns a s2 =>
      simp only [hc, outcome.returns.injEq] at h
      obtain ⟨rfl, rfl⟩ := h
      exact ⟨statement.check_frame drv s _ _ _ hc, rfl⟩

namespace record

theorem find_modify (r : record) (k k' : column_key) (f : bind_info_t → bind_info_t) :
    (r.modify k' f).find k = if k = k' then (r.find k).map f else r.find k := by
  cases k with
  | name n =>
    cases k' with
    | name n' =>
      simp only [find, modify, map_find_modify, column_key.name.injEq]
    | col c' => simp [find, modify]
  | col c =>
    cases k' with
    | name n' => simp [find, modify]
    | col c' =>
      simp only [find, modify, map_find_modify, column_key.col.injEq]

theorem modify_id (r : record) (k : column_key) : r.modify k (fun v => v) = r := by
  cases k <;> simp [modify, map_modify_id]

theorem selects_unique (drv : driver) (r : record) (idx : Int) (k1 k2 : column_key)
    (h1 : selects drv r idx k1) (h2 : selects drv r idx k2) : k1 = k2 := by
  cases k1 with
  | name n1 =>
    cases k2 with
    | name n2 =>
      simp only [selects] at h1 h2
      rw [← h1.2.1, ← h2.2.1]
    | col c2 =>
      simp only [selects] at h1 h2
      rw [h1.1] at h2
      simp at h2
  | col c1 =>
    cases k2 with
    | name n2 =>
      simp only [selects] at h1 h2
      rw [h2.1] at h1
      simp at h1
    | col c2 =>
      simp only [selects] at h1 h2
      rw [← h1.1, ← h2.1]

end record

namespace record

end record

namespace record

theorem described_size_returns (drv : driver) (idx : Int) (size size1 : Nat) (s s1 : statement)
    (h : described_size drv idx size s = .returns size1 s1) :
    s1.frame = s.frame
    ∧ size1 = if size = 0 then to_SQLULEN (drv.SQLDescribeCol (to_SQLUSMALLINT idx)).column_size
              else size := by
  unfold described_size at h
  by_cases hz : size = 0
  · simp only [hz, if_true] at h ⊢
    cases hc : s.check drv (drv.SQLDescribeCol (to_SQLUSMALLINT idx)).return_code with
    | diverges => simp [hc] at h
    | raises e s2 => simp [hc] at h
    | returns a s2 =>
      simp only [hc, outcome.returns.injEq] at h
      obtain ⟨rfl, rfl⟩ := h
      exact ⟨statement.check_frame drv s _ _ _ hc, rfl⟩
  · simp only [hz, if_false, outcome.returns.injEq] at h ⊢
    obtain ⟨rfl, rfl⟩ := h
    exact ⟨rfl, rfl⟩

/-- What the statement on string descriptors has done when it returns. -/
theorem size_string_buffer_returns (drv : driver) (idx : Int) (key : column_key) (size : Nat)
    (s s1 : statement) (r r1 : record) (info : bind_info_t)
    (hfind : r.find key = some info)
    (h : size_string_buffer drv idx key size s r = .returns () (s1, r1)) :
    s1.frame = s.frame
    ∧ r1 = r.modify key
        (if info.f_target_type = SQL_C_CHAR ∨ info.f_target_type = SQL_C_WCHAR then
           with_buffer drv (string_size info.f_target_type
             (if size = 0 then to_SQLULEN (drv.SQLDescribeCol (to_SQLUSMALLINT idx)).column_size
              else size))
         else fun v => v) := by
  unfold size_string_buffer at h
  simp only [hfind, Option.getD_some] at h
  by_cases hs : info.f_target_type = SQL_C_CHAR ∨ info.f_target_type = SQL_C_WCHAR
  · simp only [hs, if_true] at h ⊢
    cases hd : described_size drv idx size s with
    | diverges => simp [hd] at h
    | raises e s2 => simp [hd] at h
    | returns size1 s2 =>
      obtain ⟨ha, hsz⟩ := described_size_returns drv idx size size1 s s2 hd
      simp only [hd, outcome.returns.injEq, Prod.mk.injEq, true_and] at h
      obtain ⟨rfl, rfl⟩ := h
      exact ⟨ha, by rw [hsz]⟩
  · simp only [hs, if_false, outcome.returns.injEq, Prod.mk.injEq, true_and] at h ⊢
    obtain ⟨rfl, rfl⟩ := h
    exact ⟨rfl, (modify_id _ _).symm⟩

/-- What the call of `SQLBindCol` has done when `check` returns. -/
theorem bind_col_returns (drv : driver) (idx : Int) (key : column_key)
    (s s1 : statement) (r r1 : record) (info : bind_info_t)
    (hfind : r.find key = some info)
    (h : bind_col drv idx key s r = .returns () (s1, r1)) :
    s1.frame = s.frame
    ∧ r1 = { r with driver_bindings :=
              unbind_column s.addr (to_SQLUSMALLINT idx) r.driver_bindings
              ++ (if info.f_data = .null then [] else [registration s.addr idx key info]) } := by
  unfold bind_col at h
  simp only [hfind, Option.getD_some] at h
  cases hc : s.check drv (drv.SQLBindCol (to_SQLUSMALLINT idx) info.f_target_type info.f_size) with
  | diverges => simp [hc] at h
  | raises e s2 => simp [hc] at h
  | returns a s2 =>
    have hs2 : s2.addr = s.addr := statement.check_addr drv s s2 _ _ hc
    simp only [hc, outcome.returns.injEq, Prod.mk.injEq, true_and] at h
    obtain ⟨rfl, rfl⟩ := h
    refine ⟨statement.check_frame drv s _ _ _ hc, ?_⟩
    by_cases hn : info.f_data = .null
    · simp [hn, hs2]
    · simp [hn, hs2, register_column, registration]

end record

namespace record

@[simp] theorem modify_driver_bindings (r : record) (k : column_key)
    (f : bind_info_t → bind_info_t) : (r.modify k f).driver_bindings = r.driver_bindings := by
  cases k <;> rfl

/-- What the last part of the loop body has done when it returns: the descriptor
    under `key` went through `f` and the registration of the column `idx` was
    replaced by `extra`; for a narrow string descriptor `f` is `with_buffer` of the
    computed size and `extra` is the registration of the new buffer. -/
theorem bind_info_returns (drv : driver) (idx : Int) (key : column_key) (size : Nat)
    (s s1 : statement) (r r1 : record) (info : bind_info_t)
    (hfind : r.find key = some info)
    (h : bind_info drv idx key size s r = .returns () (s1, r1)) :
    s1.frame = s.frame
    ∧ ∃ (f : bind_info_t → bind_info_t) (extra : List (bound_column column_key)),
        r1 = { r.modify key f with
               driver_bindings := unbind_column s.addr (to_SQLUSMALLINT idx) r.driver_bindings
                 ++ extra }
        ∧ (∀ b ∈ extra, b.target = key)
        ∧ (info.f_target_type = SQL_C_CHAR →
            f = with_buffer drv (string_size SQL_C_CHAR
                  (if size = 0 then to_SQLULEN (drv.SQLDescribeCol (to_SQLUSMALLINT idx)).column_size
                   else size))
            ∧ extra = [registration s.addr idx key (f info)]) := by
  unfold bind_info at h
  cases hsz : size_string_buffer drv idx key size s r with
  | diverges => simp [hsz] at h
  | raises e st => simp [hsz] at h
  | returns u st =>
    obtain ⟨s2, r2⟩ := st
    simp only [hsz] at h
    obtain ⟨ha2, hr2⟩ := size_string_buffer_returns drv idx key size s s2 r r2 info hfind hsz
    generalize hf0 :
      (if info.f_target_type = SQL_C_CHAR ∨ info.f_target_type = SQL_C_WCHAR then
           with_buffer drv (string_size info.f_target_type
             (if size = 0 then to_SQLULEN (drv.SQLDescribeCol (to_SQLUSMALLINT idx)).column_size
              else size))
         else fun v => v) = f0 at hr2
    have hfind2 : r2.find key = some (f0 info) := by
      rw [hr2, find_modify, if_pos rfl, hfind]; rfl
    obtain ⟨ha1, hr1⟩ := bind_col_returns drv idx key s2 s1 r2 r1 _ hfind2 h
    refine ⟨ha1.trans ha2, f0,
      (if (f0 info).f_data = .null then [] else [registration s.addr idx key (f0 info)]),
      ?_, ?_, ?_⟩
    · rw [hr1, statement.frame_addr _ _ ha2, hr2, modify_driver_bindings]
    · intro b hb
      split_ifs at hb
      · cases hb
      · simp only [List.mem_singleton] at hb
        rw [hb]; rfl
    · intro hchar
      have hf1 : f0 = with_buffer drv (string_size SQL_C_CHAR
          (if size = 0 then to_SQLULEN (drv.SQLDescribeCol (to_SQLUSMALLINT idx)).column_size
           else size)) := by
        rw [← hf0]; simp only [hchar, true_or, if_true]
      refine ⟨hf1, ?_⟩
      have hdata : ¬ ((f0 info).f_data = .null) := by
        rw [hf1]; simp [with_buffer]
      rw [if_neg hdata]

/-- What an iteration of the loop of `record::bind_impl` that returns has done:
    nothing when no descriptor is selected for the column, otherwise what
    `bind_info_returns` tells for the selected descriptor. -/
theorem bind_column_returns (drv : driver) (idx : Int) (s s1 : statement) (r r1 : record)
    (h : bind_column drv idx s r = .returns () (s1, r1)) :
    s1.frame = s.frame
    ∧ ((r1 = r ∧ ∀ k, ¬ selects drv r idx k)
      ∨ ∃ (key : column_key) (info : bind_info_t) (f : bind_info_t → bind_info_t)
          (extra : List (bound_column column_key)),
          selects drv r idx key ∧ r.find key = some info
          ∧ r1 = { r.modify key f with
                   driver_bindings := unbind_column s.addr (to_SQLUSMALLINT idx) r.driver_bindings
                     ++ extra }
          ∧ (∀ b ∈ extra, b.target = key)
          ∧ (info.f_target_type = SQL_C_CHAR →
              f = with_buffer drv (string_size SQL_C_CHAR
                    (to_SQLULEN (drv.SQLDescribeCol (to_SQLUSMALLINT idx)).column_size))
              ∧ extra = [registration s.addr idx key (f info)])) := by
  unfold bind_column at h
  cases hcol : map_find idx r.f_bind_by_col with
  | none =>
    simp only [hcol] at h
    cases hc : s.check drv (drv.SQLDescribeCol (to_SQLUSMALLINT idx)).return_code with
    | diverges => simp [hc] at h
    | raises e s2 => simp [hc] at h
    | returns a s2 =>
      have ha2 : s2.frame = s.frame := statement.check_frame drv s s2 _ _ hc
      simp only [hc] at h
      cases hnm : map_find (c_str ((drv.SQLDescribeCol (to_SQLUSMALLINT idx)).column_name.set 255 0))
          r.f_bind_by_name with
      | none =>
        simp only [hnm, outcome.returns.injEq, Prod.mk.injEq, true_and] at h
        obtain ⟨rfl, rfl⟩ := h
        refine ⟨ha2, Or.inl ⟨rfl, fun k hk => ?_⟩⟩
        cases k with
        | name n =>
          simp only [selects] at hk
          rw [← hk.2.1, hnm] at hk
          simp at hk
        | col c =>
          simp only [selects, hcol] at hk
          simp at hk
      | some v =>
        simp only [hnm] at h
        obtain ⟨ha1, f, extra, hr1, hex, hch⟩ :=
          bind_info_returns drv idx _ _ s2 s1 r r1 v (by simpa [find] using hnm) h
        refine ⟨ha1.trans ha2, Or.inr ⟨_, v, f, extra, ?_, by simpa [find] using hnm, ?_, hex, ?_⟩⟩
        · simp only [selects, hcol, hnm, true_and, Option.isSome_some]
        · rw [hr1, statement.frame_addr _ _ ha2]
        · intro hchar
          obtain ⟨hf, he⟩ := hch hchar
          rw [statement.frame_addr _ _ ha2] at he
          refine ⟨?_, he⟩
          rw [hf]
          split_ifs with hz
          · rw [hz]
          · rfl
  | some v =>
    simp only [hcol] at h
    obtain ⟨ha1, f, extra, hr1, hex, hch⟩ :=
      bind_info_returns drv idx _ _ s s1 r r1 v (by simpa [find] using hcol) h
    refine ⟨ha1, Or.inr ⟨_, v, f, extra, ?_, by simpa [find] using hcol, hr1, hex, ?_⟩⟩
    · simp only [selects, hcol, true_and, Option.isSome_some]
    · intro hchar
      simpa using hch hchar

end record

namespace record

theorem selects_congr (drv : driver) (r r1 : record) (idx : Int) (k : column_key)
    (hk : ∀ k, (r1.find k).isSome = (r.find k).isSome) (h : selects drv r idx k) :
    selects drv r1 idx k := by
  have hcol := hk (.col idx)
  simp only [find] at hcol
  cases k with
  | name n =>
    have hn := hk (.name n)
    simp only [find] at hn
    simp only [selects] at h ⊢
    refine ⟨?_, h.2.1, by rw [hn]; exact h.2.2⟩
    rw [h.1] at hcol
    cases hm : map_find idx r1.f_bind_by_col with
    | none => rfl
    | some v => rw [hm] at hcol; simp at hcol
  | col c =>
    simp only [selects] at h ⊢
    exact ⟨h.1, by rw [hcol]; exact h.2⟩

theorem to_SQLUSMALLINT_ne (a b : Int) (ha : 1 ≤ a) (hab : a < b) (hb : b ≤ 32767) :
    to_SQLUSMALLINT a ≠ to_SQLUSMALLINT b := by
  unfold to_SQLUSMALLINT; omega

theorem isSome_find_modify (r : record) (k k' : column_key) (f : bind_info_t → bind_info_t) :
    ((r.modify k' f).find k).isSome = (r.find k).isSome := by
  rw [find_modify]
  split_ifs
  · cases r.find k <;> rfl
  · rfl

/-- One iteration of the loop of `record::bind_impl` keeps `binding_invariant`. -/
theorem bind_column_invariant (drv : driver) (r0 : record) (key : column_key)
    (info : bind_info_t) (c : Int) (addr : Nat) (max : Int) (hmax : max ≤ 32767)
    (htype : info.f_target_type = SQL_C_CHAR)
    (hc1 : 1 ≤ c) (hsel : selects drv r0 c key)
    (huniq : ∀ c', 1 ≤ c' → c' ≤ max → selects drv r0 c' key → c' = c)
    (idx : Int) (s s1 : statement) (r r1 : record) (h1 : 1 ≤ idx) (hle : idx ≤ max)
    (hP : binding_invariant drv r0 key info c
      (string_size SQL_C_CHAR (to_SQLULEN (drv.SQLDescribeCol (to_SQLUSMALLINT c)).column_size))
      addr idx s r)
    (h : bind_column drv idx s r = .returns () (s1, r1)) :
    binding_invariant drv r0 key info c
      (string_size SQL_C_CHAR (to_SQLULEN (drv.SQLDescribeCol (to_SQLUSMALLINT c)).column_size))
      addr (idx + 1) s1 r1 := by
  obtain ⟨haddr, hkeys, hpre, hpost⟩ := hP
  obtain ⟨hfr, hcase⟩ := bind_column_returns drv idx s s1 r r1 h
  have ha1 : s1.addr = s.addr := statement.frame_addr _ _ hfr
  have hkeys' : ∀ k, (r0.find k).isSome = (r.find k).isSome := fun k => (hkeys k).symm
  rcases hcase with ⟨rfl, hnone⟩ | ⟨key', info', f, extra, hsel', hfind', hr1, hextra, hchar⟩
  · -- no descriptor for this column
    have hne : idx ≠ c := by
      rintro rfl
      exact hnone key (selects_congr drv r0 r1 idx key hkeys hsel)
    refine ⟨ha1.trans haddr, hkeys, fun hi => hpre (by omega), fun hi => hpost (by omega)⟩
  · have hsel0 : selects drv r0 idx key' := selects_congr drv r r0 idx key' hkeys' hsel'
    have hkeys1 : ∀ k, (r1.find k).isSome = (r0.find k).isSome := by
      intro k
      rw [hr1]
      exact (isSome_find_modify r k key' f).trans (hkeys k)
    by_cases hic : idx = c
    · -- the column of the descriptor
      subst hic
      have hk : key' = key := selects_unique drv r0 idx key' key hsel0 hsel
      subst hk
      obtain ⟨hfi, hnoreg⟩ := hpre (le_refl _)
      have hinfo : info' = info := Option.some.inj (hfind'.symm.trans hfi)
      subst hinfo
      obtain ⟨hf, hex⟩ := hchar htype
      refine ⟨ha1.trans haddr, hkeys1, fun hi => absurd hi (by omega), fun _ => ⟨?_, ?_⟩⟩
      · rw [hr1]
        show (r.modify key' f).find key' = _
        rw [find_modify, if_pos rfl, hfind', hf]; rfl
      · rw [hr1]
        show List.filter _ (unbind_column s.addr (to_SQLUSMALLINT idx) r.driver_bindings ++ extra) = _
        rw [List.filter_append, hex, hf, haddr]
        have hnil : List.filter (fun b => decide (b.target = key'))
            (unbind_column addr (to_SQLUSMALLINT idx) r.driver_bindings) = [] := by
          rw [List.filter_eq_nil_iff]
          intro b hb
          have hb' : b ∈ r.driver_bindings := (List.mem_filter.mp hb).1
          simpa using hnoreg b hb'
        rw [hnil]
        simp [registration]
    · -- another column
      have hk : key' ≠ key := by
        rintro rfl
        exact hic (huniq idx h1 hle hsel0)
      have hfk : r1.find key = r.find key := by
        rw [hr1]
        show (r.modify key' f).find key = _
        rw [find_modify, if_neg (fun h => hk h.symm)]
      refine ⟨ha1.trans haddr, hkeys1, fun hi => ?_, fun hi => ?_⟩
      · obtain ⟨hfi, hnoreg⟩ := hpre (by omega)
        refine ⟨hfk.trans hfi, fun b hb => ?_⟩
        rw [hr1] at hb
        rcases List.mem_append.mp hb with hb1 | hb1
        · exact hnoreg b (List.mem_filter.mp hb1).1
        · rw [hextra b hb1]; exact hk
      · obtain ⟨hfi, hreg⟩ := hpost (by omega)
        refine ⟨hfk.trans hfi, ?_⟩
        rw [hr1]
        show List.filter _ (unbind_column s.addr (to_SQLUSMALLINT idx) r.driver_bindings ++ extra) = _
        rw [List.filter_append]
        have hnil : List.filter (fun b => decide (b.target = key)) extra = [] := by
          rw [List.filter_eq_nil_iff]
          intro b hb
          simpa [hextra b hb] using hk
        rw [hnil, List.append_nil, unbind_column, List.filter_filter]
        have hcomm : List.filter (fun a => decide (a.target = key)
              && decide ¬ (a.stmt = s.addr ∧ a.column = to_SQLUSMALLINT idx)) r.driver_bindings
            = List.filter (fun a => decide ¬ (a.stmt = s.addr ∧ a.column = to_SQLUSMALLINT idx))
                (List.filter (fun b => decide (b.target = key)) r.driver_bindings) := by
          rw [List.filter_filter]
          congr 1
          funext a
          exact Bool.and_comm _ _
        rw [hcomm, hreg]
        have hcol : to_SQLUSMALLINT c ≠ to_SQLUSMALLINT idx :=
          to_SQLUSMALLINT_ne c idx hc1 (by omega) (by omega)
        simp [registration, hcol]

end record

theorem to_SQLSMALLINT_idem (n : Int) : to_SQLSMALLINT (to_SQLSMALLINT n) = to_SQLSMALLINT n := by
  unfold to_SQLSMALLINT; omega

namespace record

/-- The loop of `bind_impl` leaves the address and the flags of the statement alone. -/
theorem bind_loop_frame (drv : driver) (max : Int) (hmax : max ≤ 32767) (fuel : Nat)
    (s s1 : statement) (r r1 : record)
    (h : bind_loop (bind_column drv) max fuel 1 s r = .returns () (s1, r1)) :
    s1.frame = s.frame := by
  obtain ⟨_, _, _, hP⟩ := bind_loop_returns (bind_column drv) max hmax
    (fun _ s2 _ => s2.frame = s.frame)
    (fun idx s2 r2 s3 r3 _ _ hP hb => (bind_column_returns drv idx s2 s3 r2 r3 hb).1.trans hP)
    fuel 1 s r s1 r1 (le_refl _) rfl h
  exact hP

/-- After a `record::bind_impl` that returns, on a record the driver holds no
    registration of: a narrow string descriptor that only the column `c` selects has
    its size and its buffer from the width of that column, and the driver holds
    one registration for it, that of the column `c`. -/
theorem bind_impl_binds (drv : driver) (s s1 : statement) (r0 r1 : record) (key : column_key)
    (info : bind_info_t) (c : Int)
    (hfind : r0.find key = some info) (htype : info.f_target_type = SQL_C_CHAR)
    (hfresh : r0.driver_bindings = [])
    (hc1 : 1 ≤ c) (hcmax : c ≤ to_SQLSMALLINT drv.SQLNumResultCols.2)
    (hsel : selects drv r0 c key)
    (huniq : ∀ c', 1 ≤ c' → c' ≤ to_SQLSMALLINT drv.SQLNumResultCols.2 →
      selects drv r0 c' key → c' = c)
    (h : bind_impl drv s r0 = .returns () (s1, r1)) :
    s1.frame = s.frame
    ∧ r1.find key = some (with_buffer drv (string_size SQL_C_CHAR
        (to_SQLULEN (drv.SQLDescribeCol (to_SQLUSMALLINT c)).column_size)) info)
    ∧ r1.driver_bindings.filter (fun b => b.target = key)
        = [registration s.addr c key (with_buffer drv (string_size SQL_C_CHAR
            (to_SQLULEN (drv.SQLDescribeCol (to_SQLUSMALLINT c)).column_size)) info)] := by
  unfold bind_impl at h
  cases hcols : s.cols drv with
  | diverges => simp [hcols] at h
  | raises e s2 => simp [hcols] at h
  | returns count s2 =>
    simp only [hcols] at h
    obtain ⟨hfr, hcount⟩ := statement.cols_returns drv s s2 count hcols
    rw [hcount, to_SQLSMALLINT_idem] at h
    have hmax := to_SQLSMALLINT_le drv.SQLNumResultCols.2
    obtain ⟨idx', hlt, _, hP⟩ := bind_loop_returns (bind_column drv)
      (to_SQLSMALLINT drv.SQLNumResultCols.2) hmax
      (binding_invariant drv r0 key info c
        (string_size SQL_C_CHAR (to_SQLULEN (drv.SQLDescribeCol (to_SQLUSMALLINT c)).column_size))
        s.addr)
      (fun idx s3 r3 s4 r4 h1 hle hP hb =>
        bind_column_invariant drv r0 key info c s.addr _ hmax htype hc1 hsel huniq
          idx s3 s4 r3 r4 h1 hle hP hb)
      65536 1 s2 r0 s1 r1 (le_refl _)
      ⟨statement.frame_addr _ _ hfr, fun _ => rfl,
        fun _ => ⟨hfind, fun b hb => by rw [hfresh] at hb; cases hb⟩,
        fun hi => absurd hi (by omega)⟩ h
    obtain ⟨_, _, _, hpost⟩ := hP
    obtain ⟨h1, h2⟩ := hpost (by omega)
    exact ⟨(bind_loop_frame drv _ hmax 65536 s2 s1 r0 r1 h).trans hfr, h1, h2⟩

/-! ### The driver's stores -/

@[simp] theorem write_driver_bindings (r : record) (k : column_key) (n : Nat) (c : cell) :
    (r.write k n c).driver_bindings = r.driver_bindings := by
  simp [write]

theorem find_deliver_other (row : Nat → Option cell) (stmt : Nat) (r : record)
    (b : bound_column column_key) (key : column_key) (hb : b.target ≠ key) :
    (deliver row stmt r b).find key = r.find key := by
  unfold deliver
  split_ifs
  · split
    · rfl
    · rw [write, find_modify, if_neg (fun h => hb h.symm)]
  · rfl

/-- Registrations of other descriptors leave the descriptor under `key` alone. -/
theorem find_foldl_deliver_other (row : Nat → Option cell) (stmt : Nat) (key : column_key) :
    ∀ (tbl : List (bound_column column_key)) (r : record),
      (∀ b ∈ tbl, b.target ≠ key) → (tbl.foldl (deliver row stmt) r).find key = r.find key := by
  intro tbl
  induction tbl with
  | nil => intro r _; rfl
  | cons b rest ih =>
    intro r h
    rw [List.foldl_cons, ih _ (fun b' hb' => h b' (List.mem_cons_of_mem _ hb')),
      find_deliver_other row stmt r b key (h b (List.mem_cons_self _ _))]

/-- When the driver holds one registration `b0` for the descriptor under `key`, a
    fetch that delivers `c` to its column leaves there what `written` tells. -/
theorem find_foldl_deliver (row : Nat → Option cell) (stmt : Nat) (key : column_key)
    (b0 : bound_column column_key) (c : cell)
    (hstmt : b0.stmt = stmt) (hrow : row b0.column = some c) (htarget : b0.target = key) :
    ∀ (tbl : List (bound_column column_key)) (r : record),
      tbl.filter (fun b => b.target = key) = [b0] →
      (tbl.foldl (deliver row stmt) r).find key
        = (r.find key).map (written b0.buffer_length c) := by
  intro tbl
  induction tbl with
  | nil => intro r h; simp at h
  | cons b rest ih =>
    intro r h
    rw [List.foldl_cons]
    by_cases hb : b.target = key
    · rw [List.filter_cons_of_pos (by simpa using hb)] at h
      obtain ⟨rfl, hrest⟩ := List.cons.inj h
      have hnone : ∀ b' ∈ rest, b'.target ≠ key := by
        intro b' hb' hk
        have : b' ∈ List.filter (fun b => decide (b.target = key)) rest :=
          List.mem_filter.mpr ⟨hb', by simpa using hk⟩
        rw [hrest] at this
        cases this
      rw [find_foldl_deliver_other row stmt key rest _ hnone]
      simp only [deliver, hstmt, if_true, hrow, write, htarget]
      rw [find_modify, if_pos rfl]
    · rw [List.filter_cons_of_neg (by simpa using hb)] at h
      rw [ih _ h, find_deliver_other row stmt r b key hb]

/-! ### `finalize_info` on a delivered narrow string -/

theorem c_str_set_of_terminated (str rest : List Nat) (hnz : ∀ u ∈ str, u ≠ 0) :
    ∀ n, str.length < n → c_str ((str ++ 0 :: rest).set n 0) = str := by
  induction str with
  | nil =>
    intro n hn
    obtain ⟨m, rfl⟩ := Nat.exists_eq_succ_of_ne_zero (Nat.pos_iff_ne_zero.mp hn)
    simp [c_str]
  | cons a t ih =>
    intro n hn
    obtain ⟨m, rfl⟩ := Nat.exists_eq_succ_of_ne_zero
      (Nat.pos_iff_ne_zero.mp (Nat.lt_of_le_of_lt (Nat.zero_le _) hn))
    have ha : a ≠ 0 := hnz a (List.mem_cons_self _ _)
    have ht := ih (fun u hu => hnz u (List.mem_cons_of_mem _ hu)) m
      (by simpa using hn)
    simp only [c_str] at ht
    simp only [List.cons_append, List.set_cons_succ, c_str, List.takeWhile_cons, ht]
    simp [ha]

end record

namespace record

@[simp] theorem set_null_flag_data (info : bind_info_t) :
    (set_null_flag info).f_data = info.f_data := by
  unfold set_null_flag; split <;> rfl

@[simp] theorem set_null_flag_data_buffer (info : bind_info_t) :
    (set_null_flag info).f_data_buffer = info.f_data_buffer := by
  unfold set_null_flag; split <;> rfl

@[simp] theorem set_null_flag_size (info : bind_info_t) :
    (set_null_flag info).f_size = info.f_size := by
  unfold set_null_flag; split <;> rfl

@[simp] theorem clear_string_data (info : bind_info_t) :
    (clear_string info).f_data = info.f_data := by
  unfold clear_string; split
  · rfl
  · split_ifs <;> rfl

@[simp] theorem clear_string_data_buffer (info : bind_info_t) :
    (clear_string info).f_data_buffer = info.f_data_buffer := by
  unfold clear_string; split
  · rfl
  · split_ifs <;> rfl

@[simp] theorem clear_string_size (info : bind_info_t) :
    (clear_string info).f_size = info.f_size := by
  unfold clear_string; split
  · rfl
  · split_ifs <;> rfl

theorem length_uninitialised (g : Nat → Nat) (n : Nat) : (uninitialised g n).length = n := by
  simp [uninitialised]

/-- The descriptor of a narrow string whose buffer `blk` has room for `str` and a
    terminator, after the driver delivered them through a registration of
    `n > |str|` bytes: what matters of it to `finalize_info`. -/
theorem written_terminated (d : bind_info_t) (blk str : List Nat) (n : Nat)
    (hd : d.f_data = .data_buffer) (hb : d.f_data_buffer = some blk)
    (hfit : str.length + 1 ≤ blk.length) (hn : str.length < n) :
    ∃ rest,
      (written n ⟨str ++ [0], str.length⟩ d).f_data_buffer = some (str ++ 0 :: rest)
      ∧ (str ++ 0 :: rest).length = blk.length
      ∧ (written n ⟨str ++ [0], str.length⟩ d).f_data = .data_buffer
      ∧ (written n ⟨str ++ [0], str.length⟩ d).f_size = d.f_size
      ∧ (written n ⟨str ++ [0], str.length⟩ d).f_fetch_size = str.length
      ∧ (written n ⟨str ++ [0], str.length⟩ d).f_target_type = d.f_target_type
      ∧ (written n ⟨str ++ [0], str.length⟩ d).f_string = d.f_string := by
  have htake : (str ++ [0]).take n = str ++ [0] :=
    List.take_of_length_le (by simp; omega)
  have hover : overwrite blk (str ++ [0]) = str ++ 0 :: blk.drop (str.length + 1) := by
    unfold overwrite
    rw [List.take_of_length_le (by simp; omega)]
    simp
  have hblock : d.block = some blk := by simp [bind_info_t.block, hd, hb]
  refine ⟨blk.drop (str.length + 1), ?_, ?_, ?_, ?_, ?_, ?_, ?_⟩
  · simp [written, bind_info_t.set_block, hblock, hd, htake, hover]
  · simp; omega
  · simp [written, bind_info_t.set_block, hblock, hd]
  · simp [written, bind_info_t.set_block, hblock, hd]
  · simp [written, bind_info_t.set_block, hblock, hd]
  · simp [written, bind_info_t.set_block, hblock, hd]
  · simp [written, bind_info_t.set_block, hblock, hd]

end record

namespace record

/-- The third statement of `finalize_info` on a narrow string descriptor whose
    buffer starts with `str` and a terminator, in full. -/
theorem copy_string_terminated_eq (i : bind_info_t) (str rest old : List Nat)
    (hty : i.f_target_type = SQL_C_CHAR) (hs : i.f_string = some old)
    (hd : i.f_data = .data_buffer) (hb : i.f_data_buffer = some (str ++ 0 :: rest))
    (hsz : str.length < i.f_size) (hf : i.f_fetch_size ≠ SQL_NULL_DATA)
    (hnz : ∀ u ∈ str, u ≠ 0) :
    copy_string i = { i with f_data_buffer := some ((str ++ 0 :: rest).set i.f_size 0)
                             f_string := some str } := by
  have hblock : i.block = some (str ++ 0 :: rest) := by
    simp [bind_info_t.block, hd, hb]
  have hpos : i.f_size > 0 := Nat.lt_of_le_of_lt (Nat.zero_le _) hsz
  unfold copy_string
  rw [hblock, hs]
  simp only [hpos, hf, ne_eq, not_false_eq_true, and_self, if_true, hty,
    c_str_set_of_terminated str rest hnz i.f_size hsz, bind_info_t.set_block, hd]

/-- The member `finalize_info` on a narrow string descriptor to which the driver has delivered
    `str` with its terminator: the caller's string is `str`, and the descriptor
    keeps its type, its pointer, its size and the length of its buffer. -/
theorem finalize_info_delivered (i : bind_info_t) (str rest old : List Nat)
    (hty : i.f_target_type = SQL_C_CHAR) (hs : i.f_string = some old)
    (hd : i.f_data = .data_buffer) (hb : i.f_data_buffer = some (str ++ 0 :: rest))
    (hsz : str.length < i.f_size) (hf : i.f_fetch_size ≠ SQL_NULL_DATA)
    (hnz : ∀ u ∈ str, u ≠ 0) :
    (finalize_info i).f_string = some str
    ∧ (finalize_info i).f_target_type = SQL_C_CHAR
    ∧ (finalize_info i).f_data = .data_buffer
    ∧ (finalize_info i).f_size = i.f_size
    ∧ ∃ blk, (finalize_info i).f_data_buffer = some blk
        ∧ blk.length = (str ++ 0 :: rest).length := by
  have hcs : (clear_string (set_null_flag i)).f_string = some [] :=
    clear_string_string _ old (by simpa using hs) (Or.inl (by simpa using hty))
  unfold finalize_info
  rw [copy_string_terminated_eq _ str rest [] (by simpa using hty) hcs (by simpa using hd)
    (by simpa using hb) (by simpa using hsz) (by simpa using hf) hnz]
  refine ⟨rfl, by simpa using hty, by simpa using hd, by simp, _, rfl, ?_⟩
  simp

theorem deliver_driver_bindings (row : Nat → Option cell) (stmt : Nat) (r : record)
    (b : bound_column column_key) : (deliver row stmt r b).driver_bindings = r.driver_bindings := by
  unfold deliver
  split_ifs
  · split
    · rfl
    · simp
  · rfl

theorem foldl_deliver_driver_bindings (row : Nat → Option cell) (stmt : Nat) :
    ∀ (tbl : List (bound_column column_key)) (r : record),
      (tbl.foldl (deliver row stmt) r).driver_bindings = r.driver_bindings := by
  intro tbl
  induction tbl with
  | nil => intro r; rfl
  | cons b rest ih => intro r; rw [List.foldl_cons, ih, deliver_driver_bindings]

theorem store_driver_bindings (row : Nat → Option cell) (stmt : Nat) (r : record) :
    (store row stmt r).driver_bindings = r.driver_bindings :=
  foldl_deliver_driver_bindings row stmt r.driver_bindings r

/-- A fetch on a bound narrow string: when the driver delivers `str`, shorter than
    the registered size, with its terminator to the column of the descriptor,
    then after the driver's stores and `finalize` the caller's string is `str`, and
    the descriptor is bound as before. -/
theorem store_finalize_string (r : record) (key : column_key) (addr : Nat) (c : Int)
    (size : Nat) (row : Nat → Option cell) (str : std_string)
    (hbound : string_bound r key addr c size)
    (hlen : str.length < size) (hnz : ∀ u ∈ str, u ≠ 0)
    (hrow : row (to_SQLUSMALLINT c) = some ⟨str ++ [0], str.length⟩) :
    string_bound (finalize (store row addr r)) key addr c size
    ∧ ∃ d, (finalize (store row addr r)).find key = some d ∧ d.f_string = some str := by
  obtain ⟨d, blk, old, hfind, hty, hs, hd, hb, hblk, hsz, hreg⟩ := hbound
  have hstored : (store row addr r).find key
      = some (written size ⟨str ++ [0], str.length⟩ d) := by
    have := find_foldl_deliver row addr key _ ⟨str ++ [0], str.length⟩ rfl hrow rfl
      r.driver_bindings r hreg
    rw [store, this, hfind]; rfl
  obtain ⟨rest, hwb, hwl, hwd, hws, hwf, hwt, hwstr⟩ :=
    written_terminated d blk str size hd hb (by omega) hlen
  have hfin := finalize_info_delivered (written size ⟨str ++ [0], str.length⟩ d) str rest old
    (hwt.trans hty) (hwstr.trans hs) hwd hwb (by rw [hws, hsz]; exact hlen)
    (by rw [hwf]; unfold SQL_NULL_DATA; omega) hnz
  obtain ⟨h1, h2, h3, h4, blk', h5, h6⟩ := hfin
  have hfound : (finalize (store row addr r)).find key
      = some (finalize_info (written size ⟨str ++ [0], str.length⟩ d)) := by
    rw [find_finalize, hstored]; rfl
  refine ⟨⟨_, blk', str, hfound, h2, h1, h3, h5, by rw [h6, hwl, hblk], by rw [h4, hws, hsz], ?_⟩,
    _, hfound, h1⟩
  show List.filter _ (store row addr r).driver_bindings = _
  rw [store_driver_bindings]
  exact hreg

end record

/-- A `statement::fetch` that returns true: `bind` has returned, the driver's fetch
    call has delivered a row, and the record is `finalize` of what the driver
    stored; the address and the flags of the statement are as before `bind`'s
    last `check`. -/
theorem statement.fetch_returns_true {R : Type} (ops : record_ops R) (drv : driver)
    (s s' : statement) (rec rec' : R) (orientation offset : Int)
    (h : statement.fetch ops drv s rec orientation offset = .returns true (s', rec')) :
    ∃ (s1 : statement) (rec1 : R),
      record_base.bind ops drv s rec = .returns () (s1, rec1)
      ∧ s'.frame = s1.frame
      ∧ rec' = ops.finalize (ops.store
          (if orientation = SQL_FETCH_NEXT ∧ s1.f_no_direct_fetch = false then drv.SQLFetch
           else drv.SQLFetchScroll orientation offset).2 s1.addr rec1) := by
  unfold statement.fetch at h
  cases hb : record_base.bind ops drv s rec with
  | diverges => simp [hb] at h
  | raises e st => simp [hb] at h
  | returns u st =>
    obtain ⟨s1, rec1⟩ := st
    refine ⟨s1, rec1, rfl, ?_⟩
    simp only [hb] at h
    cases hd : s1.f_has_data with
    | false => simp [statement.has_data, hd] at h
    | true =>
      simp only [statement.has_data, hd, Bool.true_eq_false, if_false] at h
      generalize hans : (if orientation = SQL_FETCH_NEXT ∧ s1.f_no_direct_fetch = false
        then drv.SQLFetch else drv.SQLFetchScroll orientation offset) = answer at h ⊢
      by_cases hnd : answer.1 = SQL_NO_DATA
      · simp [hnd] at h
      · simp only [hnd, if_false] at h
        cases hc : s1.check drv answer.1 with
        | diverges => simp [hc] at h
        | raises e s3 => simp [hc] at h
        | returns a s3 =>
          have hdel : row_delivered answer.1 = true := by
            rcases statement.check_returns_code drv s1 s3 _ _ hc with h0 | h0 <;>
              simp [row_delivered, h0]
          simp only [hc, hdel, if_true, outcome.returns.injEq, Prod.mk.injEq, true_and] at h
          obtain ⟨rfl, rfl⟩ := h
          exact ⟨statement.check_frame drv s1 _ _ _ hc, rfl⟩

namespace record

@[simp] theorem modify_statement (r : record) (k : column_key)
    (f : bind_info_t → bind_info_t) : (r.modify k f).f_statement = r.f_statement := by
  cases k <;> rfl

theorem bind_impl_statement (drv : driver) (s s1 : statement) (r r1 : record)
    (h : bind_impl drv s r = .returns () (s1, r1)) : r1.f_statement = r.f_statement := by
  unfold bind_impl at h
  cases hcols : s.cols drv with
  | diverges => simp [hcols] at h
  | raises e s2 => simp [hcols] at h
  | returns count s2 =>
    simp only [hcols] at h
    obtain ⟨_, _, _, hP⟩ := bind_loop_returns (bind_column drv) (to_SQLSMALLINT count)
      (to_SQLSMALLINT_le _) (fun _ _ r2 => r2.f_statement = r.f_statement)
      (fun idx s2 r2 s3 r3 _ _ hP hb => by
        rcases (bind_column_returns drv idx s2 s3 r2 r3 hb).2 with ⟨rfl, _⟩ | ⟨k, i, f, e, _, _, hr, _⟩
        · exact hP
        · rw [hr]; simpa using hP)
      65536 1 s2 r s1 r1 (le_refl _) rfl h
    exact hP

theorem foldl_deliver_statement (row : Nat → Option cell) (stmt : Nat) :
    ∀ (tbl : List (bound_column column_key)) (r : record),
      (tbl.foldl (deliver row stmt) r).f_statement = r.f_statement := by
  intro tbl
  induction tbl with
  | nil => intro r; rfl
  | cons b rest ih =>
    intro r
    rw [List.foldl_cons, ih]
    unfold deliver
    split_ifs
    · split
      · rfl
      · simp [write]
    · rfl

theorem finalize_store_statement (row : Nat → Option cell) (stmt : Nat) (r : record) :
    (finalize (store row stmt r)).f_statement = r.f_statement :=
  foldl_deliver_statement row stmt r.driver_bindings r

end record

namespace record

theorem string_size_char (w : Nat) (hrep : w + 3 < 18446744073709551616) :
    string_size SQL_C_CHAR (to_SQLULEN w) = (if w = 0 then 8 * 1024 else w) + 1 := by
  have h1 : to_SQLULEN w = w := by unfold to_SQLULEN; omega
  unfold string_size
  rw [h1]
  simp only [show ¬ (SQL_C_CHAR = SQL_C_WCHAR) by decide, if_false, sizeof_SQLCHAR]
  unfold to_SQLULEN
  split_ifs <;> omega

/-- A fetch that returns true on a record in the state `string_ready`, when the
    driver delivers `str`, of at most `w` code units none of which is 0, with its
    terminator: the caller's string is `str` and the record is in the state
    `string_ready` again. -/
theorem fetch_string_ready (drv : driver) (s s' : statement) (r r' : record)
    (key : column_key) (c : Int) (w : Nat) (str : std_string) (orientation offset : Int)
    (hrep : w + 3 < 18446744073709551616)
    (hready : string_ready r s key c w)
    (hnz : ∀ u ∈ str, u ≠ 0) (hlen : str.length ≤ w)
    (hdel : (if orientation = SQL_FETCH_NEXT ∧ s.f_no_direct_fetch = false then drv.SQLFetch
             else drv.SQLFetchScroll orientation offset).2 (to_SQLUSMALLINT c)
            = some ⟨str ++ [0], str.length⟩)
    (hfetch : statement.fetch ops drv s r orientation offset = .returns true (s', r')) :
    (∃ d, r'.find key = some d ∧ d.f_string = some str) ∧ string_ready r' s' key c w := by
  obtain ⟨hst, hbound⟩ := hready
  obtain ⟨s1, r1, hbind, hfr, hr'⟩ :=
    statement.fetch_returns_true ops drv s s' r r' orientation offset hfetch
  have hnoop : record_base.bind ops drv s r = .returns () (s, r) := by
    simp [record_base.bind, ops, hst]
  rw [hnoop] at hbind
  simp only [outcome.returns.injEq, Prod.mk.injEq, true_and] at hbind
  obtain ⟨rfl, rfl⟩ := hbind
  have hlt : str.length < string_size SQL_C_CHAR (to_SQLULEN w) := by
    rw [string_size_char w hrep]; split_ifs <;> omega
  obtain ⟨hb', hd'⟩ := store_finalize_string r key s.addr c _ _ str hbound hlt hnz hdel
  have haddr : s'.addr = s.addr := statement.frame_addr _ _ hfr
  rw [hr']
  refine ⟨hd', ?_, ?_⟩
  · show (finalize (store _ s.addr r)).f_statement = _
    rw [finalize_store_statement, hst, haddr]
  · rw [haddr]; exact hb'

/-- C6: round trip of a narrow string through a static record. A `std::string` is
    registered under `key` (a name or an index) in a record that is not bound yet;
    the column `c` is the one column that `bind_impl` selects for it, and the driver
    declares the width `w` for it (with `w + 3` below `2^64`, so that the buffer size
    is representable). Then for every value `str` without a zero unit and of length
    at most `w` that the driver delivers to that column with a terminator and the
    length `|str|`: when `statement::fetch` returns true the caller's string is `str`,
    whatever it held before and whatever the new buffer held; and the same holds
    for every later fetch, whatever the buffer holds by then. -/
theorem fetch_string_round_trip (drv : driver) (s s' : statement) (r r' : record)
    (key : column_key) (info : bind_info_t) (old str : std_string) (c : Int) (w : Nat)
    (orientation offset : Int)
    (hunbound : r.f_statement = none) (hfresh : r.driver_bindings = [])
    (hfind : r.find key = some info)
    (htype : info.f_target_type = SQL_C_CHAR) (hstr : info.f_string = some old)
    (hc1 : 1 ≤ c) (hcmax : c ≤ to_SQLSMALLINT drv.SQLNumResultCols.2)
    (hsel : selects drv r c key)
    (huniq : ∀ c', 1 ≤ c' → c' ≤ to_SQLSMALLINT drv.SQLNumResultCols.2 →
      selects drv r c' key → c' = c)
    (hw : (drv.SQLDescribeCol (to_SQLUSMALLINT c)).column_size = w)
    (hrep : w + 3 < 18446744073709551616)
    (hnz : ∀ u ∈ str, u ≠ 0) (hlen : str.length ≤ w)
    (hdel : (if orientation = SQL_FETCH_NEXT ∧ s.f_no_direct_fetch = false then drv.SQLFetch
             else drv.SQLFetchScroll orientation offset).2 (to_SQLUSMALLINT c)
            = some ⟨str ++ [0], str.length⟩)
    (hfetch : statement.fetch ops drv s r orientation offset = .returns true (s', r')) :
    (∃ d, r'.find key = some d ∧ d.f_string = some str)
    ∧ string_ready r' s' key c w
    ∧ (∀ (drv2 : driver) (sa sb : statement) (ra rb : record) (str2 : std_string)
         (orientation2 offset2 : Int),
         string_ready ra sa key c w →
         (∀ u ∈ str2, u ≠ 0) → str2.length ≤ w →
         (if orientation2 = SQL_FETCH_NEXT ∧ sa.f_no_direct_fetch = false then drv2.SQLFetch
          else drv2.SQLFetchScroll orientation2 offset2).2 (to_SQLUSMALLINT c)
            = some ⟨str2 ++ [0], str2.length⟩ →
         statement.fetch ops drv2 sa ra orientation2 offset2 = .returns true (sb, rb) →
         (∃ d, rb.find key = some d ∧ d.f_string = some str2) ∧ string_ready rb sb key c w) := by
  obtain ⟨s1, r1, hbind, hfr, hr'⟩ :=
    statement.fetch_returns_true ops drv s s' r r' orientation offset hfetch
  have hbi : record_base.bind ops drv s r
      = bind_impl drv s { r with f_statement := some s.addr } := by
    simp [record_base.bind, ops, hunbound]
  rw [hbi] at hbind
  obtain ⟨hfr1, hf1, hreg1⟩ := bind_impl_binds drv s s1
    ({ r with f_statement := some s.addr } : record) r1 key info c hfind htype hfresh
    hc1 hcmax hsel huniq hbind
  have hst1 : r1.f_statement = some s.addr := bind_impl_statement drv s s1
    ({ r with f_statement := some s.addr } : record) r1 hbind
  have haddr1 : s1.addr = s.addr := statement.frame_addr _ _ hfr1
  have hndf : s1.f_no_direct_fetch = s.f_no_direct_fetch := congrArg (fun x => x.2.2) hfr1
  rw [hw] at hf1 hreg1
  have hsize := string_size_char w hrep
  have hbound1 : string_bound r1 key s.addr c (string_size SQL_C_CHAR (to_SQLULEN w)) := by
    refine ⟨_, _, old, hf1, by simpa [with_buffer] using htype, by simpa [with_buffer] using hstr,
      rfl, rfl, ?_, rfl, ?_⟩
    · rw [length_uninitialised, hsize]
      simp only [sizeof_SQLWCHAR]
      unfold to_SQLULEN
      split_ifs <;> omega
    · rw [hreg1]
      simp [registration, with_buffer, htype]
  have hlt : str.length < string_size SQL_C_CHAR (to_SQLULEN w) := by
    rw [hsize]; split_ifs <;> omega
  rw [hndf] at hr'
  obtain ⟨hb', hd'⟩ := store_finalize_string r1 key s.addr c _ _ str hbound1 hlt hnz hdel
  have haddr : s'.addr = s.addr := (statement.frame_addr _ _ hfr).trans haddr1
  rw [haddr1] at hr'
  refine ⟨by rw [hr']; exact hd', ⟨?_, ?_⟩, ?_⟩
  · rw [hr']
    show (finalize (store _ s.addr r1)).f_statement = _
    rw [finalize_store_statement, hst1, haddr]
  · rw [hr', haddr]; exact hb'
  · intro drv2 sa sb ra rb str2 o2 f2 hready hnz2 hlen2 hdel2 hfetch2
    exact fetch_string_ready drv2 sa sb ra rb key c w str2 o2 f2 hrep hready hnz2 hlen2 hdel2 hfetch2

/-- C6, at a concrete input (scenario A): over the columns `(id INTEGER, name
    VARCHAR(10))` and the row `(42, "hello")`, the string bound by name to `name`,
    which held "old", holds "hello" after the first fetch; and so does a string
    bound by index to the column 2. -/
theorem fetch_string_round_trip_witness :
    (∃ d, sample_bound_record.find (.name (lit "name")) = some d
      ∧ d.f_string = some (lit "hello"))
    ∧ (∃ d, sample_bound_index_record.find (.col 2) = some d
      ∧ d.f_string = some (lit "hello")) :=
  ⟨(fetch_string_round_trip sample_driver sample_statement sample_statement
      sample_record sample_bound_record (.name (lit "name"))
      ((sample_record.find (.name (lit "name"))).getD default) (lit "old") (lit "hello") 2 10
      SQL_FETCH_NEXT 0 rfl rfl (by decide) (by decide) (by decide) (by decide) (by decide)
      (by decide)
      (by
        intro c' h1 h2 hs
        have h3 : c' ≤ 2 := h2
        have hc : c' = 1 ∨ c' = 2 := by omega
        rcases hc with rfl | rfl
        · exact absurd hs (by decide)
        · rfl)
      rfl (by decide) (by decide) (by decide) (by decide) (by decide)).1,
   (fetch_string_round_trip sample_driver sample_statement sample_statement
      sample_index_record sample_bound_index_record (.col 2)
      ((sample_index_record.find (.col 2)).getD default) (lit "old") (lit "hello") 2 10
      SQL_FETCH_NEXT 0 rfl rfl (by decide) (by decide) (by decide) (by decide) (by decide)
      (by decide) (fun _ _ _ hs => hs.1)
      rfl (by decide) (by decide) (by decide) (by decide) (by decide)).1⟩

end record

/-! ## `record::bind` called twice with one key -/

/-- A second `std::map::insert` of a key leaves the map as the first one made it. -/
theorem map_insert_twice {κ α : Type} [DecidableEq κ] [LT κ]
    [DecidableRel (fun (a b : κ) => a < b)] (k : κ) (v1 v2 : α) (m : List (κ × α)) :
    map_insert k v2 (map_insert k v1 m) = map_insert k v1 m := by
  induction m with
  | nil => simp [map_insert]
  | cons e rest ih =>
    obtain ⟨k', v'⟩ := e
    by_cases h1 : k = k'
    · simp [map_insert, h1]
    · by_cases h2 : k < k'
      · simp [map_insert, h1, h2]
      · simp [map_insert, h1, h2, ih]

/-- C11, evaluated on the code: a second `record::bind` with a key that is already
    registered changes nothing, so the descriptor the record holds for the key is
    the one of the first call. For the record on which `bind("name", v1, &flag)` with
    `v1 = "first"` is followed by `bind("name", v2)` with `v2 = "second"`, the one
    descriptor under `name` is that of `v1`, and a fetch of the row `(42, "hello")`
    stores "hello" and the null flag through the pointers of `v1`; the same holds
    for the column index 2 as the key. -/
theorem record.bind_twice_keeps_first :
    (∀ (r : record) (key : column_key) (v1 v2 : host_variable) (n1 n2 : Option Bool),
        (r.bind key v1 n1).bind key v2 n2 = r.bind key v1 n1)
    ∧ twice_bound_record.find (.name (lit "name"))
        = some (record.new_bind_info (.name (lit "name")) (.string (lit "first")) (some true))
    ∧ twice_bound_index_record.find (.col 2)
        = some (record.new_bind_info (.col 2) (.string (lit "first")) (some true))
    ∧ (∃ st d, statement.fetch record.ops sample_driver sample_statement twice_bound_record
          SQL_FETCH_NEXT 0 = .returns true st
        ∧ st.2.f_bind_by_name.length = 1
        ∧ st.2.find (.name (lit "name")) = some d
        ∧ d.f_string = some (lit "hello") ∧ d.f_is_null = some false)
    ∧ (∃ st d, statement.fetch record.ops sample_driver sample_statement
          twice_bound_index_record SQL_FETCH_NEXT 0 = .returns true st
        ∧ st.2.f_bind_by_col.length = 1
        ∧ st.2.find (.col 2) = some d
        ∧ d.f_string = some (lit "hello") ∧ d.f_is_null = some false) := by
  refine ⟨?_, by decide, by decide, ⟨_, _, rfl, rfl, rfl, rfl, rfl⟩, ⟨_, _, rfl, rfl, rfl, rfl, rfl⟩⟩
  intro r key v1 v2 n1 n2
  cases key with
  | name n => simp only [record.bind, map_insert_twice]
  | col c => simp only [record.bind, map_insert_twice]

/-! ## The raw-binary accessor of `dynamic_record` -/

/-- C12, evaluated on the code: the column `name`, a `VARCHAR(10)`, of the dynamic
    record filled with the row `(42, "hello")` has the fetched size 5 in a buffer of
    11 bytes. Asked for 8 bytes, the raw-binary accessor hands 11 bytes, the size of
    the buffer, to `memcpy` and returns 11, where the smaller of the length and the
    fetched size is 5; asked for 3 bytes, fewer than were fetched, it copies and
    returns 3. The two overloads agree. -/
theorem dynamic_record.get_binary_copies_buffer_size :
    (∃ info, fetched_dynamic_record.find_column (.name (lit "name")) SQL_UNKNOWN_TYPE true
          = .ok info
        ∧ info.f_fetch_size = 5 ∧ info.f_size = 11)
    ∧ fetched_dynamic_record.get_binary (.name (lit "name")) (some (List.replicate 16 255)) 8
        = .returns 11 (some (lit "hello" ++ [0, 71, 65, 66, 67, 68] ++ List.replicate 5 255))
    ∧ fetched_dynamic_record.get_binary (.col 2) (some (List.replicate 16 255)) 8
        = .returns 11 (some (lit "hello" ++ [0, 71, 65, 66, 67, 68] ++ List.replicate 5 255))
    ∧ (11 : Int) ≠ min 8 5
    ∧ fetched_dynamic_record.get_binary (.name (lit "name")) (some (List.replicate 16 255)) 3
        = .returns 3 (some (lit "hel" ++ List.replicate 13 255)) :=
  ⟨⟨_, rfl, rfl, rfl⟩, rfl, rfl, by decide, rfl⟩

/-- C13, evaluated on the code: the column `id`, an `INTEGER`, of the dynamic record
    filled with the row `(42, "hello")` has the fetched size 4 in a buffer of 10
    bytes. Handed a buffer of 4 bytes (here followed in memory by 8 bytes that hold
    255) and the length 4, the raw-binary accessor returns 10 and stores 10 bytes:
    the 6 bytes behind the caller's buffer are overwritten. -/
theorem dynamic_record.get_binary_overruns_buffer :
    (∃ info, fetched_dynamic_record.find_column (.col 1) SQL_UNKNOWN_TYPE true = .ok info
        ∧ info.f_fetch_size = 4 ∧ info.f_size = 10)
    ∧ fetched_dynamic_record.get_binary (.col 1) (some (List.replicate 12 255)) 4
        = .returns 10 (some [42, 0, 0, 0, 69, 70, 71, 65, 66, 67, 255, 255])
    ∧ ¬ ((10 : Int) ≤ 4)
    ∧ fetched_dynamic_record.get_binary (.name (lit "id")) (some (List.replicate 12 255)) 4
        = .returns 10 (some [42, 0, 0, 0, 69, 70, 71, 65, 66, 67, 255, 255]) :=
  ⟨⟨_, rfl, rfl, rfl⟩, rfl, by decide, rfl⟩

/-! ## The conversion table of `dynamic_record::bind_impl` -/

namespace dynamic_record

/-- The descriptor an iteration of the loop of `bind_impl` pushes: its column is the
    counter, its SQL type is the one the driver reports for that column, and its
    bind type is what the `switch` makes of the SQL type. -/
theorem bind_column_pushes_typed (drv : driver) (idx : Int) (s s1 : statement)
    (r r1 : dynamic_record) (h : bind_column drv idx s r = .returns () (s1, r1)) :
    ∃ info : bind_info_t, r1.f_bind_by_col = r.f_bind_by_col ++ [info]
      ∧ info.f_col = idx
      ∧ info.f_target_type = to_SQLSMALLINT (drv.SQLDescribeCol (to_SQLUSMALLINT idx)).data_type
      ∧ ∃ n, info.f_bind_type = (bind_type_and_size info.f_target_type n).1 := by
  unfold bind_column at h
  simp only at h
  cases hc : s.check drv (drv.SQLDescribeCol (to_SQLUSMALLINT idx)).return_code with
  | diverges => simp [hc] at h
  | raises e s2 => simp [hc] at h
  | returns a s2 =>
    simp only [hc] at h
    split at h
    · cases h
    · cases h
    · simp only [outcome.returns.injEq, Prod.mk.injEq, true_and] at h
      obtain ⟨-, rfl⟩ := h
      exact ⟨_, rfl, rfl, rfl, _, rfl⟩

theorem bind_column_typed (drv : driver) (first : Nat) (idx : Int) (s s1 : statement)
    (r r1 : dynamic_record) (ht : typed drv first r)
    (h : bind_column drv idx s r = .returns () (s1, r1)) : typed drv first r1 := by
  obtain ⟨info, hvec, hcol, htt, hbt⟩ := bind_column_pushes_typed drv idx s s1 r r1 h
  intro p i hfirst hp
  rw [hvec] at hp
  by_cases hlt : p < r.f_bind_by_col.length
  · rw [List.getElem?_append_left hlt] at hp
    exact ht p i hfirst hp
  · have hge : r.f_bind_by_col.length ≤ p := by omega
    rw [List.getElem?_append_right hge] at hp
    have hp0 : p - r.f_bind_by_col.length = 0 := by
      by_contra hne
      obtain ⟨k, hk⟩ := Nat.exists_eq_succ_of_ne_zero hne
      rw [hk] at hp
      simp at hp
    rw [hp0] at hp
    simp only [List.getElem?_cons_zero, Option.some.injEq] at hp
    subst hp
    rw [hcol]
    exact ⟨htt, hbt⟩

/-- After a `bind_impl` that returns, every descriptor it has pushed is typed from
    the driver's description of its column. -/
theorem bind_impl_typed (drv : driver) (s s' : statement) (r r' : dynamic_record)
    (h : r.bind_impl drv s = .returns () (s', r')) :
    typed drv r.f_bind_by_col.length r' := by
  unfold bind_impl at h
  cases hc : s.cols drv with
  | diverges => simp [hc] at h
  | raises e s1 => simp [hc] at h
  | returns count s1 =>
    simp only [hc] at h
    have h0 : typed drv r.f_bind_by_col.length r := by
      intro p i hfirst hp
      rw [List.getElem?_eq_none hfirst] at hp
      cases hp
    obtain ⟨idx', -, -, ht⟩ :=
      bind_loop_returns (bind_column drv) (to_SQLSMALLINT count) (to_SQLSMALLINT_le _)
        (fun _ _ r1 => typed drv r.f_bind_by_col.length r1)
        (fun idx s r1 s1 r2 _ _ hP hb => bind_column_typed drv _ idx s s1 r1 r2 hP hb)
        65536 1 s1 r s' r' (le_refl _) h0 h
    exact ht

/-- The descriptor a lookup returns is one of `f_bind_by_col`; for a lookup by a
    column number, it is the descriptor at the offset one below the number. -/
theorem find_column_getElem (r : dynamic_record) (hcons : consistent r)
    (hlen : r.f_bind_by_col.length ≤ 32767) (key : column_key) (info : bind_info_t)
    (h : r.find_column key SQL_UNKNOWN_TYPE false = .ok info) :
    ∃ p : Nat, r.f_bind_by_col[p]? = some info
      ∧ ∀ c : Int, key = .col c → -32768 ≤ c → c ≤ 32767 → (p : Int) + 1 = c := by
  cases key with
  | name n =>
    simp only [find_column, find_column_by_name] at h
    cases hf : map_find n r.f_bind_by_name with
    | none => simp [hf] at h
    | some p =>
      simp only [hf, verify_column_unknown] at h
      cases h
      exact ⟨p, deref_of_lt r p (hcons.2 n p hf), fun c hk => by cases hk⟩
  | col c =>
    simp only [find_column, find_column_by_col] at h
    by_cases hc : to_SQLUSMALLINT (to_SQLSMALLINT (c - 1)) ≥ r.f_bind_by_col.length
    · simp [hc] at h
    · simp only [hc, if_false, verify_column_unknown] at h
      cases h
      have hlt : to_SQLUSMALLINT (to_SQLSMALLINT (c - 1)) < r.f_bind_by_col.length := by omega
      have hp : (to_SQLSMALLINT (c - 1) % 18446744073709551616).toNat
          = to_SQLUSMALLINT (to_SQLSMALLINT (c - 1)) := by
        unfold to_SQLUSMALLINT to_SQLSMALLINT at hlt ⊢
        omega
      refine ⟨_, deref_of_lt r _ (by rw [hp]; exact hlt), ?_⟩
      intro c' hk h0 h1
      cases hk
      rw [hp]
      unfold to_SQLUSMALLINT to_SQLSMALLINT at hlt ⊢
      omega

/-- The bind type the `switch` of `bind_impl` computes does not depend on the size
    of the column. -/
theorem bind_type_size_free (t : Int) (n : Nat) :
    (bind_type_and_size t n).1 = (bind_type_and_size t 0).1 := by
  unfold bind_type_and_size
  split_ifs <;> rfl

/-- The bind type the `switch` of `bind_impl` computes agrees with the table of the
    specification on every SQL type the table lists. -/
theorem bind_type_listed (t : Int) (n : Nat) (b : Int) (h : listed_bind_type t = some b) :
    (bind_type_and_size t n).1 = b := by
  rw [bind_type_size_free]
  unfold listed_bind_type at h
  split_ifs at h with h1 h2 h3 h4 h5
  · cases h
    rcases h1 with rfl | rfl | rfl | rfl | rfl | rfl <;> decide
  · cases h
    rcases h2 with rfl | rfl <;> decide
  · cases h
    subst h3; decide
  · cases h
    subst h4; decide
  · cases h
    rcases h5 with rfl | rfl | rfl | rfl | rfl | rfl | rfl | rfl | rfl | rfl | rfl | rfl | rfl
      | rfl | rfl <;> decide

end dynamic_record

namespace dynamic_record

/-- C14: after a `dynamic_record::bind_impl` that returns, every descriptor it has
    pushed holds in `f_target_type` the SQL type the driver reports for its column
    and in `f_bind_type` the bind type the table gives for it: `SQL_VARCHAR`,
    `SQL_LONGVARCHAR`, `SQL_VARBINARY`, `SQL_LONGVARBINARY`, `SQL_DECIMAL`, `SQL_GUID` to
    `SQL_C_CHAR`; `SQL_WVARCHAR`, `SQL_WLONGVARCHAR` to `SQL_C_WCHAR`; `SQL_BIGINT` to
    `SQL_C_SBIGINT`; `SQL_FLOAT` to `SQL_C_DOUBLE`; `SQL_CHAR`, `SQL_WCHAR`, `SQL_NUMERIC`,
    `SQL_INTEGER`, `SQL_SMALLINT`, `SQL_REAL`, `SQL_DOUBLE`, `SQL_TINYINT`, `SQL_BIT` and the
    six date, time and timestamp codes to the same code. On a record that was never
    bound before, this holds of every descriptor a lookup by name or by column
    number returns (for the column number `c` it is the descriptor of the column
    `c`), and `get_type` returns the untranslated SQL type. -/
theorem bind_impl_type_table (drv : driver) (s s' : statement) (r r' : dynamic_record)
    (h : r.bind_impl drv s = .returns () (s', r')) :
    (∀ (p : Nat) (info : bind_info_t), r.f_bind_by_col.length ≤ p →
        r'.f_bind_by_col[p]? = some info →
        info.f_target_type
            = to_SQLSMALLINT (drv.SQLDescribeCol (to_SQLUSMALLINT info.f_col)).data_type
        ∧ ∀ b, listed_bind_type info.f_target_type = some b → info.f_bind_type = b)
    ∧ (r.f_bind_by_col = [] → r.f_bind_by_name = [] →
        ∀ (key : column_key) (info : bind_info_t),
          r'.find_column key SQL_UNKNOWN_TYPE false = .ok info →
          info.f_target_type
              = to_SQLSMALLINT (drv.SQLDescribeCol (to_SQLUSMALLINT info.f_col)).data_type
          ∧ (∀ c : Int, key = .col c → -32768 ≤ c → c ≤ 32767 → info.f_col = c)
          ∧ (∀ b, listed_bind_type info.f_target_type = some b → info.f_bind_type = b)
          ∧ r'.get_type key = .ok info.f_target_type) := by
  have htyped := bind_impl_typed drv s s' r r' h
  refine ⟨fun p info hfirst hp => ?_, fun hcol hname key info hfound => ?_⟩
  · obtain ⟨htt, n, hbt⟩ := htyped p info hfirst hp
    exact ⟨htt, fun b hb => by rw [hbt]; exact bind_type_listed _ n b hb⟩
  · obtain ⟨hcons, hlen⟩ := bind_impl_consistent drv s s' r r' hcol hname h
    obtain ⟨p, hp, hpc⟩ := find_column_getElem r' hcons hlen key info hfound
    obtain ⟨htt, n, hbt⟩ := htyped p info (by rw [hcol]; exact Nat.zero_le _) hp
    refine ⟨htt, fun c hk h0 h1 => ?_, fun b hb => ?_, ?_⟩
    · rw [hcons.1 p info hp]
      exact hpc c hk h0 h1
    · rw [hbt]
      exact bind_type_listed _ n b hb
    · simp only [get_type, hfound]
      rfl

/-- C14, at a concrete input: the third column of `(a INTEGER, b VARCHAR(10), a BIGINT)`
    keeps the SQL type `SQL_BIGINT` and is bound as `SQL_C_SBIGINT`. -/
theorem bind_impl_type_table_witness :
    (duplicate_names_record.deref 2).f_target_type = SQL_BIGINT
    ∧ (duplicate_names_record.deref 2).f_col = 3
    ∧ (duplicate_names_record.deref 2).f_bind_type = SQL_C_SBIGINT
    ∧ duplicate_names_record.get_type (.col 3) = .ok SQL_BIGINT :=
  have w := (bind_impl_type_table duplicate_names_driver sample_statement sample_statement
    { f_statement := some 1 } duplicate_names_record (by decide)).2 rfl rfl (.col 3)
    (duplicate_names_record.deref 2) rfl
  ⟨w.1, w.2.1 3 rfl (by decide) (by decide), w.2.2.1 SQL_C_SBIGINT rfl, w.2.2.2⟩

end dynamic_record

namespace dynamic_record

/-- C15, evaluated on the code: the `switch` of `dynamic_record::bind_impl` lists
    `SQL_BINARY` with the types bound as `SQL_C_CHAR`. For a result set with one
    column of SQL type `SQL_BINARY` and size 16, `bind_impl` leaves a descriptor whose
    `f_target_type` is `SQL_BINARY` (-2) and whose `f_bind_type` is `SQL_C_CHAR` (1), not
    `SQL_C_BINARY` (-2), with a buffer of 17 bytes, and it is with `SQL_C_CHAR` that the
    column is registered with the driver. -/
theorem bind_impl_binary_as_char :
    (∀ n, (bind_type_and_size SQL_BINARY n).1 = SQL_C_CHAR)
    ∧ binary_column_record.get_type (.col 1) = .ok SQL_BINARY
    ∧ (binary_column_record.deref 0).f_bind_type = SQL_C_CHAR
    ∧ (binary_column_record.deref 0).f_bind_type ≠ SQL_C_BINARY
    ∧ (binary_column_record.deref 0).f_bind_type ≠ (binary_column_record.deref 0).f_target_type
    ∧ (binary_column_record.deref 0).f_size = 17
    ∧ binary_column_record.driver_bindings
        = [{ stmt := 1, column := 1, target_type := SQL_C_CHAR, target := 0, buffer_length := 17 }] :=
  ⟨fun n => by rw [bind_type_size_free]; decide, rfl, rfl, by decide, by decide, rfl, rfl⟩

/-- C16: on a column that is not NULL, the date, time and timestamp accessors
    return (with the first bytes of the buffer as the value) when the bind type of
    the column is the ODBC 2 code (`SQL_DATE`, `SQL_TIME`, `SQL_TIMESTAMP`) or the ODBC 3
    code (`SQL_TYPE_DATE`, `SQL_TYPE_TIME`, `SQL_TYPE_TIMESTAMP`) of the same logical
    type, and the narrow string accessor returns (with the C string of the buffer)
    when the bind type is `SQL_C_CHAR` or `SQL_VARCHAR`. -/
theorem get_accepts_aliases (r : dynamic_record) (key : column_key) (info : bind_info_t)
    (a : accessor) (out : List Nat)
    (hkey : r.find_column key SQL_UNKNOWN_TYPE false = .ok info)
    (hnn : info.f_fetch_size ≠ SQL_NULL_DATA)
    (hty : (a = .date ∧ (info.f_bind_type = SQL_DATE ∨ info.f_bind_type = SQL_TYPE_DATE))
      ∨ (a = .time ∧ (info.f_bind_type = SQL_TIME ∨ info.f_bind_type = SQL_TYPE_TIME))
      ∨ (a = .timestamp
          ∧ (info.f_bind_type = SQL_TIMESTAMP ∨ info.f_bind_type = SQL_TYPE_TIMESTAMP))
      ∨ (a = .string ∧ (info.f_bind_type = SQL_C_CHAR ∨ info.f_bind_type = SQL_VARCHAR))) :
    r.get a key out = .returns () (a.read info.f_data) := by
  have hc : info.f_bind_type = a.target_type
      ∨ (a.target_type = SQL_C_CHAR ∧ info.f_bind_type = SQL_VARCHAR)
      ∨ (a.target_type = SQL_C_DATE ∧ info.f_bind_type = SQL_TYPE_DATE)
      ∨ (a.target_type = SQL_C_TIME ∧ info.f_bind_type = SQL_TYPE_TIME)
      ∨ (a.target_type = SQL_C_TIMESTAMP ∧ info.f_bind_type = SQL_TYPE_TIMESTAMP) := by
    rcases hty with ⟨rfl, h | h⟩ | ⟨rfl, h | h⟩ | ⟨rfl, h | h⟩ | ⟨rfl, h | h⟩
    · exact Or.inl h
    · exact Or.inr (Or.inr (Or.inl ⟨rfl, h⟩))
    · exact Or.inl h
    · exact Or.inr (Or.inr (Or.inr (Or.inl ⟨rfl, h⟩)))
    · exact Or.inl h
    · exact Or.inr (Or.inr (Or.inr (Or.inr ⟨rfl, h⟩)))
    · exact Or.inl h
    · exact Or.inr (Or.inl ⟨rfl, h⟩)
  simp only [get, find_column_eq_verify r key info hkey,
    verify_column_compatible info a.target_type hc true]
  rw [if_neg (fun hn => hnn hn.2)]

/-- C16, at a concrete input: the date accessor on a column bound as `SQL_TYPE_DATE`
    that holds 2011-03-27, and the string accessor on a column bound as `SQL_C_CHAR`
    that holds "hello". -/
theorem get_accepts_aliases_witness :
    dated_record.get .date (.col 1) [0, 0, 0, 0, 0, 0] = .returns () [219, 7, 3, 0, 27, 0]
    ∧ fetched_dynamic_record.get .string (.name (lit "name")) [] = .returns () (lit "hello") :=
  ⟨get_accepts_aliases dated_record (.col 1) (dated_record.deref 0) .date [0, 0, 0, 0, 0, 0]
      rfl (by decide) (Or.inl ⟨rfl, Or.inr rfl⟩),
   get_accepts_aliases fetched_dynamic_record (.name (lit "name"))
      (fetched_dynamic_record.deref 1) .string [] rfl (by decide)
      (Or.inr (Or.inr (Or.inr ⟨rfl, Or.inl rfl⟩)))⟩

end dynamic_record

/-! ## `diagnostic::set` -/

/-- An iteration of the loop of `diagnostic::set` at a record of which a field query
    fails: the loop ends with the records collected so far. -/
theorem diagnostic.set_loop_stop (drv : driver) (handle_type : Int) (handle : Nat)
    (fuel : Nat) (record : Int) (acc : List diag_t)
    (h : diagnostic.fields_succeed drv handle_type handle record = false) :
    diagnostic.set_loop drv handle_type handle (fuel + 1) record acc = some acc := by
  simp only [diagnostic.set_loop]
  split_ifs with h1 h2 h3 h4 h5
  · rfl
  · rfl
  · rfl
  · rfl
  · rfl
  · exfalso
    simp only [Bool.not_eq_false] at h1 h2 h3 h4 h5
    simp [diagnostic.fields_succeed, h1, h2, h3, h4, h5] at h

/-- An iteration of the loop of `diagnostic::set` at a record whose five field queries
    succeed: the record is appended and the loop goes on with the next counter. -/
theorem diagnostic.set_loop_step (drv : driver) (handle_type : Int) (handle : Nat)
    (fuel : Nat) (record : Int) (acc : List diag_t)
    (h : diagnostic.fields_succeed drv handle_type handle record = true) :
    diagnostic.set_loop drv handle_type handle (fuel + 1) record acc
      = diagnostic.set_loop drv handle_type handle fuel (to_SQLSMALLINT (record + 1))
          (acc ++ [diagnostic.record_at drv handle_type handle record]) := by
  simp only [diagnostic.fields_succeed, Bool.and_eq_true] at h
  obtain ⟨⟨⟨⟨h1, h2⟩, h3⟩, h4⟩, h5⟩ := h
  simp only [diagnostic.set_loop, h1, h2, h3, h4, h5, Bool.true_eq_false, if_false,
    diagnostic.record_at]

/-- The loop of `diagnostic::set`, started at `record` with `n` records to go before
    the first one a field query of which fails: it ends, with these `n` records
    appended in order. -/
theorem diagnostic.set_loop_collects (drv : driver) (handle_type : Int) (handle : Nat) :
    ∀ (n fuel : Nat) (record : Int) (acc : List diag_t),
      1 ≤ record → record + n ≤ 32767 → n < fuel →
      (∀ i : Int, record ≤ i → i < record + n →
        diagnostic.fields_succeed drv handle_type handle i = true) →
      diagnostic.fields_succeed drv handle_type handle (record + n) = false →
      diagnostic.set_loop drv handle_type handle fuel record acc
        = some (acc ++ (List.range n).map
            (fun (j : Nat) => diagnostic.record_at drv handle_type handle (record + (j : Int)))) := by
  intro n
  induction n with
  | zero =>
    intro fuel record acc _ _ hfuel _ hfail
    obtain ⟨f, rfl⟩ := Nat.exists_eq_succ_of_ne_zero (Nat.pos_iff_ne_zero.mp hfuel)
    simp only [Nat.cast_zero, add_zero] at hfail
    rw [diagnostic.set_loop_stop drv handle_type handle f record acc hfail]
    simp
  | succ n ih =>
    intro fuel record acc h1 hmax hfuel hbefore hfail
    obtain ⟨f, rfl⟩ := Nat.exists_eq_succ_of_ne_zero (Nat.pos_iff_ne_zero.mp (by omega : 0 < fuel))
    have hcast : record + ((n + 1 : Nat) : Int) = record + 1 + (n : Int) := by
      push_cast; ring
    rw [hcast] at hmax hfail
    have hrec : diagnostic.fields_succeed drv handle_type handle record = true :=
      hbefore record (le_refl _) (by rw [hcast]; omega)
    rw [diagnostic.set_loop_step drv handle_type handle f record acc hrec,
      to_SQLSMALLINT_of_range (record + 1) (by omega) (by omega),
      ih f (record + 1) _ (by omega) hmax (by omega)
        (fun i hi1 hi2 => hbefore i (by omega) (by rw [hcast]; exact hi2)) hfail]
    congr 1
    rw [List.range_succ_eq_map, List.map_cons, List.map_map, List.append_assoc]
    congr 1
    simp only [List.singleton_append, Nat.cast_zero, add_zero, List.cons.injEq, true_and]
    apply List.map_congr_left
    intro j _
    simp only [Function.comp, Nat.succ_eq_add_one]
    congr 1
    push_cast; ring

/-- C17: when the field queries of the driver succeed for the records 1 to `k - 1`
    and one of the five queries (server name, connection name, message text, native
    error, SQL state) fails for the record `k` (a record number, so a `SQLSMALLINT`:
    `k` is at most 32767), `diagnostic::set` ends, without raising anything, having
    appended exactly the records 1 to `k - 1` in the order of the driver, whichever
    fields of the record `k` could be read; on a diagnostic without records, as every
    constructor calls it, the result holds exactly these records. -/
theorem diagnostic.set_stops_at_first_failure (drv : driver) (handle_type : Int)
    (handle : Nat) (d : diagnostic) (k : Int) (hk1 : 1 ≤ k) (hk2 : k ≤ 32767)
    (hbefore : ∀ i : Int, 1 ≤ i → i < k →
      diagnostic.fields_succeed drv handle_type handle i = true)
    (hfail : diagnostic.fields_succeed drv handle_type handle k = false) :
    diagnostic.set drv handle_type handle d
        = some { f_affected_rows :=
                   some (diagnostic.get_length drv handle_type handle 0 SQL_DIAG_ROW_COUNT).2
                 f_diag := d.f_diag
                   ++ diagnostic.driver_records drv handle_type handle (k - 1).toNat }
    ∧ (diagnostic.driver_records drv handle_type handle (k - 1).toNat).length = (k - 1).toNat
    ∧ (diagnostic.set drv handle_type handle {}).map (fun d1 => d1.f_diag)
        = some (diagnostic.driver_records drv handle_type handle (k - 1).toNat) := by
  have hn : (1 : Int) + ((k - 1).toNat : Int) = k := by omega
  have hloop : ∀ acc, diagnostic.set_loop drv handle_type handle 65536 1 acc
      = some (acc ++ diagnostic.driver_records drv handle_type handle (k - 1).toNat) := by
    intro acc
    rw [diagnostic.set_loop_collects drv handle_type handle (k - 1).toNat 65536 1 acc
      (le_refl _) (by omega) (by omega) (fun i hi1 hi2 => hbefore i hi1 (by omega))
      (by rw [hn]; exact hfail)]
    simp only [diagnostic.driver_records, add_comm]
  refine ⟨?_, by simp [diagnostic.driver_records], ?_⟩
  · simp only [diagnostic.set, hloop]
  · simp only [diagnostic.set, hloop]
    rfl

/-- C17, at a concrete input: the diagnostic area holds one full record, and of a
    second record the server name and the connection name can be read but not the
    message text; `set` collects the first record alone. -/
theorem diagnostic.set_stops_at_first_failure_witness :
    diagnostic.fields_succeed partial_record_driver 3 100 2 = false
    ∧ (diagnostic.get_string partial_record_driver 3 100 2 SQL_DIAG_SERVER_NAME).1 = true
    ∧ diagnostic.set partial_record_driver 3 100 {} = some sample_diagnostic :=
  ⟨by decide, by decide,
   (diagnostic.set_stops_at_first_failure partial_record_driver 3 100 {} 2 (by decide)
      (by decide)
      (fun i h1 h2 => by
        have hi : i = 1 := by omega
        subst hi
        decide)
      (by decide)).1⟩

/-! ## `diagnostic::msg` -/

theorem diag_t.msg_ne_nil (r : diag_t) : r.msg ≠ [] := by
  have h1 : lit "[server:" ≠ [] := by decide
  simp [diag_t.msg, h1]

theorem newline_joined_cons_ne_nil (a : std_string) (rest : List std_string) (ha : a ≠ []) :
    newline_joined (a :: rest) ≠ [] := by
  cases rest with
  | nil => simpa [newline_joined] using ha
  | cons b rest => simp [newline_joined, ha]

theorem newline_joined_msgs_ne_nil (l : List diag_t) (hl : l ≠ []) :
    newline_joined (l.map diag_t.msg) ≠ [] := by
  cases l with
  | nil => exact absurd rfl hl
  | cons y ys =>
    rw [List.map_cons]
    exact newline_joined_cons_ne_nil _ _ (diag_t.msg_ne_nil y)

/-- Joining one more string behind a list of strings that is not empty. -/
theorem newline_joined_append (l : List std_string) (x : std_string) (hl : l ≠ []) :
    newline_joined (l ++ [x]) = newline_joined l ++ lit "\n" ++ x := by
  induction l with
  | nil => exact absurd rfl hl
  | cons a rest ih =>
    cases rest with
    | nil => simp [newline_joined]
    | cons b rest =>
      have h := ih (List.cons_ne_nil b rest)
      simp only [List.cons_append] at h ⊢
      simp only [newline_joined, h, List.append_assoc]

/-- The size of a diagnostic of at most 32767 records is the number of its records. -/
theorem diagnostic.size_of_le (d : diagnostic) (hn : d.f_diag.length ≤ 32767) :
    d.size = (d.f_diag.length : Int) := by
  unfold diagnostic.size to_SQLSMALLINT
  omega

/-- The invariant of the loop of `diagnostic::msg`: at the counter `i` the string
    built so far is the first `i` records rendered and joined; with enough fuel
    for the `m` records to go, the loop ends with all records joined. -/
theorem diagnostic.msg_loop_joins (d : diagnostic) (hn : d.f_diag.length ≤ 32767) :
    ∀ (m fuel i : Nat), i + m = d.f_diag.length → m < fuel →
      diagnostic.msg_loop d fuel (i : Int) (newline_joined ((d.f_diag.take i).map diag_t.msg))
        = some (newline_joined (d.f_diag.map diag_t.msg)) := by
  intro m
  induction m with
  | zero =>
    intro fuel i hi hfuel
    obtain ⟨f, rfl⟩ := Nat.exists_eq_succ_of_ne_zero (Nat.pos_iff_ne_zero.mp hfuel)
    have hlt : ¬ ((i : Int) < d.size) := by
      rw [diagnostic.size_of_le d hn]; omega
    rw [diagnostic.msg_loop, if_neg hlt, List.take_of_length_le (by omega)]
  | succ m ih =>
    intro fuel i hi hfuel
    obtain ⟨f, rfl⟩ := Nat.exists_eq_succ_of_ne_zero (Nat.pos_iff_ne_zero.mp (by omega : 0 < fuel))
    have hil : i < d.f_diag.length := by omega
    have hlt : (i : Int) < d.size := by
      rw [diagnostic.size_of_le d hn]; omega
    obtain ⟨x, hget⟩ : ∃ x, d.f_diag[i]? = some x := ⟨_, List.getElem?_eq_getElem hil⟩
    have htake : d.f_diag.take (i + 1) = d.f_diag.take i ++ [x] := by
      rw [List.take_succ, hget]; rfl
    have hnext : (if newline_joined ((d.f_diag.take i).map diag_t.msg) ≠ []
          then newline_joined ((d.f_diag.take i).map diag_t.msg) ++ lit "\n"
          else newline_joined ((d.f_diag.take i).map diag_t.msg))
        ++ (d.f_diag.getD (i : Int).toNat {}).msg
        = newline_joined ((d.f_diag.take (i + 1)).map diag_t.msg) := by
      have hd : d.f_diag.getD (i : Int).toNat {} = x := by
        rw [Int.toNat_ofNat, List.getD_eq_getElem?_getD, hget]; rfl
      rw [hd, htake, List.map_append, List.map_singleton]
      cases i with
      | zero => simp [newline_joined]
      | succ j =>
        have hl : List.take (j + 1) d.f_diag ≠ [] := by
          intro h
          have h1 := congrArg List.length h
          rw [List.length_take] at h1
          simp only [List.length_nil] at h1
          omega
        rw [if_pos (newline_joined_msgs_ne_nil _ hl),
          newline_joined_append _ _ (by simpa using hl)]
    rw [diagnostic.msg_loop, if_pos hlt]
    simp only
    rw [hnext, to_SQLSMALLINT_of_range ((i : Int) + 1) (by omega) (by omega)]
    have h := ih f (i + 1) (by omega) (by omega)
    rw [Nat.cast_add, Nat.cast_one] at h
    exact h

/-- C18, for a diagnostic of at most 32767 records `r1` to `rn`: `diagnostic::msg()`
    returns the strings `diag_t::msg(ri)` joined by a single newline, with no newline
    in front or behind (the empty string when there is no record), and
    `diag_t::msg(r)` is `[server:` + server + `][connection:` + connection + `][state:` +
    state + `][native_errno:` + the native error number in decimal + `] ` + message. -/
theorem diagnostic.msg_joins_records (d : diagnostic) (hn : d.f_diag.length ≤ 32767) :
    d.msg = some (newline_joined (d.f_diag.map diag_t.msg))
    ∧ ∀ r : diag_t, r.msg
        = lit "[server:" ++ r.f_server ++ lit "][connection:" ++ r.f_connection
          ++ lit "][state:" ++ r.f_odbc_state ++ lit "][native_errno:"
          ++ lit (toString r.f_native_errno) ++ lit "] " ++ r.f_message := by
  refine ⟨?_, fun r => rfl⟩
  have h := diagnostic.msg_loop_joins d hn d.f_diag.length 32768 0 (by omega) (by omega)
  simpa [diagnostic.msg, newline_joined] using h

/-- C18, at a concrete input: a diagnostic of two records. -/
theorem diagnostic.msg_joins_records_witness :
    two_record_diagnostic.msg
      = some (lit ("[server:db][connection:main][state:01004][native_errno:7] truncated\n"
          ++ "[server:][connection:][state:02000][native_errno:-2] no row")) :=
  (diagnostic.msg_joins_records two_record_diagnostic (by decide)).1

/-- C18 as stated fails on a diagnostic of 32768 records: `size()` converts the
    number of records to a `SQLSMALLINT`, here -32768, the loop of `msg()` does not run
    and `msg()` returns the empty string, while the records joined by newlines are
    not the empty string. -/
theorem diagnostic.msg_oversized :
    oversized_diagnostic.f_diag.length = 32768
    ∧ oversized_diagnostic.size = -32768
    ∧ oversized_diagnostic.msg = some []
    ∧ newline_joined (oversized_diagnostic.f_diag.map diag_t.msg) ≠ []
    ∧ oversized_diagnostic.msg
        ≠ some (newline_joined (oversized_diagnostic.f_diag.map diag_t.msg)) := by
  have hs : oversized_diagnostic.size = -32768 := by
    show to_SQLSMALLINT ((List.replicate 32768 ({} : diag_t)).length : Int) = -32768
    rw [List.length_replicate]
    decide
  have hm : oversized_diagnostic.msg = some [] := by
    show diagnostic.msg_loop oversized_diagnostic (32767 + 1) 0 [] = some []
    rw [diagnostic.msg_loop, hs]
    rfl
  have hj : newline_joined (oversized_diagnostic.f_diag.map diag_t.msg) ≠ [] := by
    show newline_joined ((List.replicate (32767 + 1) ({} : diag_t)).map diag_t.msg) ≠ []
    rw [List.replicate_succ, List.map_cons]
    exact newline_joined_cons_ne_nil _ _ (diag_t.msg_ne_nil _)
  refine ⟨?_, hs, hm, hj, ?_⟩
  · show (List.replicate 32768 ({} : diag_t)).length = 32768
    rw [List.length_replicate]
  · rw [hm]
    intro h
    exact hj (Option.some.inj h).symm

/-! ## The has-data flag of `statement` -/

theorem statement.check_raises_frame (drv : driver) (s s1 : statement) (code : Int)
    (e : odbcpp_error) (h : s.check drv code = .raises e s1) : s1.frame = s.frame := by
  unfold statement.check at h
  split at h
  · cases h
  · cases h; rfl
  · cases h

/-- On a statement whose has-data flag is false, `has_data()` raises. -/
theorem statement.has_data_raises (s : statement) (h : s.f_has_data = false) :
    s.has_data = .raises statement.no_data_error s := by
  simp [statement.has_data, h, statement.no_data_error]

/-- On a statement whose has-data flag is false, `cols()` raises before it calls the
    driver. -/
theorem statement.cols_raises (drv : driver) (s : statement) (h : s.f_has_data = false) :
    s.cols drv = .raises statement.no_data_error s := by
  simp only [statement.cols, statement.has_data_raises s h]

/-- C19 as stated fails for `fetch` on a record that is bound to another statement:
    on the statement `idle_statement`, which has executed nothing, `fetch` of the
    sample record bound to the statement at address 1 raises an `odbcpp_error` with
    code `ODBCPP_INCORRECT_USE`, not `ODBCPP_NO_DATA`. -/
theorem statement.fetch_idle_foreign_record :
    idle_statement.f_has_data = false
    ∧ sample_bound_record.f_statement = some 1
    ∧ idle_statement.addr = 3
    ∧ ∃ e, statement.fetch record.ops sample_driver idle_statement sample_bound_record
          SQL_FETCH_NEXT 0 = .raises e (idle_statement, sample_bound_record)
        ∧ e.code = some ODBCPP_INCORRECT_USE
        ∧ e.code ≠ some ODBCPP_NO_DATA :=
  ⟨rfl, rfl, rfl, _, rfl, rfl, by decide⟩

/-- After `execute`, the has-data flag tells whether it returned. -/
theorem statement.execute_flag (drv : driver) (s0 : statement) (order : std_string) :
    (∀ e s1, s0.execute drv order = .raises e s1 → s1.f_has_data = false)
    ∧ (∀ u s1, s0.execute drv order = .returns u s1 → s1.f_has_data = true) := by
  unfold statement.execute
  simp only
  cases hc : statement.check drv { s0 with f_has_data := false } (drv.SQLExecDirect order) with
  | diverges => exact ⟨fun e s1 h => (by cases h), fun u s1 h => (by cases h)⟩
  | raises e0 s2 =>
    refine ⟨fun e s1 h => ?_, fun u s1 h => by cases h⟩
    cases h
    have hf := statement.check_raises_frame drv _ _ _ _ hc
    exact congrArg (fun f => f.2.1) hf
  | returns a s2 =>
    refine ⟨fun e s1 h => (by cases h), fun u s1 h => ?_⟩
    cases h
    rfl

/-- After `cancel` and after `close_cursor`, however they end, the has-data flag is
    false. -/
theorem statement.cancel_close_flag (drv : driver) (s0 : statement) :
    (∀ e s1, s0.cancel drv = .raises e s1 → s1.f_has_data = false)
    ∧ (∀ u s1, s0.cancel drv = .returns u s1 → s1.f_has_data = false)
    ∧ (∀ e s1, s0.close_cursor drv = .raises e s1 → s1.f_has_data = false)
    ∧ (∀ u s1, s0.close_cursor drv = .returns u s1 → s1.f_has_data = false) := by
  have key : ∀ code : Int,
      (∀ e s1, (match s0.has_data with
          | .raises e s1 => (.raises e s1 : outcome statement Unit)
          | .diverges => .diverges
          | .returns _ s1 =>
            match ({ s1 with f_has_data := false } : statement).check drv code with
            | .returns _ s2 => .returns () s2
            | .raises e s2 => .raises e s2
            | .diverges => .diverges) = .raises e s1 → s1.f_has_data = false)
      ∧ (∀ u s1, (match s0.has_data with
          | .raises e s1 => (.raises e s1 : outcome statement Unit)
          | .diverges => .diverges
          | .returns _ s1 =>
            match ({ s1 with f_has_data := false } : statement).check drv code with
            | .returns _ s2 => .returns () s2
            | .raises e s2 => .raises e s2
            | .diverges => .diverges) = .returns u s1 → s1.f_has_data = false) := by
    intro code
    cases hd : s0.f_has_data with
    | false =>
      rw [statement.has_data_raises s0 hd]
      exact ⟨fun e s1 h => (by cases h; exact hd), fun u s1 h => (by cases h)⟩
    | true =>
      have hh : s0.has_data = .returns () s0 := by simp [statement.has_data, hd]
      rw [hh]
      simp only
      cases hc : statement.check drv { s0 with f_has_data := false } code with
      | diverges => exact ⟨fun e s1 h => (by cases h), fun u s1 h => (by cases h)⟩
      | raises e0 s2 =>
        refine ⟨fun e s1 h => ?_, fun u s1 h => by cases h⟩
        cases h
        exact congrArg (fun f => f.2.1) (statement.check_raises_frame drv _ _ _ _ hc)
      | returns a s2 =>
        refine ⟨fun e s1 h => (by cases h), fun u s1 h => ?_⟩
        cases h
        exact congrArg (fun f => f.2.1) (statement.check_frame drv _ _ _ _ hc)
  exact ⟨(key drv.SQLCancel).1, (key drv.SQLCancel).2,
    (key drv.SQLCloseCursor).1, (key drv.SQLCloseCursor).2⟩

/-- C19, amended: on a statement whose has-data flag is false, `cols()` and `rows()`
    raise an `odbcpp_error` with code `ODBCPP_NO_DATA`, and so does `fetch(rec)` for a
    record that is bound to this statement, or for a `record` or `dynamic_record` that
    is not bound (it is left pointing to the statement); in each case the outcome is
    fixed before any answer of the driver is looked at. For a record bound to
    another statement `fetch` raises with code `ODBCPP_INCORRECT_USE`. The flag is false
    after an `execute` that raises and after `cancel` and `close_cursor`, and true after
    an `execute` that returns. -/
theorem statement.no_data_without_execute (drv : driver) (s : statement)
    (h : s.f_has_data = false) :
    statement.no_data_error.code = some ODBCPP_NO_DATA
    ∧ s.cols drv = .raises statement.no_data_error s
    ∧ s.rows drv = .raises statement.no_data_error s
    ∧ (∀ (R : Type) (ops : record_ops R) (rec : R) (orientation offset : Int),
        ops.f_statement rec = some s.addr →
        statement.fetch ops drv s rec orientation offset
          = .raises statement.no_data_error (s, rec))
    ∧ (∀ (rec : record) (orientation offset : Int), rec.f_statement = none →
        statement.fetch record.ops drv s rec orientation offset
          = .raises statement.no_data_error (s, { rec with f_statement := some s.addr }))
    ∧ (∀ (rec : dynamic_record) (orientation offset : Int), rec.f_statement = none →
        statement.fetch dynamic_record.ops drv s rec orientation offset
          = .raises statement.no_data_error (s, { rec with f_statement := some s.addr }))
    ∧ (∀ (R : Type) (ops : record_ops R) (rec : R) (orientation offset : Int) (a : Nat),
        ops.f_statement rec = some a → a ≠ s.addr →
        record_base.incorrect_use_error.code = some ODBCPP_INCORRECT_USE
        ∧ statement.fetch ops drv s rec orientation offset
            = .raises record_base.incorrect_use_error (s, rec))
    ∧ (∀ (s0 : statement) (order : std_string),
        (∀ e s1, s0.execute drv order = .raises e s1 → s1.f_has_data = false)
        ∧ (∀ u s1, s0.execute drv order = .returns u s1 → s1.f_has_data = true))
    ∧ (∀ s0 : statement,
        (∀ e s1, s0.cancel drv = .raises e s1 → s1.f_has_data = false)
        ∧ (∀ u s1, s0.cancel drv = .returns u s1 → s1.f_has_data = false)
        ∧ (∀ e s1, s0.close_cursor drv = .raises e s1 → s1.f_has_data = false)
        ∧ (∀ u s1, s0.close_cursor drv = .returns u s1 → s1.f_has_data = false)) := by
  refine ⟨rfl, statement.cols_raises drv s h, ?_, ?_, ?_, ?_, ?_,
    fun s0 order => statement.execute_flag drv s0 order,
    fun s0 => statement.cancel_close_flag drv s0⟩
  · simp only [statement.rows, statement.has_data_raises s h]
  · intro R ops rec o off hb
    have hbind : record_base.bind ops drv s rec = .returns () (s, rec) := by
      simp [record_base.bind, hb]
    simp only [statement.fetch, hbind, statement.has_data_raises s h]
  · intro rec o off hu
    have hbind : record_base.bind record.ops drv s rec
        = .raises statement.no_data_error (s, { rec with f_statement := some s.addr }) := by
      simp [record_base.bind, record.ops, hu, record.bind_impl, statement.cols_raises drv s h]
    simp only [statement.fetch, hbind]
  · intro rec o off hu
    have hbind : record_base.bind dynamic_record.ops drv s rec
        = .raises statement.no_data_error (s, { rec with f_statement := some s.addr }) := by
      simp [record_base.bind, dynamic_record.ops, hu, dynamic_record.bind_impl,
        statement.cols_raises drv s h]
    simp only [statement.fetch, hbind]
  · intro R ops rec o off a hb hne
    refine ⟨rfl, ?_⟩
    simp only [statement.fetch,
      record_base.bind_incorrect_use ops drv s rec a hb (fun h1 => hne h1.symm)]
    rfl

/-- C19, amended, at a concrete input: the statement `idle_statement` has executed
    nothing; `cols()` raises, and `fetch` of the sample record, which is not bound,
    raises the same exception and leaves the record pointing to the statement. -/
theorem statement.no_data_without_execute_witness :
    idle_statement.cols sample_driver = .raises statement.no_data_error idle_statement
    ∧ statement.fetch record.ops sample_driver idle_statement sample_record SQL_FETCH_NEXT 0
        = .raises statement.no_data_error
            (idle_statement, { sample_record with f_statement := some 3 }) :=
  have w := statement.no_data_without_execute sample_driver idle_statement rfl
  ⟨w.2.1, w.2.2.2.2.1 sample_record SQL_FETCH_NEXT 0 rfl⟩

/-! ## `record_base::bind`: what the guard looks at -/

/-- A `record::bind_impl` that returns leaves the address and the flags of the
    statement as they were. -/
theorem record.bind_impl_frame (drv : driver) (s s1 : statement) (r r1 : record)
    (h : record.bind_impl drv s r = .returns () (s1, r1)) : s1.frame = s.frame := by
  unfold record.bind_impl at h
  cases hcols : s.cols drv with
  | diverges => simp [hcols] at h
  | raises e s2 => simp [hcols] at h
  | returns count s2 =>
    simp only [hcols] at h
    exact (record.bind_loop_frame drv _ (to_SQLSMALLINT_le _) 65536 s2 s1 r r1 h).trans
      (statement.cols_returns drv s s2 count hcols).1

/-- An iteration of the loop of `dynamic_record::bind_impl` that returns leaves the
    address and the flags of the statement, and the pointer of the record to its
    statement, as they were. -/
theorem dynamic_record.bind_column_frame (drv : driver) (idx : Int) (s s1 : statement)
    (r r1 : dynamic_record) (h : dynamic_record.bind_column drv idx s r = .returns () (s1, r1)) :
    s1.frame = s.frame ∧ r1.f_statement = r.f_statement := by
  unfold dynamic_record.bind_column at h
  simp only at h
  cases hc : s.check drv (drv.SQLDescribeCol (to_SQLUSMALLINT idx)).return_code with
  | diverges => simp [hc] at h
  | raises e s2 => simp [hc] at h
  | returns a s2 =>
    simp only [hc] at h
    split at h
    · cases h
    · cases h
    · rename_i a2 s3 hc2
      simp only [outcome.returns.injEq, Prod.mk.injEq, true_and] at h
      obtain ⟨rfl, rfl⟩ := h
      exact ⟨(statement.check_frame drv s2 _ _ _ hc2).trans (statement.check_frame drv s _ _ _ hc),
        rfl⟩

theorem dynamic_record.bind_impl_frame_statement (drv : driver) (s s1 : statement)
    (r r1 : dynamic_record) (h : r.bind_impl drv s = .returns () (s1, r1)) :
    s1.frame = s.frame ∧ r1.f_statement = r.f_statement := by
  unfold dynamic_record.bind_impl at h
  cases hcols : s.cols drv with
  | diverges => simp [hcols] at h
  | raises e s2 => simp [hcols] at h
  | returns count s2 =>
    simp only [hcols] at h
    obtain ⟨_, _, _, hP⟩ := bind_loop_returns (dynamic_record.bind_column drv)
      (to_SQLSMALLINT count) (to_SQLSMALLINT_le _)
      (fun _ s3 r3 => s3.frame = s2.frame ∧ r3.f_statement = r.f_statement)
      (fun idx s3 r3 s4 r4 _ _ hP hb =>
        ⟨(dynamic_record.bind_column_frame drv idx s3 s4 r3 r4 hb).1.trans hP.1,
         (dynamic_record.bind_column_frame drv idx s3 s4 r3 r4 hb).2.trans hP.2⟩)
      65536 1 s2 r s1 r1 (le_refl _) ⟨rfl, rfl⟩ h
    exact ⟨hP.1.trans (statement.cols_returns drv s s2 count hcols).1, hP.2⟩

/-- C20 as stated fails: with the sample record bound to `sample_statement` and not
    unbound, binding a different record to the same statement, directly or through
    `fetch`, is not rejected; the second record, static or dynamic, ends bound to
    the statement as well. -/
theorem record_base.bind_second_record_accepted :
    sample_bound_record.f_statement = some sample_statement.addr
    ∧ sample_index_record ≠ sample_bound_record
    ∧ (∃ st, record_base.bind record.ops sample_driver sample_statement sample_index_record
          = .returns () st
        ∧ st.2.f_statement = some sample_statement.addr)
    ∧ (∃ st, statement.fetch record.ops sample_driver sample_statement sample_index_record
          SQL_FETCH_NEXT 0 = .returns true st
        ∧ st.2.f_statement = some sample_statement.addr)
    ∧ (∃ st, statement.fetch dynamic_record.ops sample_driver sample_statement {}
          SQL_FETCH_NEXT 0 = .returns true st
        ∧ st.2.f_statement = some sample_statement.addr) :=
  ⟨rfl, by decide, ⟨_, rfl, rfl⟩, ⟨_, rfl, rfl⟩, ⟨_, rfl, rfl⟩⟩

/-- C20, amended: `record_base::bind` looks at the record it binds and at nothing
    else. With a record `A` bound to the statement `S`, binding another record `B` to
    `S` runs `bind_impl` for `B`, now pointing to `S`, when `B` is not bound, and returns
    at once when `B` is bound to `S`; it is when `B` is bound to a statement other than
    `S` that the call is rejected, directly or through `S.fetch(B)`, with an
    `odbcpp_error` of code `ODBCPP_INCORRECT_USE`. When the `bind_impl` of a `record` or of
    a `dynamic_record` returns, `A` and `B` are both bound to `S`: it is a record that
    is bound to at most one statement at a time. -/
theorem record_base.bind_checks_record_only {RA RB : Type} (opsA : record_ops RA)
    (opsB : record_ops RB) (drv : driver) (S : statement) (A : RA) (B : RB)
    (hA : opsA.f_statement A = some S.addr) :
    (opsB.f_statement B = none →
        record_base.bind opsB drv S B
          = opsB.bind_impl drv S (opsB.set_statement (some S.addr) B))
    ∧ (opsB.f_statement B = some S.addr → record_base.bind opsB drv S B = .returns () (S, B))
    ∧ (∀ a, opsB.f_statement B = some a → a ≠ S.addr →
        record_base.incorrect_use_error.code = some ODBCPP_INCORRECT_USE
        ∧ record_base.bind opsB drv S B = .raises record_base.incorrect_use_error (S, B)
        ∧ ∀ orientation offset, statement.fetch opsB drv S B orientation offset
            = .raises record_base.incorrect_use_error (S, B))
    ∧ (∀ (B1 B2 : record) (S2 : statement), B1.f_statement = none →
        record_base.bind record.ops drv S B1 = .returns () (S2, B2) →
        B2.f_statement = some S.addr ∧ opsA.f_statement A = some S2.addr)
    ∧ (∀ (B1 B2 : dynamic_record) (S2 : statement), B1.f_statement = none →
        record_base.bind dynamic_record.ops drv S B1 = .returns () (S2, B2) →
        B2.f_statement = some S.addr ∧ opsA.f_statement A = some S2.addr) := by
  refine ⟨fun hn => ?_, fun hb => ?_, fun a hb hne => ⟨rfl, ?_, fun o off => ?_⟩,
    fun B1 B2 S2 hn hret => ?_, fun B1 B2 S2 hn hret => ?_⟩
  · simp [record_base.bind, hn]
  · simp [record_base.bind, hb]
  · exact record_base.bind_incorrect_use opsB drv S B a hb (fun h1 => hne h1.symm)
  · simp only [statement.fetch,
      record_base.bind_incorrect_use opsB drv S B a hb (fun h1 => hne h1.symm)]
    rfl
  · have hb : record.bind_impl drv S { B1 with f_statement := some S.addr }
        = .returns () (S2, B2) := by
      simpa [record_base.bind, record.ops, hn] using hret
    have h1 := record.bind_impl_statement drv S S2 _ B2 hb
    have h2 := statement.frame_addr S S2 (record.bind_impl_frame drv S S2 _ B2 hb)
    exact ⟨h1, by rw [h2]; exact hA⟩
  · have hb : dynamic_record.bind_impl drv S { B1 with f_statement := some S.addr }
        = .returns () (S2, B2) := by
      simpa [record_base.bind, dynamic_record.ops, hn] using hret
    obtain ⟨hf, h1⟩ := dynamic_record.bind_impl_frame_statement drv S S2 _ B2 hb
    have h2 := statement.frame_addr S S2 hf
    exact ⟨h1, by rw [h2]; exact hA⟩

/-- C20, amended, at a concrete input: with the sample record bound to
    `sample_statement`, a second, unbound record is bound to the same statement, and
    the sample record is rejected by `other_statement`. -/
theorem record_base.bind_checks_record_only_witness :
    (∃ S2 B2, record_base.bind record.ops sample_driver sample_statement sample_index_record
          = .returns () (S2, B2)
        ∧ B2.f_statement = some sample_statement.addr
        ∧ record.ops.f_statement sample_bound_record = some S2.addr)
    ∧ record_base.bind record.ops sample_driver other_statement sample_bound_record
        = .raises record_base.incorrect_use_error (other_statement, sample_bound_record) :=
  ⟨⟨_, _, rfl,
      (record_base.bind_checks_record_only record.ops record.ops sample_driver sample_statement
        sample_bound_record sample_index_record rfl).2.2.2.1 sample_index_record _ _ rfl rfl⟩,
   ((record_base.bind_checks_record_only record.ops record.ops sample_driver other_statement
      { sample_bound_record with f_statement := some 2 } sample_bound_record rfl).2.2.1
      1 rfl (by decide)).2.1⟩

/-! ## A dynamic record bound a second time -/

namespace dynamic_record

/-- A `dynamic_record::bind_impl` that returns has left the descriptors it found in
    `f_bind_by_col` where they were and pushed one descriptor per column of the result
    set behind them. -/
theorem bind_impl_appends (drv : driver) (s s' : statement) (r r' : dynamic_record)
    (h : r.bind_impl drv s = .returns () (s', r')) :
    ∃ l, r'.f_bind_by_col = r.f_bind_by_col ++ l
      ∧ l.length = (to_SQLSMALLINT drv.SQLNumResultCols.2).toNat := by
  unfold bind_impl at h
  cases hc : s.cols drv with
  | diverges => simp [hc] at h
  | raises e s1 => simp [hc] at h
  | returns count s1 =>
    simp only [hc] at h
    obtain ⟨-, hcount⟩ := statement.cols_returns drv s s1 count hc
    rw [hcount, to_SQLSMALLINT_idem] at h
    obtain ⟨idx', hlt, hor, l, hl, hlen⟩ :=
      bind_loop_returns (bind_column drv) (to_SQLSMALLINT drv.SQLNumResultCols.2)
        (to_SQLSMALLINT_le _)
        (fun idx _ r1 => ∃ l, r1.f_bind_by_col = r.f_bind_by_col ++ l ∧ (l.length : Int) + 1 = idx)
        (fun idx s2 r2 s3 r3 _ _ hP hb => by
          obtain ⟨l, hl, hlen⟩ := hP
          obtain ⟨info, -, hvec, -⟩ := bind_column_pushes drv idx s2 s3 r2 r3 hb
          refine ⟨l ++ [info], by rw [hvec, hl, List.append_assoc], ?_⟩
          simp only [List.length_append, List.length_singleton, Nat.cast_add, Nat.cast_one]
          omega)
        65536 1 s1 r s' r' (le_refl _) ⟨[], by simp, by simp⟩ h
    refine ⟨l, hl, ?_⟩
    omega

/-- C21, evaluated on the code: `bind_impl` never empties `f_bind_by_col` or
    `f_bind_by_name`, so a record that held `N` descriptors holds `N + M` after it is
    bound to a result set of `M` columns, the old ones first. For the record bound to
    `(id INTEGER, name VARCHAR(10))`, unbound, and bound by a fetch to the result set
    `(name BIGINT)`: `size()` is 3, not 1; the column number 1 is still the old column
    `id`; the name `name` still leads to the old `VARCHAR` descriptor and its old value
    "hello"; the column of the new result set is reached as column number 3. -/
theorem rebind_keeps_old_descriptors :
    (∀ (drv : driver) (s s' : statement) (r r' : dynamic_record),
        r.bind_impl drv s = .returns () (s', r') →
        ∃ l, r'.f_bind_by_col = r.f_bind_by_col ++ l
          ∧ r'.size = r.size + (to_SQLSMALLINT drv.SQLNumResultCols.2).toNat)
    ∧ fetched_dynamic_record.size = 2
    ∧ record_base.is_bound dynamic_record.ops
        (record_base.unbind dynamic_record.ops fetched_dynamic_record) = false
    ∧ rebound_dynamic_record.f_statement = some other_statement.addr
    ∧ rebound_dynamic_record.size = 3
    ∧ rebound_dynamic_record.column_name 1 = .ok (lit "id")
    ∧ rebound_dynamic_record.get_type (.col 1) = .ok SQL_INTEGER
    ∧ rebound_dynamic_record.get_type (.name (lit "name")) = .ok SQL_VARCHAR
    ∧ rebound_dynamic_record.get .string (.name (lit "name")) [] = .returns () (lit "hello")
    ∧ rebound_dynamic_record.column_name 3 = .ok (lit "name")
    ∧ rebound_dynamic_record.get_type (.col 3) = .ok SQL_BIGINT := by
  refine ⟨fun drv s s' r r' h => ?_, rfl, rfl, rfl, rfl, rfl, rfl, rfl, rfl, rfl, rfl⟩
  obtain ⟨l, hl, hlen⟩ := bind_impl_appends drv s s' r r' h
  exact ⟨l, hl, by simp only [size, hl, List.length_append, hlen]⟩

end dynamic_record

/-! ## What a fetch leaves of a dynamic record -/

theorem vector_modify_length {α : Type} (f : α → α) (p : Nat) (l : List α) :
    (vector_modify f p l).length = l.length := by
  induction l generalizing p with
  | nil => cases p <;> rfl
  | cons x xs ih =>
    cases p with
    | zero => rfl
    | succ p => simp [vector_modify, ih]

theorem vector_modify_getElem {α : Type} (f : α → α) (p q : Nat) (l : List α) (y : α)
    (h : (vector_modify f p l)[q]? = some y) :
    ∃ x, l[q]? = some x ∧ (y = x ∨ y = f x) := by
  induction l generalizing p q with
  | nil => cases p <;> simp [vector_modify] at h
  | cons x xs ih =>
    cases p with
    | zero =>
      cases q with
      | zero =>
        simp only [vector_modify, List.getElem?_cons_zero, Option.some.injEq] at h
        exact ⟨x, List.getElem?_cons_zero, Or.inr h.symm⟩
      | succ q =>
        simp only [vector_modify, List.getElem?_cons_succ] at h
        exact ⟨y, by simpa using h, Or.inl rfl⟩
    | succ p =>
      cases q with
      | zero =>
        simp only [vector_modify, List.getElem?_cons_zero, Option.some.injEq] at h
        exact ⟨x, List.getElem?_cons_zero, Or.inl h.symm⟩
      | succ q =>
        simp only [vector_modify, List.getElem?_cons_succ] at h ⊢
        exact ih p q h

namespace dynamic_record

theorem same_columns_refl (r : dynamic_record) : same_columns r r :=
  ⟨rfl, rfl, fun _ info h => ⟨info, h, rfl, rfl, rfl⟩⟩

theorem same_columns_trans (r r1 r2 : dynamic_record) (h1 : same_columns r r1)
    (h2 : same_columns r1 r2) : same_columns r r2 := by
  refine ⟨h2.1.trans h1.1, h2.2.1.trans h1.2.1, fun q info hq => ?_⟩
  obtain ⟨i1, hi1, ha, hb, hc⟩ := h2.2.2 q info hq
  obtain ⟨i, hi, ha', hb', hc'⟩ := h1.2.2 q i1 hi1
  exact ⟨i, hi, ha.trans ha', hb.trans hb', hc.trans hc'⟩

theorem same_columns_write (r : dynamic_record) (p n : Nat) (c : cell) :
    same_columns r (r.write p n c) := by
  refine ⟨rfl, vector_modify_length _ _ _, fun q info hq => ?_⟩
  obtain ⟨x, hx, hor⟩ := vector_modify_getElem _ p q r.f_bind_by_col info hq
  refine ⟨x, hx, ?_⟩
  rcases hor with rfl | rfl
  · exact ⟨rfl, rfl, rfl⟩
  · exact ⟨rfl, rfl, rfl⟩

theorem same_columns_deliver (row : Nat → Option cell) (stmt : Nat) (r : dynamic_record)
    (b : bound_column Nat) : same_columns r (deliver row stmt r b) := by
  unfold deliver
  split_ifs
  · cases row b.column with
    | none => exact same_columns_refl r
    | some c => exact same_columns_write r _ _ c
  · exact same_columns_refl r

theorem same_columns_foldl_deliver (row : Nat → Option cell) (stmt : Nat) :
    ∀ (l : List (bound_column Nat)) (r : dynamic_record),
      same_columns r (l.foldl (deliver row stmt) r) := by
  intro l
  induction l with
  | nil => exact fun r => same_columns_refl r
  | cons b rest ih =>
    intro r
    exact same_columns_trans r _ _ (same_columns_deliver row stmt r b) (ih _)

theorem same_columns_store (row : Nat → Option cell) (stmt : Nat) (r : dynamic_record) :
    same_columns r (r.store row stmt) :=
  same_columns_foldl_deliver row stmt r.driver_bindings r

theorem same_columns_after_fetches (rows : List ((Nat → Option cell) × Nat)) :
    ∀ r : dynamic_record, same_columns r (r.after_fetches rows) := by
  induction rows with
  | nil => exact fun r => same_columns_refl r
  | cons d rest ih =>
    intro r
    exact same_columns_trans r _ _ (same_columns_store d.1 d.2 r) (ih _)

theorem same_columns_consistent (r r1 : dynamic_record) (h : same_columns r r1)
    (hc : consistent r) : consistent r1 := by
  refine ⟨fun p info hp => ?_, fun n p hp => ?_⟩
  · obtain ⟨i, hi, ha, -, -⟩ := h.2.2 p info hp
    rw [ha]; exact hc.1 p i hi
  · rw [h.1] at hp
    rw [h.2.1]; exact hc.2 n p hp

theorem same_columns_typed (drv : driver) (first : Nat) (r r1 : dynamic_record)
    (h : same_columns r r1) (ht : typed drv first r) : typed drv first r1 := by
  intro p info hfirst hp
  obtain ⟨i, hi, ha, hb, hc⟩ := h.2.2 p info hp
  obtain ⟨h1, n, h2⟩ := ht p i hfirst hi
  rw [ha, hb, hc]
  exact ⟨h1, n, h2⟩

end dynamic_record

/-! ## Choosing the accessor from `get_type` -/

namespace dynamic_record

/-- The accessor `tests/connect.cpp` picks for the SQL type `t` asks for a type that
    `verify_column` accepts for the bind type `bind_impl` computes from `t`. -/
theorem connect_accessor_compatible (t : Int) (n : Nat) (a : accessor)
    (h : connect_accessor t = some a) :
    compatible (bind_type_and_size t n).1 a.target_type := by
  rw [bind_type_size_free]
  unfold connect_accessor at h
  split_ifs at h with h1 h2 h3 h4 h5 h6 h7 h8
  · cases h; subst h1; decide
  · cases h; subst h2; decide
  · cases h; rcases h3 with rfl | rfl <;> decide
  · cases h; rcases h4 with rfl | rfl | rfl <;> decide
  · cases h; rcases h5 with rfl | rfl | rfl <;> decide
  · cases h; rcases h6 with rfl | rfl <;> decide
  · cases h; rcases h7 with rfl | rfl <;> decide
  · cases h; rcases h8 with rfl | rfl <;> decide

/-- C23: on a dynamic record bound for the first time, after any fetches, for a
    column that is not NULL, the typed accessor chosen from `get_type` the way
    `tests/connect.cpp` chooses it (`SQL_C_SHORT` to `SQLSMALLINT`; `SQL_C_LONG` to
    `SQLINTEGER`; `SQL_C_SBIGINT` or `SQL_BIGINT` to `SQLBIGINT`; `SQL_C_CHAR`, `SQL_VARCHAR` or
    `SQL_LONGVARCHAR` to `std::string`; `SQL_C_WCHAR`, `SQL_WVARCHAR` or `SQL_WLONGVARCHAR` to
    `std::wstring`; the date, time and timestamp codes of ODBC 2 and ODBC 3 to the
    date, time and timestamp structures) returns the value of the column: it raises
    nothing, so never `ODBCPP_TYPE_MISMATCH`. -/
theorem get_by_type_returns (drv : driver) (s s' : statement) (r r1 : dynamic_record)
    (hcol : r.f_bind_by_col = []) (hname : r.f_bind_by_name = [])
    (h : r.bind_impl drv s = .returns () (s', r1))
    (rows : List ((Nat → Option cell) × Nat))
    (key : column_key) (info : bind_info_t)
    (hfound : (r1.after_fetches rows).find_column key SQL_UNKNOWN_TYPE false = .ok info)
    (hnn : info.f_fetch_size ≠ SQL_NULL_DATA)
    (a : accessor) (out : List Nat) (ha : connect_accessor info.f_target_type = some a) :
    (r1.after_fetches rows).get_type key = .ok info.f_target_type
    ∧ (r1.after_fetches rows).get a key out = .returns () (a.read info.f_data)
    ∧ ∀ e st, (r1.after_fetches rows).get a key out = .raises e st →
        e.code ≠ some ODBCPP_TYPE_MISMATCH := by
  obtain ⟨hcons, hlen⟩ := bind_impl_consistent drv s s' r r1 hcol hname h
  have htyped := bind_impl_typed drv s s' r r1 h
  have hsame := same_columns_after_fetches rows r1
  have hcons' := same_columns_consistent _ _ hsame hcons
  have htyped' := same_columns_typed drv _ _ _ hsame htyped
  obtain ⟨p, hp, -⟩ := find_column_getElem _ hcons' (by rw [hsame.2.1]; exact hlen) key info hfound
  obtain ⟨-, n, hbt⟩ := htyped' p info (by rw [hcol]; exact Nat.zero_le _) hp
  have hc : compatible info.f_bind_type a.target_type := by
    rw [hbt]; exact connect_accessor_compatible _ n a ha
  have hget : (r1.after_fetches rows).get a key out = .returns () (a.read info.f_data) := by
    simp only [get, find_column_eq_verify _ key info hfound,
      verify_column_compatible info a.target_type hc true]
    rw [if_neg (fun hn => hnn hn.2)]
  refine ⟨?_, hget, fun e st he => ?_⟩
  · simp only [get_type, hfound]
    rfl
  · rw [hget] at he
    cases he

/-- C23, at a concrete input: after the row `(42, "hello")`, the second column has
    the type `SQL_VARCHAR`, for which the test calls the `std::string` accessor; it
    returns "hello". -/
theorem get_by_type_returns_witness :
    fetched_dynamic_record.get_type (.col 2) = .ok SQL_VARCHAR
    ∧ connect_accessor SQL_VARCHAR = some .string
    ∧ fetched_dynamic_record.get .string (.col 2) [] = .returns () (lit "hello") :=
  have w := get_by_type_returns sample_driver sample_statement sample_statement
    { f_statement := some 1 } bound_dynamic_record rfl rfl (by decide)
    [(sample_driver.SQLFetch.2, 1)] (.col 2) (fetched_dynamic_record.deref 1) rfl (by decide)
    .string [] rfl
  ⟨w.1, rfl, w.2.1⟩

end dynamic_record

/-! ## Lookups by column number -/

namespace dynamic_record

/-- The lookup by column number, for a 16-bit column number and a record of at most
    32767 descriptors: the descriptor at the offset `col - 1` when `1 ≤ col ≤ size()`, the
    not-found exception otherwise. -/
theorem find_column_by_col_range (r : dynamic_record) (hlen : r.f_bind_by_col.length ≤ 32767)
    (col : Int) (h0 : -32768 ≤ col) (h1 : col ≤ 32767) :
    r.find_column_by_col col SQL_UNKNOWN_TYPE false
      = if 1 ≤ col ∧ col ≤ (r.size : Int) then .ok (r.deref (col - 1).toNat)
        else .error ⟨diagnostic.of_message ODBCPP_NOT_FOUND
          (lit "there is not that many columns in this record")⟩ := by
  unfold find_column_by_col size
  simp only
  by_cases hin : 1 ≤ col ∧ col ≤ (r.f_bind_by_col.length : Int)
  · have hlt : ¬ (to_SQLUSMALLINT (to_SQLSMALLINT (col - 1)) ≥ r.f_bind_by_col.length) := by
      unfold to_SQLUSMALLINT to_SQLSMALLINT; omega
    have hp : (to_SQLSMALLINT (col - 1) % 18446744073709551616).toNat = (col - 1).toNat := by
      unfold to_SQLSMALLINT; omega
    rw [if_neg hlt, if_pos hin, hp, verify_column_unknown]
  · have hge : to_SQLUSMALLINT (to_SQLSMALLINT (col - 1)) ≥ r.f_bind_by_col.length := by
      unfold to_SQLUSMALLINT to_SQLSMALLINT; omega
    rw [if_pos hge, if_neg hin]

/-- C24, for a record of at most 32767 descriptors: for every 16-bit signed column
    number `col`, the lookups by column number (`column_name`, `get_type`,
    `get_decimal_digits`, `get_is_null`, `get_size`) return what the descriptor at the
    offset `col - 1` holds when `1 ≤ col ≤ size()`, and for every other `col`, 0 and the
    negative numbers included, they raise an `odbcpp_error` with code
    `ODBCPP_NOT_FOUND`. -/
theorem lookup_by_number (r : dynamic_record) (hlen : r.f_bind_by_col.length ≤ 32767)
    (col : Int) (h0 : -32768 ≤ col) (h1 : col ≤ 32767) :
    ((1 ≤ col ∧ col ≤ (r.size : Int)) →
        ∃ info, r.f_bind_by_col[(col - 1).toNat]? = some info
          ∧ r.column_name col = .ok info.f_name
          ∧ r.get_type (.col col) = .ok info.f_target_type
          ∧ r.get_decimal_digits (.col col) = .ok info.f_decimal_digits
          ∧ r.get_is_null (.col col) = .ok (if info.f_fetch_size = SQL_NULL_DATA then 1 else 0)
          ∧ r.get_size (.col col) = .ok info.f_fetch_size)
    ∧ (¬ (1 ≤ col ∧ col ≤ (r.size : Int)) →
        ∃ e : odbcpp_error, e.code = some ODBCPP_NOT_FOUND
          ∧ r.column_name col = .error e
          ∧ r.get_type (.col col) = .error e
          ∧ r.get_decimal_digits (.col col) = .error e
          ∧ r.get_is_null (.col col) = .error e
          ∧ r.get_size (.col col) = .error e) := by
  have hf := find_column_by_col_range r hlen col h0 h1
  refine ⟨fun hin => ?_, fun hout => ?_⟩
  · rw [if_pos hin] at hf
    have hlt : (col - 1).toNat < r.f_bind_by_col.length := by
      have := hin.2
      unfold size at this
      omega
    refine ⟨r.deref (col - 1).toNat, deref_of_lt r _ hlt, ?_, ?_, ?_, ?_, ?_⟩
    · simp only [column_name, hf]; rfl
    · simp only [get_type, find_column, hf]; rfl
    · simp only [get_decimal_digits, find_column, hf]; rfl
    · simp only [get_is_null, find_column, hf]; rfl
    · simp only [get_size, find_column, hf]; rfl
  · rw [if_neg hout] at hf
    refine ⟨⟨diagnostic.of_message ODBCPP_NOT_FOUND
      (lit "there is not that many columns in this record")⟩, rfl, ?_, ?_, ?_, ?_, ?_⟩
    · simp only [column_name, hf]; rfl
    · simp only [get_type, find_column, hf]; rfl
    · simp only [get_decimal_digits, find_column, hf]; rfl
    · simp only [get_is_null, find_column, hf]; rfl
    · simp only [get_size, find_column, hf]; rfl

/-- C24, at a concrete input: the sample record has two columns; the column
    number 2 is found, and 0, 3 and -32768 are not. -/
theorem lookup_by_number_witness :
    sample_dynamic_record.get_type (.col 2) = .ok SQL_VARCHAR
    ∧ (∃ e : odbcpp_error, e.code = some ODBCPP_NOT_FOUND
        ∧ sample_dynamic_record.get_type (.col 0) = .error e)
    ∧ (∃ e : odbcpp_error, e.code = some ODBCPP_NOT_FOUND
        ∧ sample_dynamic_record.get_type (.col 3) = .error e)
    ∧ (∃ e : odbcpp_error, e.code = some ODBCPP_NOT_FOUND
        ∧ sample_dynamic_record.get_size (.col (-32768)) = .error e) :=
  ⟨(by
      obtain ⟨info, hi, -, ht, -⟩ :=
        (lookup_by_number sample_dynamic_record (by decide) 2 (by decide) (by decide)).1
          (by decide)
      cases hi
      exact ht),
   (by
      obtain ⟨e, he, -, ht, -⟩ :=
        (lookup_by_number sample_dynamic_record (by decide) 0 (by decide) (by decide)).2
          (by decide)
      exact ⟨e, he, ht⟩),
   (by
      obtain ⟨e, he, -, ht, -⟩ :=
        (lookup_by_number sample_dynamic_record (by decide) 3 (by decide) (by decide)).2
          (by decide)
      exact ⟨e, he, ht⟩),
   (by
      obtain ⟨e, he, -, -, -, -, hs⟩ :=
        (lookup_by_number sample_dynamic_record (by decide) (-32768) (by decide)
          (by decide)).2 (by decide)
      exact ⟨e, he, hs⟩)⟩

/-- C24 as stated fails on a record of 32768 descriptors: the column number -32768
    is decremented to 32767 in 16 bits, which is below `size()`, and the lookups
    return the descriptor at the offset 32767 instead of raising. -/
theorem lookup_by_number_oversized :
    oversized_dynamic_record.size = 32768
    ∧ ¬ ((1 : Int) ≤ -32768)
    ∧ to_SQLSMALLINT (-32768 - 1) = 32767
    ∧ oversized_dynamic_record.get_type (.col (-32768))
        = .ok (oversized_dynamic_record.deref 32767).f_target_type
    ∧ oversized_dynamic_record.column_name (-32768)
        = .ok (oversized_dynamic_record.deref 32767).f_name := by
  have hl : oversized_dynamic_record.f_bind_by_col.length = 32768 := by
    show (List.replicate 32768 ({} : bind_info_t)).length = 32768
    rw [List.length_replicate]
  have hu : to_SQLUSMALLINT (to_SQLSMALLINT (-32768 - 1)) = 32767 := by decide
  have hp : (to_SQLSMALLINT (-32768 - 1) % 18446744073709551616).toNat = 32767 := by decide
  have hf : oversized_dynamic_record.find_column_by_col (-32768) SQL_UNKNOWN_TYPE false
      = .ok (oversized_dynamic_record.deref 32767) := by
    unfold find_column_by_col
    simp only
    rw [if_neg (by rw [hu, hl]; decide), hp, verify_column_unknown]
  refine ⟨hl, by decide, by decide, ?_, ?_⟩
  · simp only [get_type, find_column, hf]; rfl
  · simp only [column_name, hf]; rfl

end dynamic_record

/-! ## `diagnostic::get` and `diagnostic::operator[]` -/

/-- C25, evaluated on the code: `get(r)` and `operator[](r)` are the plain subscript
    `f_diag[r - 1]` of a `std::vector`. For an `int` `r` with `1 ≤ r ≤ size()` they return the
    record number `r`. For a record number outside that range there is no test and no `throw`: for
    the diagnostic of one record, `get(2)`, `get(0)` and `get(-1)` read outside the
    vector. -/
theorem diagnostic.get_unchecked :
    (∀ (d : diagnostic) (r : Int), 1 ≤ r → r ≤ (d.f_diag.length : Int) → r ≤ 2147483647 →
        d.get r = d.f_diag[(r - 1).toNat]? ∧ (d.get r).isSome = true ∧ d.subscript r = d.get r)
    ∧ sample_diagnostic.size = 1
    ∧ sample_diagnostic.get 1 = sample_diagnostic.f_diag.head?
    ∧ sample_diagnostic.get 2 = none
    ∧ sample_diagnostic.get 0 = none
    ∧ sample_diagnostic.get (-1) = none
    ∧ sample_diagnostic.subscript 2 = none
    ∧ sample_diagnostic.subscript 0 = none := by
  refine ⟨fun d r h1 h2 h3 => ?_, by decide, rfl, rfl, rfl, rfl, rfl, rfl⟩
  have hi : ((r - 1) % 18446744073709551616).toNat = (r - 1).toNat := by omega
  have hlt : (r - 1).toNat < d.f_diag.length := by omega
  refine ⟨by simp only [diagnostic.get, hi], ?_, rfl⟩
  simp only [diagnostic.get, hi, List.getElem?_eq_getElem hlt, Option.isSome_some]

/-! ## The order of the checks of a typed accessor -/

namespace dynamic_record

theorem accessor_target_type_ne (a : accessor) : a.target_type ≠ SQL_UNKNOWN_TYPE := by
  cases a <;> decide

/-- A lookup that fails without a type check fails the same way with one. -/
theorem find_column_error (r : dynamic_record) (key : column_key) (e : odbcpp_error)
    (h : r.find_column key SQL_UNKNOWN_TYPE false = .error e) (t : Int) (en : Bool) :
    r.find_column key t en = .error e ∧ e.code = some ODBCPP_NOT_FOUND := by
  cases key with
  | name n =>
    simp only [find_column, find_column_by_name] at h ⊢
    cases hf : map_find n r.f_bind_by_name with
    | none =>
      simp only [hf] at h ⊢
      cases h
      exact ⟨rfl, rfl⟩
    | some p =>
      simp only [hf, verify_column_unknown] at h
      cases h
  | col c =>
    simp only [find_column, find_column_by_col] at h ⊢
    by_cases hc : to_SQLUSMALLINT (to_SQLSMALLINT (c - 1)) ≥ r.f_bind_by_col.length
    · simp only [hc, if_true] at h ⊢
      cases h
      exact ⟨rfl, rfl⟩
    · simp only [hc, if_false, verify_column_unknown] at h
      cases h

/-- For a requested type the bind type is not compatible with, `verify_column` raises
    the type mismatch, whether the column is NULL or not. -/
theorem verify_column_incompatible (info : bind_info_t) (t : Int) (en : Bool)
    (ht : t ≠ SQL_UNKNOWN_TYPE) (hc : ¬ compatible info.f_bind_type t) :
    ∃ e, verify_column info t en = .error e ∧ e.code = some ODBCPP_TYPE_MISMATCH := by
  have hne : info.f_bind_type ≠ t := fun h => hc (Or.inl h)
  have hne1 : info.f_bind_type ≠
      (if t = SQL_C_CHAR then SQL_VARCHAR
       else if t = SQL_C_DATE then SQL_TYPE_DATE
       else if t = SQL_C_TIME then SQL_TYPE_TIME
       else if t = SQL_C_TIMESTAMP then SQL_TYPE_TIMESTAMP
       else t) := by
    split_ifs with h1 h2 h3 h4
    · exact fun h => hc (Or.inr (Or.inl ⟨h1, h⟩))
    · exact fun h => hc (Or.inr (Or.inr (Or.inl ⟨h2, h⟩)))
    · exact fun h => hc (Or.inr (Or.inr (Or.inr (Or.inl ⟨h3, h⟩))))
    · exact fun h => hc (Or.inr (Or.inr (Or.inr (Or.inr ⟨h4, h⟩))))
    · exact hne
  refine ⟨⟨diagnostic.of_message ODBCPP_TYPE_MISMATCH (mismatch_message info
      (if t = SQL_C_CHAR then SQL_VARCHAR
       else if t = SQL_C_DATE then SQL_TYPE_DATE
       else if t = SQL_C_TIME then SQL_TYPE_TIME
       else if t = SQL_C_TIMESTAMP then SQL_TYPE_TIMESTAMP
       else t))⟩, ?_, rfl⟩
  simp only [verify_column,
    if_pos (show t ≠ SQL_UNKNOWN_TYPE ∧ info.f_bind_type ≠ t from ⟨ht, hne⟩)]
  rw [if_pos ⟨ht, hne, hne1⟩]

/-- C28: the checks of a typed accessor run in the order lookup, type, NULL. When
    the lookup fails the accessor raises `ODBCPP_NOT_FOUND`. For a column that is
    found and whose bind type is not compatible with the requested type, it raises
    `ODBCPP_TYPE_MISMATCH`, also when the column is NULL. It raises `ODBCPP_NO_DATA` only
    for a column that is found, whose bind type is compatible, and that is NULL. In
    each case the output variable is left as it was. -/
theorem get_check_order (r : dynamic_record) (key : column_key) (a : accessor)
    (out : List Nat) :
    (∀ e, r.find_column key SQL_UNKNOWN_TYPE false = .error e →
        r.get a key out = .raises e out ∧ e.code = some ODBCPP_NOT_FOUND)
    ∧ (∀ info, r.find_column key SQL_UNKNOWN_TYPE false = .ok info →
        (¬ compatible info.f_bind_type a.target_type →
          ∃ e, r.get a key out = .raises e out ∧ e.code = some ODBCPP_TYPE_MISMATCH)
        ∧ (compatible info.f_bind_type a.target_type → info.f_fetch_size = SQL_NULL_DATA →
          ∃ e, r.get a key out = .raises e out ∧ e.code = some ODBCPP_NO_DATA)
        ∧ (∀ e st, r.get a key out = .raises e st → e.code = some ODBCPP_NO_DATA →
          compatible info.f_bind_type a.target_type ∧ info.f_fetch_size = SQL_NULL_DATA)) := by
  refine ⟨fun e he => ?_, fun info hkey => ?_⟩
  · obtain ⟨h1, h2⟩ := find_column_error r key e he a.target_type true
    exact ⟨by simp only [get, h1], h2⟩
  · have hmis : ¬ compatible info.f_bind_type a.target_type →
        ∃ e, r.get a key out = .raises e out ∧ e.code = some ODBCPP_TYPE_MISMATCH := by
      intro hc
      obtain ⟨e, he, hcode⟩ :=
        verify_column_incompatible info a.target_type true (accessor_target_type_ne a) hc
      exact ⟨e, by simp only [get, find_column_eq_verify r key info hkey, he], hcode⟩
    have hcomp : compatible info.f_bind_type a.target_type →
        r.get a key out
          = if info.f_fetch_size = SQL_NULL_DATA then
              .raises ⟨diagnostic.of_message ODBCPP_NO_DATA
                (lit "this column is NULL and cannot be retrieved")⟩ out
            else .returns () (a.read info.f_data) := by
      intro hc
      simp only [get, find_column_eq_verify r key info hkey,
        verify_column_compatible info a.target_type hc true]
      by_cases hn : info.f_fetch_size = SQL_NULL_DATA
      · rw [if_pos ⟨trivial, hn⟩, if_pos hn]
      · rw [if_neg (fun h => hn h.2), if_neg hn]
    refine ⟨hmis, fun hc hn => ?_, fun e st he hcode => ?_⟩
    · exact ⟨⟨diagnostic.of_message ODBCPP_NO_DATA
        (lit "this column is NULL and cannot be retrieved")⟩, by rw [hcomp hc, if_pos hn], rfl⟩
    · by_cases hc : compatible info.f_bind_type a.target_type
      · refine ⟨hc, ?_⟩
        by_contra hn
        rw [hcomp hc, if_neg hn] at he
        cases he
      · exfalso
        obtain ⟨e', he', hcode'⟩ := hmis hc
        rw [he'] at he
        cases he
        rw [hcode] at hcode'
        exact absurd hcode' (by decide)

end dynamic_record

namespace dynamic_record

/-- C28, at a concrete input: the column `name` of the sample record is NULL and is
    bound as `SQL_C_CHAR`; the `SQLINTEGER` accessor raises the type mismatch, the
    `std::string` accessor raises the no-data error. -/
theorem get_check_order_witness :
    (∃ e, sample_dynamic_record.get .sqlinteger (.name (lit "name")) [7] = .raises e [7]
      ∧ e.code = some ODBCPP_TYPE_MISMATCH)
    ∧ (∃ e, sample_dynamic_record.get .string (.name (lit "name")) [7] = .raises e [7]
      ∧ e.code = some ODBCPP_NO_DATA) :=
  ⟨((get_check_order sample_dynamic_record (.name (lit "name")) .sqlinteger [7]).2
      (sample_dynamic_record.deref 1) rfl).1 (by decide),
   ((get_check_order sample_dynamic_record (.name (lit "name")) .string [7]).2
      (sample_dynamic_record.deref 1) rfl).2.1 (by decide) rfl⟩

end dynamic_record

/-! ## `record_base::bind` when `bind_impl` raises -/

/-- An `execute` that returns leaves the statement at its address. -/
theorem statement.execute_addr (drv : driver) (s s1 : statement) (order : std_string)
    (u : Unit) (h : s.execute drv order = .returns u s1) : s1.addr = s.addr := by
  unfold statement.execute at h
  simp only at h
  cases hc : statement.check drv { s with f_has_data := false } (drv.SQLExecDirect order) with
  | diverges => simp [hc] at h
  | raises e0 s2 => simp [hc] at h
  | returns a s2 =>
    simp only [hc, outcome.returns.injEq] at h
    obtain ⟨-, rfl⟩ := h
    exact statement.check_addr drv { s with f_has_data := false } s2 _ _ hc

/-- C29: `record_base::bind` assigns `f_statement` before it calls `bind_impl`. When
    `bind_impl` raises because the statement `s` has no data, a `record` or
    `dynamic_record` that was not bound is left pointing to `s` (`is_bound()` is true)
    with no column bound. On the same statement later (`s2`, for example after an
    `execute` that returns, which keeps the address and sets the flag), `bind`, alone
    or inside `fetch`, returns at once whatever `bind_impl` is, the record unchanged;
    `bind_impl` runs again only once `unbind()` was called. -/
theorem record_base.bind_not_atomic (drv : driver) (s s2 : statement)
    (hno : s.f_has_data = false) (haddr : s2.addr = s.addr) :
    (∀ rec : record, rec.f_statement = none →
        record_base.bind record.ops drv s rec
          = .raises statement.no_data_error (s, { rec with f_statement := some s.addr })
        ∧ record_base.is_bound record.ops { rec with f_statement := some s.addr } = true
        ∧ ({ rec with f_statement := some s.addr } : record).driver_bindings
            = rec.driver_bindings
        ∧ (∀ bind_impl, record_base.bind { record.ops with bind_impl := bind_impl } drv s2
              { rec with f_statement := some s.addr }
            = .returns () (s2, { rec with f_statement := some s.addr }))
        ∧ (∀ bind_impl orientation offset,
            statement.fetch { record.ops with bind_impl := bind_impl } drv s2
              { rec with f_statement := some s.addr } orientation offset
            = statement.fetch record.ops drv s2 { rec with f_statement := some s.addr }
                orientation offset)
        ∧ record_base.bind record.ops drv s2
            (record_base.unbind record.ops { rec with f_statement := some s.addr })
          = record.bind_impl drv s2 { rec with f_statement := some s2.addr })
    ∧ (∀ rec : dynamic_record, rec.f_statement = none →
        record_base.bind dynamic_record.ops drv s rec
          = .raises statement.no_data_error (s, { rec with f_statement := some s.addr })
        ∧ record_base.is_bound dynamic_record.ops { rec with f_statement := some s.addr } = true
        ∧ ({ rec with f_statement := some s.addr } : dynamic_record).f_bind_by_col
            = rec.f_bind_by_col
        ∧ (∀ bind_impl, record_base.bind { dynamic_record.ops with bind_impl := bind_impl } drv s2
              { rec with f_statement := some s.addr }
            = .returns () (s2, { rec with f_statement := some s.addr }))
        ∧ (∀ bind_impl orientation offset,
            statement.fetch { dynamic_record.ops with bind_impl := bind_impl } drv s2
              { rec with f_statement := some s.addr } orientation offset
            = statement.fetch dynamic_record.ops drv s2 { rec with f_statement := some s.addr }
                orientation offset)
        ∧ record_base.bind dynamic_record.ops drv s2
            (record_base.unbind dynamic_record.ops { rec with f_statement := some s.addr })
          = dynamic_record.bind_impl drv s2 { rec with f_statement := some s2.addr })
    ∧ (∀ (order : std_string) (u : Unit) (s3 : statement),
        s.execute drv order = .returns u s3 → s3.addr = s.addr ∧ s3.f_has_data = true) := by
  refine ⟨fun rec hu => ⟨?_, rfl, rfl, fun bi => ?_, fun bi o off => ?_, ?_⟩,
    fun rec hu => ⟨?_, rfl, rfl, fun bi => ?_, fun bi o off => ?_, ?_⟩,
    fun order u s3 h => ⟨statement.execute_addr drv s s3 order u h,
      (statement.execute_flag drv s order).2 u s3 h⟩⟩
  · simp [record_base.bind, record.ops, hu, record.bind_impl, statement.cols_raises drv s hno]
  · simp [record_base.bind, record.ops, haddr]
  · have h1 : ∀ bi, record_base.bind { record.ops with bind_impl := bi } drv s2
          { rec with f_statement := some s.addr }
        = .returns () (s2, { rec with f_statement := some s.addr }) := by
      intro bi1
      simp [record_base.bind, record.ops, haddr]
    have h2 : record_base.bind record.ops drv s2 { rec with f_statement := some s.addr }
        = .returns () (s2, { rec with f_statement := some s.addr }) := h1 record.bind_impl
    unfold statement.fetch
    rw [h1 bi, h2]
  · simp [record_base.bind, record_base.unbind, record.ops]
  · simp [record_base.bind, dynamic_record.ops, hu, dynamic_record.bind_impl,
      statement.cols_raises drv s hno]
  · simp [record_base.bind, dynamic_record.ops, haddr]
  · have h1 : ∀ bi, record_base.bind { dynamic_record.ops with bind_impl := bi } drv s2
          { rec with f_statement := some s.addr }
        = .returns () (s2, { rec with f_statement := some s.addr }) := by
      intro bi1
      simp [record_base.bind, dynamic_record.ops, haddr]
    have h2 : record_base.bind dynamic_record.ops drv s2 { rec with f_statement := some s.addr }
        = .returns () (s2, { rec with f_statement := some s.addr }) :=
      h1 dynamic_record.bind_impl
    unfold statement.fetch
    rw [h1 bi, h2]
  · simp [record_base.bind, record_base.unbind, dynamic_record.ops]

/-- C29, at a concrete input: the sample record fetched on the statement at address
    3 before any `execute` is left bound to it by the failed `bind`; once the
    statement has data, `bind` returns without binding a column and a fetch returns a
    row of which the record receives nothing. -/
theorem record_base.bind_not_atomic_witness :
    idle_statement.f_has_data = false
    ∧ record_base.bind record.ops sample_driver idle_statement sample_record
        = .raises statement.no_data_error
            (idle_statement, { sample_record with f_statement := some 3 })
    ∧ record_base.bind record.ops sample_driver { idle_statement with f_has_data := true }
          { sample_record with f_statement := some 3 }
        = .returns () ({ idle_statement with f_has_data := true },
            { sample_record with f_statement := some 3 })
    ∧ (∃ st, statement.fetch record.ops sample_driver { idle_statement with f_has_data := true }
          { sample_record with f_statement := some 3 } SQL_FETCH_NEXT 0 = .returns true st
        ∧ st.2.driver_bindings = []
        ∧ (st.2.find (.name (lit "id"))).map (fun d => d.f_data)
            = some (.host [1, 1, 1, 1])) :=
  ⟨rfl,
   ((record_base.bind_not_atomic sample_driver idle_statement
      { idle_statement with f_has_data := true } rfl rfl).1 sample_record rfl).1,
   ((record_base.bind_not_atomic sample_driver idle_statement
      { idle_statement with f_has_data := true } rfl rfl).1 sample_record rfl).2.2.2.1
      record.bind_impl,
   ⟨_, rfl, rfl, rfl⟩⟩

/-! ## The terminator `record::finalize_info` stores -/

/-- The C string at a block in which a zero was stored at the offset `p`: the C
    string that was there, cut at `p` units. -/
theorem c_str_set_zero (blk : List Nat) : ∀ p, c_str (blk.set p 0) = (c_str blk).take p := by
  induction blk with
  | nil => intro p; simp [c_str]
  | cons x xs ih =>
    intro p
    cases p with
    | zero => simp [c_str]
    | succ p =>
      have h := ih p
      unfold c_str at h ⊢
      rw [List.set_cons_succ, List.takeWhile_cons, List.takeWhile_cons]
      by_cases hx : x = 0
      · simp [hx]
      · rw [if_pos (by simpa using hx), if_pos (by simpa using hx), List.take_succ_cons, h]

namespace record

theorem set_null_flag_block (info : bind_info_t) :
    (set_null_flag info).block = info.block := by
  simp [bind_info_t.block]

theorem clear_string_block (info : bind_info_t) :
    (clear_string info).block = info.block := by
  simp [bind_info_t.block]

theorem block_set_block (info : bind_info_t) (blk s : List Nat) (h : info.block = some blk) :
    (info.set_block s).block = some s := by
  unfold bind_info_t.block at h
  unfold bind_info_t.set_block bind_info_t.block
  cases hd : info.f_data with
  | null => simp [hd] at h
  | host b => simp
  | data_buffer => simp

/-- C26, amended: in `record::finalize`, for a string descriptor with a landing
    buffer `blk`, `f_size > 0` and a row that is not NULL, the terminator is stored at
    the byte offset `f_size` of the landing buffer (narrow string), or in the two
    bytes of the wide character of index `f_size / 2` (wide string), whatever the
    fetched size is. The narrow host string becomes the bytes of the landing buffer
    before its first zero byte, at most `f_size` of them; the wide host string the
    wide characters before the first zero one. -/
theorem finalize_info_terminator (info : bind_info_t) (blk : List Nat) (str : std_string)
    (hb : info.block = some blk) (hs : info.f_string = some str) (hsz : 0 < info.f_size)
    (hnn : info.f_fetch_size ≠ SQL_NULL_DATA) :
    (info.f_target_type = SQL_C_CHAR →
      (finalize_info info).block = some (blk.set info.f_size 0)
      ∧ (finalize_info info).f_string = some ((c_str blk).take info.f_size))
    ∧ (info.f_target_type = SQL_C_WCHAR →
      (finalize_info info).block
        = some ((blk.set (2 * (info.f_size / 2)) 0).set (2 * (info.f_size / 2) + 1) 0)
      ∧ (finalize_info info).f_string
        = some (c_str (wide_units
            ((blk.set (2 * (info.f_size / 2)) 0).set (2 * (info.f_size / 2) + 1) 0))))
    ∧ (∀ n : Int, n ≠ SQL_NULL_DATA →
        (finalize_info { info with f_fetch_size := n }).block = (finalize_info info).block
        ∧ (finalize_info { info with f_fetch_size := n }).f_string
            = (finalize_info info).f_string) := by
  have key : ∀ i : bind_info_t, i.block = some blk → i.f_string = some str →
      i.f_size = info.f_size → i.f_target_type = info.f_target_type →
      i.f_fetch_size ≠ SQL_NULL_DATA →
      (info.f_target_type = SQL_C_CHAR →
        (finalize_info i).block = some (blk.set info.f_size 0)
        ∧ (finalize_info i).f_string = some ((c_str blk).take info.f_size))
      ∧ (info.f_target_type = SQL_C_WCHAR →
        (finalize_info i).block
          = some ((blk.set (2 * (info.f_size / 2)) 0).set (2 * (info.f_size / 2) + 1) 0)
        ∧ (finalize_info i).f_string
          = some (c_str (wide_units
              ((blk.set (2 * (info.f_size / 2)) 0).set (2 * (info.f_size / 2) + 1) 0)))) := by
    intro i hib his hisz hit hin
    have hb1 : (clear_string (set_null_flag i)).block = some blk := by
      rw [clear_string_block, set_null_flag_block, hib]
    have hsz1 : (clear_string (set_null_flag i)).f_size = info.f_size := by simp [hisz]
    have hty1 : (clear_string (set_null_flag i)).f_target_type = info.f_target_type := by
      simp [hit]
    have hfs1 : (clear_string (set_null_flag i)).f_fetch_size ≠ SQL_NULL_DATA := by
      simpa using hin
    constructor
    · intro hc
      have hs1 : (clear_string (set_null_flag i)).f_string = some [] :=
        clear_string_string _ str (by simpa using his) (Or.inl (by simpa [hit] using hc))
      have hcopy : finalize_info i
          = { (clear_string (set_null_flag i)).set_block (blk.set info.f_size 0) with
              f_string := some (c_str (blk.set info.f_size 0)) } := by
        unfold finalize_info copy_string
        rw [hb1, hs1]
        simp only
        rw [if_pos ⟨by rw [hsz1]; exact hsz, hfs1⟩, if_pos (by rw [hty1]; exact hc), hsz1]
      rw [hcopy]
      refine ⟨?_, by rw [c_str_set_zero]⟩
      have := block_set_block (clear_string (set_null_flag i)) blk (blk.set info.f_size 0) hb1
      simpa [bind_info_t.block] using this
    · intro hw
      have hne : info.f_target_type ≠ SQL_C_CHAR := by rw [hw]; decide
      have hs1 : (clear_string (set_null_flag i)).f_string = some [] :=
        clear_string_string _ str (by simpa using his) (Or.inr (by simpa [hit] using hw))
      have hcopy : finalize_info i
          = { (clear_string (set_null_flag i)).set_block
                ((blk.set (2 * (info.f_size / 2)) 0).set (2 * (info.f_size / 2) + 1) 0) with
              f_string := some ([] ++ c_str (wide_units
                ((blk.set (2 * (info.f_size / 2)) 0).set (2 * (info.f_size / 2) + 1) 0))) } := by
        unfold finalize_info copy_string
        rw [hb1, hs1]
        simp only
        rw [if_pos ⟨by rw [hsz1]; exact hsz, hfs1⟩, if_neg (by rw [hty1]; exact hne),
          if_pos (by rw [hty1]; exact hw), hsz1]
      rw [hcopy]
      refine ⟨?_, by simp⟩
      have := block_set_block (clear_string (set_null_flag i)) blk
        ((blk.set (2 * (info.f_size / 2)) 0).set (2 * (info.f_size / 2) + 1) 0) hb1
      simpa [bind_info_t.block] using this
  have other : ∀ i : bind_info_t, i.f_target_type ≠ SQL_C_CHAR →
      i.f_target_type ≠ SQL_C_WCHAR →
      (finalize_info i).block = i.block ∧ (finalize_info i).f_string = i.f_string := by
    intro i h1 h2
    have hcs : clear_string (set_null_flag i) = set_null_flag i := by
      unfold clear_string
      split
      · rfl
      · rw [if_neg (by simpa using h1), if_neg (by simpa using h2)]
    have hcp : copy_string (set_null_flag i) = set_null_flag i := by
      unfold copy_string
      split
      · split_ifs with c1 c2 c3
        · exact absurd (by simpa using c2) h1
        · exact absurd (by simpa using c3) h2
        · rfl
        · rfl
      · rfl
    unfold finalize_info
    rw [hcs, hcp]
    exact ⟨set_null_flag_block i, set_null_flag_string i⟩
  have h0 := key info hb hs rfl rfl hnn
  refine ⟨h0.1, h0.2, fun n hn => ?_⟩
  have hn0 := key { info with f_fetch_size := n } (by simpa [bind_info_t.block] using hb)
    hs rfl rfl hn
  by_cases hc : info.f_target_type = SQL_C_CHAR
  · rw [(hn0.1 hc).1, (hn0.1 hc).2, (h0.1 hc).1, (h0.1 hc).2]
    exact ⟨rfl, rfl⟩
  · by_cases hw : info.f_target_type = SQL_C_WCHAR
    · rw [(hn0.2 hw).1, (hn0.2 hw).2, (h0.2 hw).1, (h0.2 hw).2]
      exact ⟨rfl, rfl⟩
    · rw [(other { info with f_fetch_size := n } hc hw).1,
        (other { info with f_fetch_size := n } hc hw).2, (other info hc hw).1,
        (other info hc hw).2]
      exact ⟨rfl, rfl⟩

end record

namespace record

/-- C26, at a concrete input: the descriptor `name` of the sample record, of
    `f_size` 11, after a row of 20 characters was delivered: the terminator goes to
    the offset 11 of the 13 bytes, and the string is the 10 characters stored. -/
theorem finalize_info_terminator_witness :
    (finalize_info ((long_row_delivered.find (.name (lit "name"))).getD default)).block
      = some (lit "0123456789" ++ [0, 0, 70])
    ∧ (finalize_info ((long_row_delivered.find (.name (lit "name"))).getD default)).f_string
      = some (lit "0123456789") := by
  have h := (finalize_info_terminator
    ((long_row_delivered.find (.name (lit "name"))).getD default)
    (lit "0123456789" ++ [0, 0, 70]) (lit "hello") (by rfl) (by rfl) (by decide)
    (by decide)).1 (by rfl)
  have e : ((long_row_delivered.find (.name (lit "name"))).getD default).f_size = 11 := by rfl
  rw [e] at h
  exact h

/-- C26 as stated fails. The first fetch of the sample record stores `hello` and a
    terminator in the 13 bytes of the landing buffer of `name` and reports the
    fetched size 5; `finalize` has stored its zero at the offset 11, the `f_size`, where
    the buffer held 69. The descriptor then holds `hello`; a row that stores the two
    bytes `hi` with the fetched size 2 leaves the byte at the offset 2 as it was, and
    `finalize` produces `hillo`. A row of 20 characters has the fetched size 20, past
    the 13 bytes of the landing buffer. -/
theorem finalize_stale_bytes :
    (uninitialised sample_driver.garbage 13
        = [65, 66, 67, 68, 69, 70, 71, 65, 66, 67, 68, 69, 70]
      ∧ (sample_bound_record.find (.name (lit "name"))).map
          (fun d => (d.f_fetch_size, d.f_size, d.f_data_buffer))
          = some (5, 11, some (lit "hello" ++ [0, 71, 65, 66, 67, 68, 0, 70])))
    ∧ ((short_row_delivered.find (.name (lit "name"))).map (fun d => d.f_fetch_size) = some 2
      ∧ (short_row_delivered.finalize.find (.name (lit "name"))).map (fun d => d.f_string)
          = some (some (lit "hillo"))
      ∧ (short_row_delivered.finalize.find (.name (lit "name"))).map (fun d => d.f_data_buffer)
          = some (some (lit "hillo" ++ [0, 71, 65, 66, 67, 68, 0, 70])))
    ∧ ((long_row_delivered.find (.name (lit "name"))).map (fun d => d.f_fetch_size) = some 20
      ∧ (long_row_delivered.find (.name (lit "name"))).map
          (fun d => d.f_data_buffer.map List.length) = some (some 13)
      ∧ (long_row_delivered.finalize.find (.name (lit "name"))).map (fun d => d.f_data_buffer)
          = some (some (lit "0123456789" ++ [0, 0, 70]))) := by
  refine ⟨⟨?_, ?_⟩, ⟨?_, ?_, ?_⟩, ?_, ?_, ?_⟩ <;> rfl

end record

/-! ## One iteration of the loop of `record::bind_impl`, exactly -/

theorem map_modify_congr {κ α : Type} [DecidableEq κ] (k : κ) (f g : α → α) (v : α) :
    ∀ (m : List (κ × α)), map_find k m = some v → f v = g v →
      map_modify k f m = map_modify k g m := by
  intro m
  induction m with
  | nil => intro h; simp [map_find] at h
  | cons e rest ih =>
    obtain ⟨k0, v0⟩ := e
    intro h hfg
    by_cases h1 : k = k0
    · simp only [map_find, h1, if_true, Option.some.injEq] at h
      subst h
      simp [map_modify, h1, hfg]
    · simp only [map_find, h1, if_false] at h
      simp [map_modify, h1, ih h hfg]

namespace record

theorem modify_congr (r : record) (key : column_key) (f g : bind_info_t → bind_info_t)
    (info : bind_info_t) (hfind : r.find key = some info) (hfg : f info = g info) :
    r.modify key f = r.modify key g := by
  cases key with
  | name n =>
    simp only [find] at hfind
    simp only [modify, map_modify_congr n f g info _ hfind hfg]
  | col c =>
    simp only [find] at hfind
    simp only [modify, map_modify_congr c f g info _ hfind hfg]

/-- What the last part of the loop body has done when it returns, for any target
    type: the descriptor under `key` has become `info1`, `SQLBindCol` was called
    with its size and has succeeded, and the registration of the column `idx` is
    that of `info1`, or none when its data pointer is null. -/
theorem bind_info_exact (drv : driver) (idx : Int) (key : column_key) (size : Nat)
    (s s1 : statement) (r r1 : record) (info : bind_info_t)
    (hfind : r.find key = some info)
    (h : bind_info drv idx key size s r = .returns () (s1, r1)) :
    s1.frame = s.frame
    ∧ ∃ info1 : bind_info_t,
        info1 = (if info.f_target_type = SQL_C_CHAR ∨ info.f_target_type = SQL_C_WCHAR then
            with_buffer drv (string_size info.f_target_type
              (if size = 0 then
                 to_SQLULEN (drv.SQLDescribeCol (to_SQLUSMALLINT idx)).column_size
               else size)) info
          else info)
        ∧ (drv.SQLBindCol (to_SQLUSMALLINT idx) info1.f_target_type info1.f_size = SQL_SUCCESS
          ∨ drv.SQLBindCol (to_SQLUSMALLINT idx) info1.f_target_type info1.f_size
              = SQL_SUCCESS_WITH_INFO)
        ∧ r1 = { r.modify key (fun _ => info1) with
                 driver_bindings :=
                   unbind_column s.addr (to_SQLUSMALLINT idx) r.driver_bindings
                   ++ (if info1.f_data = .null then []
                       else [registration s.addr idx key info1]) } := by
  unfold bind_info at h
  cases hsz : size_string_buffer drv idx key size s r with
  | diverges => simp [hsz] at h
  | raises e st => simp [hsz] at h
  | returns u st =>
    obtain ⟨s2, r2⟩ := st
    simp only [hsz] at h
    obtain ⟨ha2, hr2⟩ := size_string_buffer_returns drv idx key size s s2 r r2 info hfind hsz
    generalize hf0 :
      (if info.f_target_type = SQL_C_CHAR ∨ info.f_target_type = SQL_C_WCHAR then
           with_buffer drv (string_size info.f_target_type
             (if size = 0 then to_SQLULEN (drv.SQLDescribeCol (to_SQLUSMALLINT idx)).column_size
              else size))
         else fun v => v) = f0 at hr2
    have hfind2 : r2.find key = some (f0 info) := by
      rw [hr2, find_modify, if_pos rfl, hfind]; rfl
    have hinfo1 : f0 info
        = (if info.f_target_type = SQL_C_CHAR ∨ info.f_target_type = SQL_C_WCHAR then
            with_buffer drv (string_size info.f_target_type
              (if size = 0 then
                 to_SQLULEN (drv.SQLDescribeCol (to_SQLUSMALLINT idx)).column_size
               else size)) info
          else info) := by
      rw [← hf0]
      split_ifs <;> rfl
    obtain ⟨ha1, hr1⟩ := bind_col_returns drv idx key s2 s1 r2 r1 _ hfind2 h
    have hcode : drv.SQLBindCol (to_SQLUSMALLINT idx) (f0 info).f_target_type (f0 info).f_size
          = SQL_SUCCESS
        ∨ drv.SQLBindCol (to_SQLUSMALLINT idx) (f0 info).f_target_type (f0 info).f_size
          = SQL_SUCCESS_WITH_INFO := by
      unfold bind_col at h
      simp only [hfind2, Option.getD_some] at h
      cases hc : s2.check drv
          (drv.SQLBindCol (to_SQLUSMALLINT idx) (f0 info).f_target_type (f0 info).f_size) with
      | diverges => simp [hc] at h
      | raises e s3 => simp [hc] at h
      | returns a s3 => exact statement.check_returns_code drv s2 s3 _ a hc
    refine ⟨ha1.trans ha2, f0 info, hinfo1, hcode, ?_⟩
    rw [hr1, statement.frame_addr _ _ ha2, hr2, modify_driver_bindings,
      modify_congr r key f0 (fun _ => f0 info) info hfind rfl]

/-- What an iteration of the loop of `record::bind_impl` that returns has done:
    nothing when no descriptor is selected for the column; otherwise the selected
    descriptor, sized from the column when it is a string, is the one the driver
    holds for the column. -/
theorem bind_column_exact (drv : driver) (idx : Int) (s s1 : statement) (r r1 : record)
    (h : bind_column drv idx s r = .returns () (s1, r1)) :
    s1.frame = s.frame
    ∧ ((r1 = r ∧ ∀ k, ¬ selects drv r idx k)
      ∨ ∃ (key : column_key) (info info1 : bind_info_t),
          selects drv r idx key ∧ r.find key = some info
          ∧ info1 = (if info.f_target_type = SQL_C_CHAR ∨ info.f_target_type = SQL_C_WCHAR then
              with_buffer drv (string_size info.f_target_type
                (to_SQLULEN (drv.SQLDescribeCol (to_SQLUSMALLINT idx)).column_size)) info
            else info)
          ∧ (drv.SQLBindCol (to_SQLUSMALLINT idx) info1.f_target_type info1.f_size = SQL_SUCCESS
            ∨ drv.SQLBindCol (to_SQLUSMALLINT idx) info1.f_target_type info1.f_size
                = SQL_SUCCESS_WITH_INFO)
          ∧ r1 = { r.modify key (fun _ => info1) with
                   driver_bindings :=
                     unbind_column s.addr (to_SQLUSMALLINT idx) r.driver_bindings
                     ++ (if info1.f_data = .null then []
                         else [registration s.addr idx key info1]) }) := by
  unfold bind_column at h
  cases hcol : map_find idx r.f_bind_by_col with
  | none =>
    simp only [hcol] at h
    cases hc : s.check drv (drv.SQLDescribeCol (to_SQLUSMALLINT idx)).return_code with
    | diverges => simp [hc] at h
    | raises e s2 => simp [hc] at h
    | returns a s2 =>
      have ha2 : s2.frame = s.frame := statement.check_frame drv s s2 _ _ hc
      simp only [hc] at h
      cases hnm : map_find (c_str ((drv.SQLDescribeCol (to_SQLUSMALLINT idx)).column_name.set 255 0))
          r.f_bind_by_name with
      | none =>
        simp only [hnm, outcome.returns.injEq, Prod.mk.injEq, true_and] at h
        obtain ⟨rfl, rfl⟩ := h
        refine ⟨ha2, Or.inl ⟨rfl, fun k hk => ?_⟩⟩
        cases k with
        | name n =>
          simp only [selects] at hk
          rw [← hk.2.1, hnm] at hk
          simp at hk
        | col c =>
          simp only [selects, hcol] at hk
          simp at hk
      | some v =>
        simp only [hnm] at h
        obtain ⟨ha1, info1, hi1, hcode, hr1⟩ :=
          bind_info_exact drv idx _ _ s2 s1 r r1 v (by simpa [find] using hnm) h
        refine ⟨ha1.trans ha2, Or.inr
          ⟨.name (c_str ((drv.SQLDescribeCol (to_SQLUSMALLINT idx)).column_name.set 255 0)),
            v, info1, ?_, by simpa [find] using hnm, ?_, hcode, ?_⟩⟩
        · simp only [selects, hcol, hnm, true_and, Option.isSome_some]
        · rw [hi1]
          by_cases hz : to_SQLULEN (drv.SQLDescribeCol (to_SQLUSMALLINT idx)).column_size = 0
          · simp only [hz, if_true]
          · simp only [hz, if_false]
        · rw [hr1, statement.frame_addr _ _ ha2]
  | some v =>
    simp only [hcol] at h
    obtain ⟨ha1, info1, hi1, hcode, hr1⟩ :=
      bind_info_exact drv idx _ _ s s1 r r1 v (by simpa [find] using hcol) h
    refine ⟨ha1, Or.inr ⟨.col idx, v, info1, ?_, by simpa [find] using hcol, ?_, hcode, hr1⟩⟩
    · simp only [selects, hcol, true_and, Option.isSome_some]
    · rw [hi1]
      simp only [if_true]

end record

/-! ## The buffer length `record::bind_impl` passes to `SQLBindCol` -/

namespace record

theorem filter_unbind_column {κ : Type} (stmt column : Nat) (t : List (bound_column κ)) :
    (unbind_column stmt column t).filter (fun x => x.stmt = stmt ∧ x.column = column) = [] := by
  rw [List.filter_eq_nil_iff]
  intro a ha
  unfold unbind_column at ha
  rw [List.mem_filter] at ha
  have h2 := ha.2
  simp only [decide_eq_true_eq] at h2 ⊢
  exact h2

/-- An iteration of the loop of `record::bind_impl` that returns, for a column that
    selects a string descriptor: the descriptor has the size and the buffer computed
    from the width of the column, and the driver holds one registration for the
    column, that of the descriptor with this size. -/
theorem bind_column_string (drv : driver) (idx : Int) (s s1 : statement) (r r1 : record)
    (key : column_key) (info : bind_info_t)
    (hsel : selects drv r idx key) (hfind : r.find key = some info)
    (hstr : info.f_target_type = SQL_C_CHAR ∨ info.f_target_type = SQL_C_WCHAR)
    (h : bind_column drv idx s r = .returns () (s1, r1)) :
    s1.frame = s.frame
    ∧ (∀ k, (r1.find k).isSome = (r.find k).isSome)
    ∧ (∀ k, k ≠ key → r1.find k = r.find k)
    ∧ r1.find key = some (with_buffer drv (string_size info.f_target_type
        (to_SQLULEN (drv.SQLDescribeCol (to_SQLUSMALLINT idx)).column_size)) info)
    ∧ (drv.SQLBindCol (to_SQLUSMALLINT idx) info.f_target_type
          (string_size info.f_target_type
            (to_SQLULEN (drv.SQLDescribeCol (to_SQLUSMALLINT idx)).column_size)) = SQL_SUCCESS
      ∨ drv.SQLBindCol (to_SQLUSMALLINT idx) info.f_target_type
          (string_size info.f_target_type
            (to_SQLULEN (drv.SQLDescribeCol (to_SQLUSMALLINT idx)).column_size))
          = SQL_SUCCESS_WITH_INFO)
    ∧ r1.driver_bindings.filter (fun x => x.stmt = s.addr ∧ x.column = to_SQLUSMALLINT idx)
        = [{ stmt := s.addr, column := to_SQLUSMALLINT idx, target_type := info.f_target_type,
             target := key
             buffer_length := string_size info.f_target_type
               (to_SQLULEN (drv.SQLDescribeCol (to_SQLUSMALLINT idx)).column_size) }] := by
  obtain ⟨hfr, hcase⟩ := bind_column_exact drv idx s s1 r r1 h
  rcases hcase with ⟨_, hnone⟩ | ⟨key1, info0, info1, hsel1, hfind1, hi1, hcode, hr1⟩
  · exact absurd hsel (hnone key)
  · have hk : key1 = key := selects_unique drv r idx key1 key hsel1 hsel
    subst hk
    rw [hfind] at hfind1
    cases hfind1
    rw [if_pos hstr] at hi1
    subst hi1
    refine ⟨hfr, fun k => ?_, fun k hk => ?_, ?_, hcode, ?_⟩
    · rw [hr1]
      exact isSome_find_modify r k key1 _
    · rw [hr1]
      have := find_modify r k key1 (fun _ => with_buffer drv (string_size info.f_target_type
        (to_SQLULEN (drv.SQLDescribeCol (to_SQLUSMALLINT idx)).column_size)) info)
      rw [if_neg hk] at this
      exact this
    · rw [hr1]
      have := find_modify r key1 key1 (fun _ => with_buffer drv (string_size info.f_target_type
        (to_SQLULEN (drv.SQLDescribeCol (to_SQLUSMALLINT idx)).column_size)) info)
      rw [if_pos rfl, hfind] at this
      exact this
    · rw [hr1]
      simp only [List.filter_append, filter_unbind_column, List.nil_append]
      simp [with_buffer, registration]

end record

namespace record

theorem string_size_stated (target_type : Int) (w : Nat) :
    string_size target_type w = stated_buffer_length target_type w % 18446744073709551616 := by
  unfold string_size stated_buffer_length to_SQLULEN
  by_cases ht : target_type = SQL_C_WCHAR
  · simp only [ht, if_true]
    rw [Nat.mul_mod (((if w = 0 then 8 * 1024 else w) + 1) % 18446744073709551616),
      Nat.mod_mod, ← Nat.mul_mod]
  · simp only [ht, if_false]

/-- C27, amended: in `record::bind_impl`, for a string descriptor matched to the
    column `idx` of driver-reported width `w`, the buffer length passed to
    `SQLBindCol` and held by the driver is the stated length (`w' + 1` bytes for a
    narrow string, `(w' + 1) * sizeof(SQLWCHAR)` bytes for a wide string, with
    `w' = 8192` when `w = 0` and `w' = w` otherwise) reduced modulo 2^64, so the stated
    length itself whenever that is below 2^64; the size the descriptor had before
    plays no part, and when the record is unbound and the column bound again the
    same length is passed again. -/
theorem bind_column_buffer_length (drv : driver) (idx : Int) (s s1 : statement)
    (r r1 : record) (key : column_key) (info : bind_info_t) (w : Nat)
    (hw : to_SQLULEN (drv.SQLDescribeCol (to_SQLUSMALLINT idx)).column_size = w)
    (hsel : selects drv r idx key) (hfind : r.find key = some info)
    (hstr : info.f_target_type = SQL_C_CHAR ∨ info.f_target_type = SQL_C_WCHAR)
    (h : bind_column drv idx s r = .returns () (s1, r1)) :
    r1.driver_bindings.filter (fun x => x.stmt = s.addr ∧ x.column = to_SQLUSMALLINT idx)
        = [{ stmt := s.addr, column := to_SQLUSMALLINT idx, target_type := info.f_target_type,
             target := key
             buffer_length :=
               stated_buffer_length info.f_target_type w % 18446744073709551616 }]
    ∧ (stated_buffer_length info.f_target_type w < 18446744073709551616 →
        r1.driver_bindings.filter (fun x => x.stmt = s.addr ∧ x.column = to_SQLUSMALLINT idx)
          = [{ stmt := s.addr, column := to_SQLUSMALLINT idx,
               target_type := info.f_target_type, target := key
               buffer_length := stated_buffer_length info.f_target_type w }])
    ∧ (∀ (s2 s3 : statement) (r2 : record),
        bind_column drv idx s2 (record_base.unbind ops r1) = .returns () (s3, r2) →
        r2.driver_bindings.filter (fun x => x.stmt = s2.addr ∧ x.column = to_SQLUSMALLINT idx)
          = [{ stmt := s2.addr, column := to_SQLUSMALLINT idx,
               target_type := info.f_target_type, target := key
               buffer_length :=
                 stated_buffer_length info.f_target_type w % 18446744073709551616 }]) := by
  obtain ⟨_, hkeys, _, hfind1, _, hreg⟩ :=
    bind_column_string drv idx s s1 r r1 key info hsel hfind hstr h
  rw [hw, string_size_stated] at hreg hfind1
  refine ⟨hreg, fun hlt => ?_, fun s2 s3 r2 h2 => ?_⟩
  · rw [hreg, Nat.mod_eq_of_lt hlt]
  · have hsel2 : selects drv (record_base.unbind ops r1) idx key :=
      selects_congr drv r (record_base.unbind ops r1) idx key (fun k => hkeys k) hsel
    have hfind2 : (record_base.unbind ops r1).find key = some
        (with_buffer drv (stated_buffer_length info.f_target_type w % 18446744073709551616)
          info) := hfind1
    obtain ⟨_, _, _, _, _, hreg2⟩ :=
      bind_column_string drv idx s2 s3 (record_base.unbind ops r1) r2 key _ hsel2 hfind2 hstr h2
    rw [hw, string_size_stated] at hreg2
    exact hreg2

/-- C27, at a concrete input: the column `name` of the sample result set has the
    width 10; the sample record is bound with the buffer length 11, and with 11
    again when it is unbound and bound to the statement at address 2. -/
theorem bind_column_buffer_length_witness :
    bind_column sample_driver 2 sample_statement sample_record
      = .returns () (sample_statement, name_bound_record)
    ∧ name_bound_record.driver_bindings.filter (fun x => x.stmt = 1 ∧ x.column = 2)
        = [{ stmt := 1, column := 2, target_type := SQL_C_CHAR,
             target := .name (lit "name"), buffer_length := 11 }]
    ∧ bind_column sample_driver 2 other_statement (record_base.unbind ops name_bound_record)
        = .returns () (other_statement, name_rebound_record)
    ∧ name_rebound_record.driver_bindings.filter (fun x => x.stmt = 2 ∧ x.column = 2)
        = [{ stmt := 2, column := 2, target_type := SQL_C_CHAR,
             target := .name (lit "name"), buffer_length := 11 }] :=
  ⟨by rfl,
   (bind_column_buffer_length sample_driver 2 sample_statement sample_statement sample_record
      name_bound_record (.name (lit "name"))
      ((sample_record.find (.name (lit "name"))).getD default) 10
      (by rfl) (by decide) (by rfl) (by decide) (by rfl)).2.1 (by decide),
   by rfl,
   (bind_column_buffer_length sample_driver 2 sample_statement sample_statement sample_record
      name_bound_record (.name (lit "name"))
      ((sample_record.find (.name (lit "name"))).getD default) 10
      (by rfl) (by decide) (by rfl) (by decide) (by rfl)).2.2
      other_statement other_statement name_rebound_record (by rfl)⟩

/-- C27 as stated fails. The driver reports the width 18446744073709551615 for the
    column `name`: the stated buffer length is 18446744073709551616 bytes, and
    `record::bind_impl` passes the length 0, with a landing buffer of 2 bytes. -/
theorem bind_impl_buffer_length_wraps :
    (∃ st, bind_impl widest_column_driver sample_statement
          { sample_record with f_statement := some 1 } = .returns () st
      ∧ st.2.driver_bindings.map (fun b => (b.column, b.buffer_length)) = [(1, 4), (2, 0)]
      ∧ (st.2.find (.name (lit "name"))).map (fun d => (d.f_size, d.f_data_buffer))
          = some (0, some [65, 66]))
    ∧ to_SQLULEN (widest_column_driver.SQLDescribeCol 2).column_size = 18446744073709551615
    ∧ stated_buffer_length SQL_C_CHAR 18446744073709551615 = 18446744073709551616 :=
  ⟨⟨_, rfl, rfl, rfl⟩, rfl, rfl⟩

end record

/-! ## The terminator store of `record::finalize_info` and the buffer of `bind_impl` -/

namespace record

theorem length_overwrite (block data : List Nat) : (overwrite block data).length = block.length := by
  unfold overwrite
  simp only [List.length_append, List.length_take, List.length_drop]
  omega

theorem written_terminator_inside (n : Nat) (c : cell) (d : bind_info_t)
    (h : terminator_inside d) : terminator_inside (written n c d) := by
  obtain ⟨blk, hb, h1, h2⟩ := h
  refine ⟨overwrite blk (c.data.take n), ?_, ?_, ?_⟩
  · unfold written
    simp only [hb]
    have := block_set_block d blk (overwrite blk (c.data.take n)) hb
    simpa [bind_info_t.block] using this
  · intro ht
    rw [length_overwrite]
    have e1 : (written n c d).f_target_type = d.f_target_type := by
      unfold written bind_info_t.set_block
      simp only [hb]
      cases d.f_data <;> rfl
    have e2 : (written n c d).f_size = d.f_size := by
      unfold written bind_info_t.set_block
      simp only [hb]
      cases d.f_data <;> rfl
    rw [e2]
    exact h1 (e1 ▸ ht)
  · intro ht
    rw [length_overwrite]
    have e1 : (written n c d).f_target_type = d.f_target_type := by
      unfold written bind_info_t.set_block
      simp only [hb]
      cases d.f_data <;> rfl
    have e2 : (written n c d).f_size = d.f_size := by
      unfold written bind_info_t.set_block
      simp only [hb]
      cases d.f_data <;> rfl
    rw [e2]
    exact h2 (e1 ▸ ht)

theorem copy_string_shape (i : bind_info_t) (blk : List Nat) (hb : i.block = some blk) :
    (copy_string i).f_size = i.f_size ∧ (copy_string i).f_target_type = i.f_target_type
    ∧ ∃ blk1, (copy_string i).block = some blk1 ∧ blk1.length = blk.length := by
  have hset : ∀ (s : List Nat) (str : Option std_string),
      ({ i.set_block s with f_string := str } : bind_info_t).f_size = i.f_size
      ∧ ({ i.set_block s with f_string := str } : bind_info_t).f_target_type = i.f_target_type
      ∧ ({ i.set_block s with f_string := str } : bind_info_t).block = some s := by
    intro s str
    have := block_set_block i blk s hb
    unfold bind_info_t.set_block bind_info_t.block at this ⊢
    cases hd : i.f_data with
    | null => simp [bind_info_t.block, hd] at hb
    | host b => simp [hd] at this ⊢
    | data_buffer => simp [hd] at this ⊢
  unfold copy_string
  rw [hb]
  cases hs : i.f_string with
  | none => exact ⟨rfl, rfl, blk, hb, rfl⟩
  | some str =>
    simp only
    split_ifs
    · obtain ⟨a, b, c⟩ := hset (blk.set i.f_size 0) (some (c_str (blk.set i.f_size 0)))
      exact ⟨a, b, _, c, by simp⟩
    · obtain ⟨a, b, c⟩ := hset
        ((blk.set (sizeof_SQLWCHAR * (i.f_size / sizeof_SQLWCHAR)) 0).set
          (sizeof_SQLWCHAR * (i.f_size / sizeof_SQLWCHAR) + 1) 0)
        (some (str ++ c_str (wide_units
          ((blk.set (sizeof_SQLWCHAR * (i.f_size / sizeof_SQLWCHAR)) 0).set
            (sizeof_SQLWCHAR * (i.f_size / sizeof_SQLWCHAR) + 1) 0))))
      exact ⟨a, b, _, c, by simp⟩
    · exact ⟨rfl, rfl, blk, hb, rfl⟩
    · exact ⟨rfl, rfl, blk, hb, rfl⟩

theorem finalize_info_keeps_inside (d : bind_info_t) (h : terminator_inside d) :
    terminator_inside (finalize_info d) := by
  obtain ⟨blk, hb, h1, h2⟩ := h
  have hb1 : (clear_string (set_null_flag d)).block = some blk := by
    rw [clear_string_block, set_null_flag_block, hb]
  obtain ⟨hsz, hty, blk1, hblk1, hlen⟩ := copy_string_shape _ blk hb1
  have hsz1 : (finalize_info d).f_size = d.f_size := by
    unfold finalize_info; rw [hsz]; simp
  have hty1 : (finalize_info d).f_target_type = d.f_target_type := by
    unfold finalize_info; rw [hty]; simp
  refine ⟨blk1, hblk1, fun ht => ?_, fun ht => ?_⟩
  · rw [hsz1, hlen]; exact h1 (hty1 ▸ ht)
  · rw [hsz1, hlen]; exact h2 (hty1 ▸ ht)

/-- The descriptor of a string as `record::bind_impl` leaves it, with a size that
    `SQLBindCol` accepts as a `SQLLEN`: the buffer has `f_size + sizeof(SQLWCHAR)`
    bytes and holds the terminator store. -/
theorem with_buffer_terminator_inside (drv : driver) (f_size : Nat) (info : bind_info_t)
    (hlt : f_size < 9223372036854775808) :
    (with_buffer drv f_size info).block
        = some (uninitialised drv.garbage (f_size + sizeof_SQLWCHAR))
    ∧ (uninitialised drv.garbage (f_size + sizeof_SQLWCHAR)).length = f_size + sizeof_SQLWCHAR
    ∧ terminator_inside (with_buffer drv f_size info) := by
  have e : to_SQLULEN (f_size + sizeof_SQLWCHAR) = f_size + sizeof_SQLWCHAR := by
    show (f_size + 2) % 18446744073709551616 = f_size + 2
    omega
  have hb : (with_buffer drv f_size info).block
      = some (uninitialised drv.garbage (f_size + sizeof_SQLWCHAR)) := by
    simp [with_buffer, bind_info_t.block, e]
  refine ⟨hb, length_uninitialised _ _, _, hb, fun _ => ?_, fun _ => ?_⟩
  · rw [length_uninitialised]
    show f_size < f_size + 2
    omega
  · rw [length_uninitialised]
    show 2 * (f_size / 2) + 1 < f_size + 2
    omega

end record

namespace record

/-- One iteration of the loop of `record::bind_impl` keeps `terminators_inside`. -/
theorem bind_column_terminators_inside (drv : driver) (hdrv : drv.refuses_negative_length)
    (idx : Int) (s s1 : statement) (r r1 : record) (hP : terminators_inside r)
    (h : bind_column drv idx s r = .returns () (s1, r1)) : terminators_inside r1 := by
  obtain ⟨_, hcase⟩ := bind_column_exact drv idx s s1 r r1 h
  rcases hcase with ⟨rfl, _⟩ | ⟨key1, info, info1, _, hfind1, hi1, hcode, hr1⟩
  · exact hP
  · intro key d hfind hstr hreg
    by_cases hk : key = key1
    · subst hk
      have hd : d = info1 := by
        have := find_modify r key key (fun _ => info1)
        rw [if_pos rfl, hfind1] at this
        rw [hr1] at hfind
        have h3 : (r.modify key (fun _ => info1)).find key = some d := hfind
        rw [this] at h3
        simpa using h3.symm
      subst hd
      by_cases hs : info.f_target_type = SQL_C_CHAR ∨ info.f_target_type = SQL_C_WCHAR
      · rw [if_pos hs] at hi1
        have hlt := hdrv _ _ _ hcode
        rw [hi1] at hlt ⊢
        exact (with_buffer_terminator_inside drv _ info hlt).2.2
      · rw [if_neg hs] at hi1
        rw [hi1] at hstr
        exact absurd hstr hs
    · have hfind0 : r.find key = some d := by
        have := find_modify r key key1 (fun _ => info1)
        rw [if_neg hk] at this
        rw [hr1] at hfind
        have h3 : (r.modify key1 (fun _ => info1)).find key = some d := hfind
        rw [this] at h3
        exact h3
      refine hP key d hfind0 hstr ?_
      obtain ⟨b, hb, hbt⟩ := hreg
      rw [hr1] at hb
      have hb1 : b ∈ unbind_column s.addr (to_SQLUSMALLINT idx) r.driver_bindings
          ++ (if info1.f_data = .null then [] else [registration s.addr idx key1 info1]) := hb
      rw [List.mem_append] at hb1
      rcases hb1 with hb1 | hb1
      · unfold unbind_column at hb1
        exact ⟨b, (List.mem_filter.mp hb1).1, hbt⟩
      · exfalso
        split_ifs at hb1
        · cases hb1
        · rw [List.mem_singleton] at hb1
          rw [hb1] at hbt
          exact hk hbt.symm

/-- C30: with a driver whose `SQLBindCol` refuses a negative `BufferLength`, after a
    `record::bind_impl` that returns, for every string descriptor the driver holds a
    registration of, whatever width the driver reports for the column, the
    terminator store of `record::finalize_info` (the byte of index `f_size` for a
    narrow string, the `SQLWCHAR` of index `f_size / sizeof(SQLWCHAR)` for a wide one)
    is inside the block the descriptor points to, which an iteration that binds a
    string allocates with `f_size + sizeof(SQLWCHAR)` bytes; the stores of the driver
    at a fetch and `finalize_info` itself keep it so. -/
theorem bind_impl_terminator_inside (drv : driver) (hdrv : drv.refuses_negative_length)
    (s s1 : statement) (r r1 : record) (hP : terminators_inside r)
    (h : bind_impl drv s r = .returns () (s1, r1)) :
    (∀ (key : column_key) (d : bind_info_t), r1.find key = some d →
        d.f_target_type = SQL_C_CHAR ∨ d.f_target_type = SQL_C_WCHAR →
        (∃ b ∈ r1.driver_bindings, b.target = key) →
        ∃ blk, d.block = some blk
          ∧ (d.f_target_type = SQL_C_CHAR → d.f_size < blk.length)
          ∧ (d.f_target_type = SQL_C_WCHAR →
              sizeof_SQLWCHAR * (d.f_size / sizeof_SQLWCHAR) + 1 < blk.length))
    ∧ (∀ (idx : Int) (key : column_key) (info : bind_info_t) (s2 s3 : statement)
        (r2 r3 : record), selects drv r2 idx key → r2.find key = some info →
        info.f_target_type = SQL_C_CHAR ∨ info.f_target_type = SQL_C_WCHAR →
        bind_column drv idx s2 r2 = .returns () (s3, r3) →
        ∃ d blk, r3.find key = some d ∧ d.f_data = .data_buffer
          ∧ d.f_data_buffer = some blk ∧ blk.length = d.f_size + sizeof_SQLWCHAR
          ∧ terminator_inside d)
    ∧ (∀ d : bind_info_t, terminator_inside d →
        (∀ (n : Nat) (c : cell), terminator_inside (written n c d))
        ∧ terminator_inside (finalize_info d)) := by
  refine ⟨?_, ?_, fun d hd =>
    ⟨fun n c => written_terminator_inside n c d hd, finalize_info_keeps_inside d hd⟩⟩
  · have hinv : terminators_inside r1 := by
      unfold bind_impl at h
      cases hcols : s.cols drv with
      | diverges => simp [hcols] at h
      | raises e s2 => simp [hcols] at h
      | returns count s2 =>
        simp only [hcols] at h
        obtain ⟨_, _, _, hP1⟩ := bind_loop_returns (bind_column drv) (to_SQLSMALLINT count)
          (to_SQLSMALLINT_le _) (fun _ _ r2 => terminators_inside r2)
          (fun idx s2 r2 s3 r3 _ _ hP2 hb =>
            bind_column_terminators_inside drv hdrv idx s2 s3 r2 r3 hP2 hb)
          65536 1 s2 r s1 r1 (le_refl _) hP h
        exact hP1
    exact hinv
  · intro idx key info s2 s3 r2 r3 hsel hfind hstr hb
    obtain ⟨_, _, _, hfind3, hcode, _⟩ :=
      bind_column_string drv idx s2 s3 r2 r3 key info hsel hfind hstr hb
    have hlt := hdrv _ _ _ hcode
    obtain ⟨_, hlen, hin⟩ := with_buffer_terminator_inside drv _ info hlt
    refine ⟨_, _, hfind3, rfl, ?_, hlen, hin⟩
    show some (uninitialised drv.garbage (to_SQLULEN _)) = _
    have e : ∀ n : Nat, n < 9223372036854775808 →
        to_SQLULEN (n + sizeof_SQLWCHAR) = n + sizeof_SQLWCHAR := by
      intro n hn
      show (n + 2) % 18446744073709551616 = n + 2
      omega
    rw [e _ hlt]

theorem strict_driver_refuses : strict_driver.refuses_negative_length := by
  intro c t n h
  by_contra hn
  simp [strict_driver, hn] at h
  exact absurd h (by decide)

/-- C30, at a concrete input: the string `name` of the sample record, bound to the
    column of width 10, has `f_size` 11 and a block of 13 bytes. -/
theorem bind_impl_terminator_inside_witness :
    bind_impl strict_driver sample_statement { sample_record with f_statement := some 1 }
      = .returns () (sample_statement, strict_bound_record)
    ∧ (strict_bound_record.find (.name (lit "name"))).map
        (fun d => (d.f_size, d.f_data_buffer.map List.length)) = some (11, some 13)
    ∧ ∃ blk, ((strict_bound_record.find (.name (lit "name"))).getD default).block = some blk
        ∧ (((strict_bound_record.find (.name (lit "name"))).getD default).f_target_type
              = SQL_C_CHAR →
            ((strict_bound_record.find (.name (lit "name"))).getD default).f_size < blk.length)
        ∧ (((strict_bound_record.find (.name (lit "name"))).getD default).f_target_type
              = SQL_C_WCHAR →
            sizeof_SQLWCHAR
              * (((strict_bound_record.find (.name (lit "name"))).getD default).f_size
                  / sizeof_SQLWCHAR) + 1 < blk.length) :=
  ⟨by rfl, by rfl,
   (bind_impl_terminator_inside strict_driver strict_driver_refuses sample_statement
      sample_statement { sample_record with f_statement := some 1 } strict_bound_record
      (fun _ _ _ _ hb => by obtain ⟨b, hb1, _⟩ := hb; cases hb1) (by rfl)).1
      (.name (lit "name")) _ (by rfl) (by decide)
      ⟨{ stmt := 1, column := 2, target_type := SQL_C_CHAR, target := .name (lit "name"),
         buffer_length := 11 }, by decide, by rfl⟩⟩

end record

/-! ## Which columns `record::bind_impl` binds -/

theorem statement.check_success (drv : driver) (s : statement) :
    ∃ s1, s.check drv SQL_SUCCESS = .returns SQL_SUCCESS s1 ∧ s1.frame = s.frame := by
  refine ⟨{ s with f_diag := {} }, ?_, rfl⟩
  simp [statement.check, handle.check]

/-- The loop of `bind_impl` over fewer than 32767 columns returns when every
    iteration returns without a change to the record. -/
theorem bind_loop_skips {R : Type} (body : Int → statement → R → outcome (statement × R) Unit)
    (max : Int) (hmax : max ≤ 32766) (r : R)
    (hbody : ∀ idx s, 1 ≤ idx → idx ≤ max →
      ∃ s1, body idx s r = .returns () (s1, r) ∧ s1.frame = s.frame) :
    ∀ (fuel : Nat) (idx : Int) (s : statement), 1 ≤ idx → (max + 1 - idx).toNat ≤ fuel →
      ∃ s1, bind_loop body max fuel idx s r = .returns () (s1, r) ∧ s1.frame = s.frame := by
  intro fuel
  induction fuel with
  | zero =>
    intro idx s h1 hf
    have hi : ¬ idx ≤ max := by omega
    exact ⟨s, by simp [bind_loop, hi], rfl⟩
  | succ fuel ih =>
    intro idx s h1 hf
    by_cases hi : idx ≤ max
    · obtain ⟨s1, hb, hfr⟩ := hbody idx s h1 hi
      obtain ⟨s2, hl, hfr2⟩ := ih (idx + 1) s1 (by omega) (by omega)
      refine ⟨s2, ?_, hfr2.trans hfr⟩
      simp only [bind_loop, hi, if_true, hb]
      rw [to_SQLSMALLINT_of_range (idx + 1) (by omega) (by omega)]
      exact hl
    · exact ⟨s, by simp [bind_loop, hi], rfl⟩

namespace record

theorem to_SQLUSMALLINT_inj (a b : Int) (ha : 1 ≤ a) (ha1 : a ≤ 32767) (hb : 1 ≤ b)
    (hb1 : b ≤ 32767) (h : to_SQLUSMALLINT a = to_SQLUSMALLINT b) : a = b := by
  unfold to_SQLUSMALLINT at h
  omega

/-- A column selects a descriptor exactly when a descriptor is registered under
    its index or under the name the driver reports for it. -/
theorem exists_selects_iff (drv : driver) (r : record) (idx : Int) :
    (∃ key, selects drv r idx key)
      ↔ ((map_find idx r.f_bind_by_col).isSome = true
        ∨ (map_find (c_str ((drv.SQLDescribeCol (to_SQLUSMALLINT idx)).column_name.set 255 0))
            r.f_bind_by_name).isSome = true) := by
  constructor
  · rintro ⟨key, hk⟩
    cases key with
    | name n =>
      simp only [selects] at hk
      right
      rw [hk.2.1]
      exact hk.2.2
    | col c =>
      simp only [selects] at hk
      exact Or.inl hk.2
  · intro h
    by_cases hc : (map_find idx r.f_bind_by_col).isSome = true
    · exact ⟨.col idx, show idx = idx ∧ _ from ⟨rfl, hc⟩⟩
    · rcases h with h | h
      · exact absurd h hc
      · refine ⟨.name (c_str ((drv.SQLDescribeCol (to_SQLUSMALLINT idx)).column_name.set 255 0)),
          ?_⟩
        have hn : map_find idx r.f_bind_by_col = none := by
          cases hm : map_find idx r.f_bind_by_col with
          | none => rfl
          | some v => simp [hm] at hc
        exact ⟨hn, rfl, h⟩

/-- A column for which a descriptor is registered under its index selects that
    descriptor and no other. -/
theorem selects_index_first (drv : driver) (r : record) (idx : Int) (key : column_key)
    (hc : (map_find idx r.f_bind_by_col).isSome = true) (h : selects drv r idx key) :
    key = .col idx :=
  selects_unique drv r idx key (.col idx) h (show idx = idx ∧ _ from ⟨rfl, hc⟩)

end record

namespace record

/-- One iteration of the loop of `record::bind_impl` keeps `selection_invariant`. -/
theorem bind_column_selection (drv : driver) (r0 : record) (addr : Nat) (max : Int)
    (hmax : max ≤ 32767) (idx : Int) (s s1 : statement) (r r1 : record)
    (h1 : 1 ≤ idx) (hle : idx ≤ max) (hP : selection_invariant drv r0 addr idx s r)
    (h : bind_column drv idx s r = .returns () (s1, r1)) :
    selection_invariant drv r0 addr (idx + 1) s1 r1 := by
  obtain ⟨haddr, hkeys, hdata, hregs, hall⟩ := hP
  obtain ⟨hfr, hcase⟩ := bind_column_exact drv idx s s1 r r1 h
  have ha1 : s1.addr = addr := (statement.frame_addr _ _ hfr).trans haddr
  have hkeys0 : ∀ k, (r0.find k).isSome = (r.find k).isSome := fun k => (hkeys k).symm
  rcases hcase with ⟨rfl, hnone⟩ | ⟨key, info, info1, hsel, hfind, hi1, _, hr1⟩
  · refine ⟨ha1, hkeys, hdata, fun b hb => ?_, fun i hi1 hi2 hex => ?_⟩
    · obtain ⟨hs, i, hi1, hi2, hc, hsl⟩ := hregs b hb
      exact ⟨hs, i, hi1, by omega, hc, hsl⟩
    · by_cases hlt : i < idx
      · exact hall i hi1 hlt hex
      · have hi : i = idx := by omega
        subst hi
        obtain ⟨key, hk⟩ := hex
        exact absurd (selects_congr drv r0 r1 i key hkeys hk) (hnone key)
  · have hsel0 : selects drv r0 idx key := selects_congr drv r r0 idx key hkeys0 hsel
    have hnn : info1.f_data ≠ .null := by
      by_cases hs : info.f_target_type = SQL_C_CHAR ∨ info.f_target_type = SQL_C_WCHAR
      · rw [hi1, if_pos hs]
        simp [with_buffer]
      · rw [hi1, if_neg hs]
        intro hn
        exact hs (hdata key info hfind hn)
    have hbind : r1.driver_bindings
        = unbind_column s.addr (to_SQLUSMALLINT idx) r.driver_bindings
          ++ [registration s.addr idx key info1] := by
      rw [hr1]
      simp only [hnn, if_false]
    have hfind1 : ∀ k, r1.find k = if k = key then some info1 else r.find k := by
      intro k
      rw [hr1]
      have := find_modify r k key (fun _ => info1)
      by_cases hk : k = key
      · rw [if_pos hk] at this ⊢
        subst hk
        rw [hfind] at this
        exact this
      · rw [if_neg hk] at this ⊢
        exact this
    refine ⟨ha1, fun k => ?_, fun k d hk hn => ?_, fun b hb => ?_, fun i hi1 hi2 hex => ?_⟩
    · rw [hr1]
      exact (isSome_find_modify r k key _).trans (hkeys k)
    · rw [hfind1] at hk
      by_cases hkk : k = key
      · rw [if_pos hkk] at hk
        cases hk
        exact absurd hn hnn
      · rw [if_neg hkk] at hk
        exact hdata k d hk hn
    · rw [hbind, List.mem_append] at hb
      rcases hb with hb | hb
      · unfold unbind_column at hb
        obtain ⟨hs, i, hi1, hi2, hc, hsl⟩ := hregs b (List.mem_filter.mp hb).1
        exact ⟨hs, i, hi1, by omega, hc, hsl⟩
      · rw [List.mem_singleton] at hb
        subst hb
        exact ⟨haddr, idx, h1, by omega, rfl, hsel0⟩
    · by_cases hlt : i < idx
      · obtain ⟨b, hb, hc⟩ := hall i hi1 hlt hex
        refine ⟨b, ?_, hc⟩
        rw [hbind, List.mem_append]
        left
        unfold unbind_column
        rw [List.mem_filter]
        refine ⟨hb, ?_⟩
        have hne := to_SQLUSMALLINT_ne i idx hi1 hlt (by omega)
        simp only [decide_eq_true_eq]
        intro hc2
        exact hne (hc ▸ hc2.2)
      · have hi : i = idx := by omega
        subst hi
        refine ⟨registration s.addr i key info1, ?_, rfl⟩
        rw [hbind, List.mem_append]
        right
        exact List.mem_singleton.mpr rfl

end record

namespace record

/-- An iteration of the loop of `record::bind_impl` for a column that selects no
    descriptor, when `SQLDescribeCol` succeeds: it returns and the record is as it
    was. -/
theorem bind_column_skips (drv : driver) (idx : Int) (s : statement) (r : record)
    (hnone : ∀ key, ¬ selects drv r idx key)
    (hdesc : (drv.SQLDescribeCol (to_SQLUSMALLINT idx)).return_code = SQL_SUCCESS) :
    ∃ s1, bind_column drv idx s r = .returns () (s1, r) ∧ s1.frame = s.frame := by
  have hcol : map_find idx r.f_bind_by_col = none := by
    cases hm : map_find idx r.f_bind_by_col with
    | none => rfl
    | some v =>
      exact absurd (show selects drv r idx (.col idx) from ⟨rfl, by rw [hm]; rfl⟩)
        (hnone (.col idx))
  have hname : map_find (c_str ((drv.SQLDescribeCol (to_SQLUSMALLINT idx)).column_name.set 255 0))
      r.f_bind_by_name = none := by
    cases hm : map_find (c_str ((drv.SQLDescribeCol (to_SQLUSMALLINT idx)).column_name.set 255 0))
        r.f_bind_by_name with
    | none => rfl
    | some v =>
      exact absurd (show selects drv r idx
          (.name (c_str ((drv.SQLDescribeCol (to_SQLUSMALLINT idx)).column_name.set 255 0)))
          from ⟨hcol, rfl, by rw [hm]; rfl⟩) (hnone _)
  obtain ⟨s1, hc, hfr⟩ := statement.check_success drv s
  refine ⟨s1, ?_, hfr⟩
  unfold bind_column
  simp only [hcol, hdesc, hc, hname]

theorem not_selects_of_empty (drv : driver) (r : record) (hcol : r.f_bind_by_col = [])
    (hname : r.f_bind_by_name = []) (idx : Int) (key : column_key) :
    ¬ selects drv r idx key := by
  intro h
  cases key with
  | name n =>
    simp only [selects, hname, map_find] at h
    simp at h
  | col c =>
    simp only [selects, hcol, map_find] at h
    simp at h

/-- On a statement that has data, when `SQLNumResultCols` succeeds with fewer than
    32767 columns and `SQLDescribeCol` succeeds for each of them, the member
    `record::bind_impl()` of a record with no descriptor returns and the record is as
    it was. -/
theorem bind_impl_of_no_descriptor (drv : driver) (s : statement) (r : record)
    (hcol : r.f_bind_by_col = []) (hname : r.f_bind_by_name = [])
    (hdata : s.f_has_data = true) (hnum : drv.SQLNumResultCols.1 = SQL_SUCCESS)
    (hmax : to_SQLSMALLINT drv.SQLNumResultCols.2 ≤ 32766)
    (hdesc : ∀ i : Int, 1 ≤ i → i ≤ to_SQLSMALLINT drv.SQLNumResultCols.2 →
      (drv.SQLDescribeCol (to_SQLUSMALLINT i)).return_code = SQL_SUCCESS) :
    ∃ s1, bind_impl drv s r = .returns () (s1, r) ∧ s1.frame = s.frame := by
  obtain ⟨s0, hc, hfr0⟩ := statement.check_success drv s
  have hcols : s.cols drv = .returns (to_SQLSMALLINT drv.SQLNumResultCols.2) s0 := by
    unfold statement.cols statement.has_data
    simp only [hdata, Bool.true_eq_false, if_false, hnum, hc]
  obtain ⟨s1, hl, hfr1⟩ := bind_loop_skips (bind_column drv)
    (to_SQLSMALLINT (to_SQLSMALLINT drv.SQLNumResultCols.2))
    (by rw [to_SQLSMALLINT_idem]; exact hmax) r
    (fun idx s2 h1 h2 => bind_column_skips drv idx s2 r
      (not_selects_of_empty drv r hcol hname idx)
      (hdesc idx h1 (by rw [to_SQLSMALLINT_idem] at h2; exact h2)))
    65536 1 s0 (le_refl _) (by rw [to_SQLSMALLINT_idem]; omega)
  refine ⟨s1, ?_, hfr1.trans hfr0⟩
  unfold bind_impl
  simp only [hcols]
  exact hl

end record

namespace record

/-- C22: after a `record::bind_impl` that returns, on a record the driver held no
    registration of and whose descriptors other than strings have a variable: for
    each column `i` of the result set the driver holds a registration exactly when
    a descriptor is registered under the index `i` or under the name the driver
    reports for the column `i`; the registration is for the descriptor under the
    index when there is one; there is no registration for anything else, so a record
    with no descriptors is left as it was. An iteration for a column that matches
    neither returns with the record unchanged when `SQLDescribeCol` succeeds, and
    for a record with no descriptors `bind_impl` returns when the driver answers
    with success for fewer than 32767 columns. -/
theorem bind_impl_binds_selected (drv : driver) (s s1 : statement) (r0 r1 : record)
    (hfresh : r0.driver_bindings = [])
    (hdata : ∀ k d, r0.find k = some d → d.f_data = .null →
      d.f_target_type = SQL_C_CHAR ∨ d.f_target_type = SQL_C_WCHAR)
    (h : bind_impl drv s r0 = .returns () (s1, r1)) :
    (∀ i : Int, 1 ≤ i → i ≤ to_SQLSMALLINT drv.SQLNumResultCols.2 →
        ((∃ b ∈ r1.driver_bindings, b.stmt = s.addr ∧ b.column = to_SQLUSMALLINT i)
          ↔ ((map_find i r0.f_bind_by_col).isSome = true
            ∨ (map_find (c_str ((drv.SQLDescribeCol (to_SQLUSMALLINT i)).column_name.set 255 0))
                r0.f_bind_by_name).isSome = true))
        ∧ (∀ b ∈ r1.driver_bindings, b.column = to_SQLUSMALLINT i →
            selects drv r0 i b.target
            ∧ ((map_find i r0.f_bind_by_col).isSome = true → b.target = .col i)))
    ∧ (∀ b ∈ r1.driver_bindings, b.stmt = s.addr
        ∧ ∃ i : Int, 1 ≤ i ∧ i ≤ to_SQLSMALLINT drv.SQLNumResultCols.2
            ∧ b.column = to_SQLUSMALLINT i)
    ∧ (r0.f_bind_by_col = [] → r0.f_bind_by_name = [] → r1 = r0)
    ∧ (∀ (idx : Int) (s2 : statement) (r2 : record), (∀ key, ¬ selects drv r2 idx key) →
        (drv.SQLDescribeCol (to_SQLUSMALLINT idx)).return_code = SQL_SUCCESS →
        ∃ s3, bind_column drv idx s2 r2 = .returns () (s3, r2) ∧ s3.frame = s2.frame)
    ∧ (∀ (s2 : statement) (r2 : record), r2.f_bind_by_col = [] → r2.f_bind_by_name = [] →
        s2.f_has_data = true → drv.SQLNumResultCols.1 = SQL_SUCCESS →
        to_SQLSMALLINT drv.SQLNumResultCols.2 ≤ 32766 →
        (∀ i : Int, 1 ≤ i → i ≤ to_SQLSMALLINT drv.SQLNumResultCols.2 →
          (drv.SQLDescribeCol (to_SQLUSMALLINT i)).return_code = SQL_SUCCESS) →
        ∃ s3, bind_impl drv s2 r2 = .returns () (s3, r2) ∧ s3.frame = s2.frame) := by
  have hloop : ∃ (s0 : statement) (idx1 : Int), s0.addr = s.addr
      ∧ to_SQLSMALLINT drv.SQLNumResultCols.2 < idx1
      ∧ (idx1 = 1 ∨ idx1 = to_SQLSMALLINT drv.SQLNumResultCols.2 + 1)
      ∧ selection_invariant drv r0 s.addr idx1 s1 r1
      ∧ (r0.f_bind_by_col = [] → r0.f_bind_by_name = [] → r1 = r0) := by
    unfold bind_impl at h
    cases hcols : s.cols drv with
    | diverges => simp [hcols] at h
    | raises e s2 => simp [hcols] at h
    | returns count s0 =>
      simp only [hcols] at h
      obtain ⟨hfr0, hcount⟩ := statement.cols_returns drv s s0 count hcols
      rw [hcount, to_SQLSMALLINT_idem] at h
      have ha0 : s0.addr = s.addr := statement.frame_addr _ _ hfr0
      have hinit : selection_invariant drv r0 s.addr 1 s0 r0 := by
        refine ⟨ha0, fun _ => rfl, hdata, fun b hb => ?_, fun i hi1 hi2 _ => ?_⟩
        · rw [hfresh] at hb
          cases hb
        · omega
      obtain ⟨idx1, hlt, hor, hP⟩ := bind_loop_returns (bind_column drv)
        (to_SQLSMALLINT drv.SQLNumResultCols.2) (to_SQLSMALLINT_le _)
        (selection_invariant drv r0 s.addr)
        (fun idx s2 r2 s3 r3 h1 h2 hP hb =>
          bind_column_selection drv r0 s.addr _ (to_SQLSMALLINT_le _) idx s2 s3 r2 r3 h1 h2 hP hb)
        65536 1 s0 r0 s1 r1 (le_refl _) hinit h
      refine ⟨s0, idx1, ha0, hlt, hor, hP, fun hc hn => ?_⟩
      obtain ⟨_, _, _, hP2⟩ := bind_loop_returns (bind_column drv)
        (to_SQLSMALLINT drv.SQLNumResultCols.2) (to_SQLSMALLINT_le _)
        (fun _ _ r2 => r2 = r0)
        (fun idx s2 r2 s3 r3 _ _ hP hb => by
          rcases (bind_column_exact drv idx s2 s3 r2 r3 hb).2 with
            ⟨hr, _⟩ | ⟨key, _, _, hsel, _⟩
          · exact hr.trans hP
          · rw [hP] at hsel
            exact absurd hsel (not_selects_of_empty drv r0 hc hn idx key))
        65536 1 s0 r0 s1 r1 (le_refl _) rfl h
      exact hP2
  obtain ⟨s0, idx1, _, hlt, hor, ⟨_, _, _, hregs, hall⟩, hempty⟩ := hloop
  have hmax : to_SQLSMALLINT drv.SQLNumResultCols.2 ≤ 32767 := to_SQLSMALLINT_le _
  have hin : ∀ b ∈ r1.driver_bindings, b.stmt = s.addr
      ∧ ∃ i : Int, 1 ≤ i ∧ i ≤ to_SQLSMALLINT drv.SQLNumResultCols.2
          ∧ b.column = to_SQLUSMALLINT i ∧ selects drv r0 i b.target := by
    intro b hb
    obtain ⟨hs, i, hi1, hi2, hc, hsl⟩ := hregs b hb
    exact ⟨hs, i, hi1, by omega, hc, hsl⟩
  refine ⟨fun i hi1 hi2 => ⟨⟨?_, ?_⟩, fun b hb hc => ?_⟩,
    fun b hb => ?_, hempty,
    fun idx s2 r2 hnone hdesc => bind_column_skips drv idx s2 r2 hnone hdesc,
    fun s2 r2 hc hn hd hnum hm hdesc =>
      bind_impl_of_no_descriptor drv s2 r2 hc hn hd hnum hm hdesc⟩
  · rintro ⟨b, hb, _, hc⟩
    obtain ⟨_, j, hj1, hj2, hcj, hsl⟩ := hin b hb
    have hij : j = i :=
      to_SQLUSMALLINT_inj j i hj1 (by omega) hi1 (by omega) (hcj.symm.trans hc)
    subst hij
    exact (exists_selects_iff drv r0 j).mp ⟨_, hsl⟩
  · intro hor2
    obtain ⟨b, hb, hc⟩ := hall i hi1 (by omega) ((exists_selects_iff drv r0 i).mpr hor2)
    exact ⟨b, hb, (hin b hb).1, hc⟩
  · obtain ⟨_, j, hj1, hj2, hcj, hsl⟩ := hin b hb
    have hij : j = i :=
      to_SQLUSMALLINT_inj j i hj1 (by omega) hi1 (by omega) (hcj.symm.trans hc)
    subst hij
    exact ⟨hsl, fun hcol => selects_index_first drv r0 j b.target hcol hsl⟩
  · obtain ⟨hs, i, hi1, hi2, hc, _⟩ := hin b hb
    exact ⟨hs, i, hi1, hi2, hc⟩

theorem map_find_mem {κ α : Type} [DecidableEq κ] (k : κ) (v : α) :
    ∀ (m : List (κ × α)), map_find k m = some v → v ∈ m.map Prod.snd := by
  intro m
  induction m with
  | nil => intro h; simp [map_find] at h
  | cons e rest ih =>
    obtain ⟨k0, v0⟩ := e
    intro h
    by_cases h1 : k = k0
    · simp only [map_find, h1, if_true, Option.some.injEq] at h
      simp [h]
    · simp only [map_find, h1, if_false] at h
      simp [ih h]

theorem find_mem (r : record) (k : column_key) (d : bind_info_t) (h : r.find k = some d) :
    d ∈ r.f_bind_by_name.map Prod.snd ++ r.f_bind_by_col.map Prod.snd := by
  rw [List.mem_append]
  cases k with
  | name n => exact Or.inl (map_find_mem n d _ h)
  | col c => exact Or.inr (map_find_mem c d _ h)

/-- C22, at a concrete input: the record has descriptors under the names `id` and
    `name` and under the index 2; on the sample result set `(id, name)` the column 1
    is bound to the descriptor `id` and the column 2 to the descriptor of index 2,
    not to the descriptor `name`; a record with no descriptors is left with no
    registration. -/
theorem bind_impl_binds_selected_witness :
    bind_impl sample_driver sample_statement both_keys_record
      = .returns () (sample_statement, both_keys_bound_record)
    ∧ both_keys_bound_record.driver_bindings.map (fun b => (b.column, b.target))
        = [(1, .name (lit "id")), (2, .col 2)]
    ∧ (∀ b ∈ both_keys_bound_record.driver_bindings, b.column = to_SQLUSMALLINT 2 →
        selects sample_driver both_keys_record 2 b.target
        ∧ ((map_find 2 both_keys_record.f_bind_by_col).isSome = true → b.target = .col 2))
    ∧ bind_impl sample_driver sample_statement { f_statement := some 1 }
        = .returns () (sample_statement, { f_statement := some 1 }) :=
  ⟨by rfl, by rfl,
   ((bind_impl_binds_selected sample_driver sample_statement sample_statement both_keys_record
      both_keys_bound_record (by rfl)
      (fun k d hk hn =>
        (by decide : ∀ d ∈ both_keys_record.f_bind_by_name.map Prod.snd
            ++ both_keys_record.f_bind_by_col.map Prod.snd,
          d.f_data = .null → d.f_target_type = SQL_C_CHAR ∨ d.f_target_type = SQL_C_WCHAR)
          d (find_mem both_keys_record k d hk) hn)
      (by rfl)).1 2 (by decide) (by decide)).2,
   by rfl⟩

end record

end odbcpp
